import Mathlib

/-! Machine handles of the validator (`validator/server_arb/machine.go`)

A shallow embedding of the Go type `fogitratorMachine` and of its methods.

* The execution engine behind `fogitrator.h` is not part of the repository: it is taken as a
  parameter, a record `Engine` of the C functions the Go code calls.  Its memory is an
  arbitrary type `N`; a `*C.struct_Machine` is `nil` or an address into that memory.
* Go methods mutate the receiver and the package-level variables in place.  Here every
  method takes the package state (`World`) and the receiver, and returns the new ones.
* Every cgo call, every watcher goroutine started or told to stop and every
  `runtime.SetFinalizer` is appended to `World.trace`, so that "the engine was not invoked"
  is a statement about the trace.
* `uint64` values are natural numbers, `int64` values are integers wrapped with `wrapInt64`.
-/

namespace ServerFog

/-! ## Data model -/

/-- A `*C.struct_Machine`: `none` is `nil`, `some a` is the address of a native machine. -/
abbrev MachinePtr := Option Nat

/-- The two errors `ctx.Err()` can return once a context is done. -/
inductive CtxError where
  | Canceled
  | DeadlineExceeded
  deriving DecidableEq, Repr

/-- A non-nil Go `error` as produced in `machine.go`: `errors.New(msg)` or the error of a
context.  A Go `error` result is an `Option GoError`, `none` being `nil`. -/
inductive GoError where
  | errorsNew (msg : String)
  | ctx (e : CtxError)
  deriving DecidableEq, Repr

/-- The text of an error, `err.Error()`. -/
def GoError.Error : GoError → String
  | .errorsNew msg => msg
  | .ctx .Canceled => "context canceled"
  | .ctx .DeadlineExceeded => "context deadline exceeded"

/-- What a call observes of its `context.Context`.

`conditionByte` is what the watcher goroutine of `manageConditionByte` does to the shared
byte while the engine runs: `some k` when it stores 1 before the engine's `k`-th read of the
byte, `none` when the byte stays 0 for the whole call.  `Err` is the value of `ctx.Err()` at
the `return ctx.Err()` statement that follows the engine call. -/
structure Context where
  conditionByte : Option Nat
  Err : Option CtxError
  deriving DecidableEq, Repr

/-- The C functions of `fogitrator.h` called from `machine.go`. -/
inductive EngineFn where
  | free_machine
  | set_preimage_resolver
  | clone_machine
  | set_global_state
  | global_state
  | get_num_steps
  | get_status
  | step
  | step_until_host_io
  | hash
  | module_root
  | gen_proof
  | serialize_state
  | deserialize_and_replace_state
  | add_inbox_message
  | set_context
  deriving DecidableEq, Repr

/-- One observable action of the Go code. -/
inductive Event where
  /-- The cgo call `C.fogitrator_<fn>(ptr, ...)`. -/
  | cgo (fn : EngineFn) (ptr : MachinePtr)
  /-- The cgo call `C.fogitrator_free_proof(rustProof)`, which takes no machine. -/
  | freeProof
  /-- The goroutine of `manageConditionByte` was started. -/
  | watcherArmed
  /-- The `cancel` closure of `manageConditionByte` ran: `close(doneEarlyChan)`. -/
  | watcherCancelled
  /-- The call `runtime.SetFinalizer(mach, (*fogitratorMachine).Destroy)`. -/
  | setFinalizerMachine
  /-- The call `runtime.SetFinalizer(m, nil)`. -/
  | clearFinalizerMachine
  /-- The call `runtime.SetFinalizer(m.contextId, freeContextId)`. -/
  | setFinalizerContextId (id : Int)
  deriving DecidableEq, Repr

/-- The type `GoPreimageResolver = func(common.Hash) ([]byte, error)`. -/
abbrev GoPreimageResolver := List Nat → Except GoError (List Nat)

/-- A value stored in the `sync.Map` `preimageResolvers`, whose values have type `any`. -/
inductive MapValue where
  | resolver (f : GoPreimageResolver)
  | other (tag : Nat)

/-- The execution engine, a parameter of the development: the C functions of `fogitrator.h`
as functions on the engine's memory `N`.  `G` is `validator.GoGlobalState` and `C` the C
global state; `GlobalStateToC` and `GlobalStateFromC` are declared in a file of the package
that is not part of the sources at hand.  The status and step-count getters and the
functions producing a hash, a global state or a proof only read the engine's memory. -/
structure Engine (N G C : Type) where
  STATUS_RUNNING : Nat
  STATUS_ERRORED : Nat
  GlobalStateToC : G → C
  GlobalStateFromC : C → G
  free_machine : N → MachinePtr → N
  set_preimage_resolver : N → MachinePtr → N
  clone_machine : N → MachinePtr → N × MachinePtr
  set_global_state : N → MachinePtr → C → N
  global_state : N → MachinePtr → C
  get_num_steps : N → MachinePtr → Nat
  get_status : N → MachinePtr → Nat
  /-- Arguments: machine, step count, condition byte; result: new memory and the error
  string, `none` for the C null pointer. -/
  step : N → MachinePtr → Nat → Option Nat → N × Option String
  step_until_host_io : N → MachinePtr → Option Nat → N
  hash : N → MachinePtr → List Nat
  module_root : N → MachinePtr → List Nat
  gen_proof : N → MachinePtr → List Nat
  serialize_state : N → MachinePtr → String → N × Int
  deserialize_and_replace_state : N → MachinePtr → String → N × Int
  /-- Arguments: machine, inbox identifier, index, data. -/
  add_inbox_message : N → MachinePtr → Nat → Nat → List Nat → N × Int
  set_context : N → MachinePtr → Nat → N

/-- The struct `fogitratorMachine`.  The mutex is not modelled: methods run one at a time.
`contextId` is a `*int64`: `none` is `nil`, `some id` a pointer to the value `id`. -/
structure fogitratorMachine where
  ptr : MachinePtr
  contextId : Option Int
  frozen : Bool
  deriving DecidableEq, Repr

/-- The package-level state: the engine's memory, the variables `preimageResolvers` and
`lastPreimageResolverId`, and the actions performed so far, oldest first. -/
structure World (N : Type) where
  native : N
  preimageResolvers : List (Int × MapValue)
  lastPreimageResolverId : Int
  trace : List Event

/-- Append an action to the trace. -/
def World.log {N : Type} (w : World N) (e : Event) : World N :=
  { w with trace := w.trace ++ [e] }

/-- Replace the engine's memory. -/
def World.setNative {N : Type} (w : World N) (n : N) : World N :=
  { w with native := n }

/-- Two's-complement wrap-around of `int64` arithmetic. -/
def wrapInt64 (x : Int) : Int :=
  (x + 2 ^ 63) % 2 ^ 64 - 2 ^ 63

/-- The conversion `C.uint64_t(id)` of an `int64`. -/
def toUint64 (x : Int) : Nat :=
  (x % 2 ^ 64).toNat

/-- The method `Store` of `sync.Map`: the entry of `key` is replaced or added. -/
def syncMapStore (m : List (Int × MapValue)) (key : Int) (value : MapValue) :
    List (Int × MapValue) :=
  (key, value) :: m.filter (fun kv => kv.1 != key)

/-- The method `Load` of `sync.Map`. -/
def syncMapLoad (m : List (Int × MapValue)) (key : Int) : Option MapValue :=
  (m.find? (fun kv => kv.1 == key)).map Prod.snd

/-- The method `Delete` of `sync.Map`. -/
def syncMapDelete (m : List (Int × MapValue)) (key : Int) : List (Int × MapValue) :=
  m.filter (fun kv => kv.1 != key)

/-- The error `errors.New("machine frozen")`. -/
def errFrozen : GoError := .errorsNew "machine frozen"

/-- A Go run-time panic. -/
inductive GoPanic where
  | nilPointerDereference
  deriving DecidableEq, Repr

/-- The engine's memory is replaced by the outcome of a cgo call, and the call is logged. -/
def World.cgo {N : Type} (w : World N) (fn : EngineFn) (ptr : MachinePtr) (n : N) : World N :=
  (w.setNative n).log (.cgo fn ptr)

/-! ## The methods of `fogitratorMachine` -/

section Methods

variable {N G C : Type} (E : Engine N G C)

/-- The method `Destroy` (lines 55-65). -/
def Destroy (w : World N) (m : fogitratorMachine) : World N × fogitratorMachine :=
  if m.ptr.isSome then
    let w1 := w.cgo .free_machine m.ptr (E.free_machine w.native m.ptr)
    let m1 := { m with ptr := none }
    let w2 := w1.log .clearFinalizerMachine
    (w2, { m1 with contextId := none })
  else
    (w, { m with contextId := none })

/-- The function `freeContextId` (lines 67-69), the finalizer of a `contextId`. -/
def freeContextId (w : World N) (context : Int) : World N :=
  { w with preimageResolvers := syncMapDelete w.preimageResolvers context }

/-- The function `machineFromPointer` (lines 71-79); the result `none` is the `nil` handle. -/
def machineFromPointer (w : World N) (ptr : MachinePtr) : World N × Option fogitratorMachine :=
  if ptr.isNone then
    (w, none)
  else
    let mach : fogitratorMachine := { ptr := ptr, contextId := none, frozen := false }
    let w1 := w.cgo .set_preimage_resolver ptr (E.set_preimage_resolver w.native ptr)
    let w2 := w1.log .setFinalizerMachine
    (w2, some mach)

/-- The method `Freeze` (lines 93-95). -/
def Freeze (m : fogitratorMachine) : fogitratorMachine :=
  { m with frozen := true }

/-- The method `Clone` (lines 98-105).  When `machineFromPointer` returns the `nil` handle,
the assignment `newMach.contextId = m.contextId` panics. -/
def Clone (w : World N) (m : fogitratorMachine) : World N × Except GoPanic fogitratorMachine :=
  let r := E.clone_machine w.native m.ptr
  let w1 := w.cgo .clone_machine m.ptr r.1
  let r2 := machineFromPointer E w1 r.2
  match r2.2 with
  | none => (r2.1, .error .nilPointerDereference)
  | some newMach => (r2.1, .ok { newMach with contextId := m.contextId })

/-- The method `SetGlobalState` (lines 111-121). -/
def SetGlobalState (w : World N) (m : fogitratorMachine) (globalState : G) :
    World N × Option GoError :=
  if m.frozen then
    (w, some errFrozen)
  else
    let cGlobalState := E.GlobalStateToC globalState
    (w.cgo .set_global_state m.ptr (E.set_global_state w.native m.ptr cGlobalState), none)

/-- The method `GetGlobalState` (lines 123-129). -/
def GetGlobalState (w : World N) (m : fogitratorMachine) : World N × G :=
  let cGlobalState := E.global_state w.native m.ptr
  (w.log (.cgo .global_state m.ptr), E.GlobalStateFromC cGlobalState)

/-- The method `GetStepCount` (lines 131-136); the result is a `uint64`. -/
def GetStepCount (w : World N) (m : fogitratorMachine) : World N × Nat :=
  (w.log (.cgo .get_num_steps m.ptr), E.get_num_steps w.native m.ptr % 2 ^ 64)

/-- The method `IsRunning` (lines 138-143). -/
def IsRunning (w : World N) (m : fogitratorMachine) : World N × Bool :=
  (w.log (.cgo .get_status m.ptr), decide (E.get_status w.native m.ptr = E.STATUS_RUNNING))

/-- The method `IsErrored` (lines 145-150). -/
def IsErrored (w : World N) (m : fogitratorMachine) : World N × Bool :=
  (w.log (.cgo .get_status m.ptr), decide (E.get_status w.native m.ptr = E.STATUS_ERRORED))

/-- The method `Status` (lines 152-157); the result is a `uint8`. -/
def Status (w : World N) (m : fogitratorMachine) : World N × Nat :=
  (w.log (.cgo .get_status m.ptr), E.get_status w.native m.ptr % 2 ^ 8)

/-- The method `ValidForStep` (lines 159-169). -/
def ValidForStep (w : World N) (m : fogitratorMachine) (requestedStep : Nat) : World N × Bool :=
  let r := GetStepCount E w m
  let haveStep := r.2
  if haveStep > requestedStep then
    (r.1, false)
  else if haveStep = requestedStep then
    (r.1, true)
  else
    let r2 := IsRunning E r.1 m
    (r2.1, !r2.2)

/-- The function `manageConditionByte` (lines 171-192): the watcher goroutine is started.
The byte it returns is `ctx.conditionByte`, and its `cancel` closure is `cancelWatcher`. -/
def manageConditionByte (w : World N) (ctx : Context) : World N × Option Nat :=
  (w.log .watcherArmed, ctx.conditionByte)

/-- The closure `cancel` returned by `manageConditionByte`, run by `defer cancel()`. -/
def cancelWatcher (w : World N) : World N :=
  w.log .watcherCancelled

/-- The method `Step` (lines 194-213); `count` is a `uint64`. -/
def Step (w : World N) (m : fogitratorMachine) (ctx : Context) (count : Nat) :
    World N × Option GoError :=
  if m.frozen then
    (w, some errFrozen)
  else
    let c := manageConditionByte w ctx
    let r := E.step c.1.native m.ptr count c.2
    let w2 := c.1.cgo .step m.ptr r.1
    match r.2 with
    | some errString => (cancelWatcher w2, some (.errorsNew errString))
    | none => (cancelWatcher w2, ctx.Err.map GoError.ctx)

/-- The method `StepUntilHostIo` (lines 215-229). -/
def StepUntilHostIo (w : World N) (m : fogitratorMachine) (ctx : Context) :
    World N × Option GoError :=
  if m.frozen then
    (w, some errFrozen)
  else
    let c := manageConditionByte w ctx
    let w2 := c.1.cgo .step_until_host_io m.ptr (E.step_until_host_io c.1.native m.ptr c.2)
    (cancelWatcher w2, ctx.Err.map GoError.ctx)

/-- The loop over `bytes.bytes`, a C array of 32 bytes, that assigns `hash[i] = byte(b)` in a
zero `common.Hash`. -/
def copyBytes32 (bytes : List Nat) : List Nat :=
  (List.range 32).map (fun i => bytes.getD i 0 % 2 ^ 8)

/-- The method `Hash` (lines 231-240). -/
def Hash (w : World N) (m : fogitratorMachine) : World N × List Nat :=
  let bytes := E.hash w.native m.ptr
  (w.log (.cgo .hash m.ptr), copyBytes32 bytes)

/-- The method `GetModuleRoot` (lines 242-251). -/
def GetModuleRoot (w : World N) (m : fogitratorMachine) : World N × List Nat :=
  let bytes := E.module_root w.native m.ptr
  (w.log (.cgo .module_root m.ptr), copyBytes32 bytes)

/-- The method `ProveNextStep` (lines 252-262). -/
def ProveNextStep (w : World N) (m : fogitratorMachine) : World N × List Nat :=
  let rustProof := E.gen_proof w.native m.ptr
  let w1 := w.log (.cgo .gen_proof m.ptr)
  let proofBytes := rustProof
  (w1.log .freeProof, proofBytes)

/-- The method `SerializeState` (lines 264-278). -/
def SerializeState (w : World N) (m : fogitratorMachine) (path : String) :
    World N × Option GoError :=
  let r := E.serialize_state w.native m.ptr path
  let w1 := w.cgo .serialize_state m.ptr r.1
  if r.2 ≠ 0 then
    (w1, some (.errorsNew "failed to serialize machine state"))
  else
    (w1, none)

/-- The method `DeserializeAndReplaceState` (lines 280-298). -/
def DeserializeAndReplaceState (w : World N) (m : fogitratorMachine) (path : String) :
    World N × Option GoError :=
  if m.frozen then
    (w, some errFrozen)
  else
    let r := E.deserialize_and_replace_state w.native m.ptr path
    let w1 := w.cgo .deserialize_and_replace_state m.ptr r.1
    if r.2 ≠ 0 then
      (w1, some (.errorsNew "failed to deserialize machine state"))
    else
      (w1, none)

/-- The method `AddSequencerInboxMessage` (lines 300-316); `index` is a `uint64`. -/
def AddSequencerInboxMessage (w : World N) (m : fogitratorMachine) (index : Nat)
    (data : List Nat) : World N × Option GoError :=
  if m.frozen then
    (w, some errFrozen)
  else
    let r := E.add_inbox_message w.native m.ptr 0 index data
    let w1 := w.cgo .add_inbox_message m.ptr r.1
    if r.2 ≠ 0 then
      (w1, some (.errorsNew "failed to add sequencer inbox message"))
    else
      (w1, none)

/-- The method `AddDelayedInboxMessage` (lines 318-335); `index` is a `uint64`. -/
def AddDelayedInboxMessage (w : World N) (m : fogitratorMachine) (index : Nat)
    (data : List Nat) : World N × Option GoError :=
  if m.frozen then
    (w, some errFrozen)
  else
    let r := E.add_inbox_message w.native m.ptr 1 index data
    let w1 := w.cgo .add_inbox_message m.ptr r.1
    if r.2 ≠ 0 then
      (w1, some (.errorsNew "failed to add sequencer inbox message"))
    else
      (w1, none)

/-- The method `SetPreimageResolver` (lines 370-383). -/
def SetPreimageResolver (w : World N) (m : fogitratorMachine) (resolver : GoPreimageResolver) :
    World N × fogitratorMachine × Option GoError :=
  if m.frozen then
    (w, m, some errFrozen)
  else
    let id := wrapInt64 (w.lastPreimageResolverId + 1)
    let w1 := { w with lastPreimageResolverId := id }
    let w2 := { w1 with
      preimageResolvers := syncMapStore w1.preimageResolvers id (.resolver resolver) }
    let m1 := { m with contextId := some id }
    let w3 := w2.log (.setFinalizerContextId id)
    let w4 := w3.cgo .set_context m.ptr (E.set_context w3.native m.ptr (toUint64 id))
    (w4, m1, none)

/-- The method `Destroy` called `k` times in a row on the same handle. -/
def DestroyTimes (k : Nat) (w : World N) (m : fogitratorMachine) : World N × fogitratorMachine :=
  match k with
  | 0 => (w, m)
  | k + 1 =>
    let r := Destroy E w m
    DestroyTimes k r.1 r.2

end Methods

/-- The number of calls of `C.fogitrator_free_machine` in a trace. -/
def freeCalls (trace : List Event) : Nat :=
  (trace.filter (fun e => match e with
    | .cgo .free_machine _ => true
    | _ => false)).length

/-- The cgo calls of a trace that were handed the `nil` machine pointer. -/
def nilCalls (trace : List Event) : List EngineFn :=
  trace.filterMap (fun e => match e with
    | .cgo fn none => some fn
    | _ => none)

/-! ## The resolver callback and the registry -/

/-- The C struct `ResolvedPreimage`: `ptr` is `none` for the null pointer, or the bytes
`C.CBytes` copied; `len` is a `ptrdiff_t`. -/
structure ResolvedPreimage where
  ptr : Option (List Nat)
  len : Int
  deriving DecidableEq, Repr

/-- The exported function `preimageResolver` (lines 340-368).  `context` is a `C.size_t`,
turned into an `int64` by `int64(context)`; `ptr` stands for the bytes the engine's pointer
points to, of which the first 32 are copied into `hash`.  A resolver is a total function;
the two log lines are not modelled. -/
def preimageResolver {N : Type} (w : World N) (context : Nat) (ptr : List Nat) :
    ResolvedPreimage :=
  let hash := ptr.take 32
  match syncMapLoad w.preimageResolvers (wrapInt64 context) with
  | none => { ptr := none, len := -1 }
  | some (.other _) => { ptr := none, len := -1 }
  | some (.resolver resolverFunc) =>
    match resolverFunc hash with
    | .error _ => { ptr := none, len := -1 }
    | .ok preimage => { ptr := some preimage, len := preimage.length }

/-- A series of `SetPreimageResolver` calls, each on its own handle and with its own
resolver, run one after the other; the result is the package state after the last call and
the tokens the successful calls bound to their handles, in the order of the calls. -/
def SetPreimageResolverCalls {N G C : Type} (E : Engine N G C) (w : World N) :
    List (fogitratorMachine × GoPreimageResolver) → World N × List Int
  | [] => (w, [])
  | call :: rest =>
    let r := SetPreimageResolver E w call.1 call.2
    let tail := SetPreimageResolverCalls E r.1 rest
    match r.2.2, r.2.1.contextId with
    | none, some t => (tail.1, t :: tail.2)
    | _, _ => (tail.1, tail.2)

/-! ## Series of calls on one handle -/

/-- A call of a method of `fogitratorMachine`, with its arguments. -/
inductive Call (G : Type) where
  | Destroy
  | Freeze
  | Clone
  | SetGlobalState (globalState : G)
  | GetGlobalState
  | GetStepCount
  | IsRunning
  | IsErrored
  | Status
  | ValidForStep (requestedStep : Nat)
  | Step (ctx : Context) (count : Nat)
  | StepUntilHostIo (ctx : Context)
  | Hash
  | GetModuleRoot
  | ProveNextStep
  | SerializeState (path : String)
  | DeserializeAndReplaceState (path : String)
  | AddSequencerInboxMessage (index : Nat) (data : List Nat)
  | AddDelayedInboxMessage (index : Nat) (data : List Nat)
  | SetPreimageResolver (resolver : GoPreimageResolver)

/-- The package state and the receiver after one call on the handle `m`.  Only `Destroy`,
`Freeze` and `SetPreimageResolver` assign fields of the receiver; after any other method the
receiver is as it was. -/
def perform {N G C : Type} (E : Engine N G C) (w : World N) (m : fogitratorMachine) :
    Call G → World N × fogitratorMachine
  | .Destroy => Destroy E w m
  | .Freeze => (w, Freeze m)
  | .Clone => ((Clone E w m).1, m)
  | .SetGlobalState globalState => ((SetGlobalState E w m globalState).1, m)
  | .GetGlobalState => ((GetGlobalState E w m).1, m)
  | .GetStepCount => ((GetStepCount E w m).1, m)
  | .IsRunning => ((IsRunning E w m).1, m)
  | .IsErrored => ((IsErrored E w m).1, m)
  | .Status => ((Status E w m).1, m)
  | .ValidForStep requestedStep => ((ValidForStep E w m requestedStep).1, m)
  | .Step ctx count => ((Step E w m ctx count).1, m)
  | .StepUntilHostIo ctx => ((StepUntilHostIo E w m ctx).1, m)
  | .Hash => ((Hash E w m).1, m)
  | .GetModuleRoot => ((GetModuleRoot E w m).1, m)
  | .ProveNextStep => ((ProveNextStep E w m).1, m)
  | .SerializeState path => ((SerializeState E w m path).1, m)
  | .DeserializeAndReplaceState path => ((DeserializeAndReplaceState E w m path).1, m)
  | .AddSequencerInboxMessage index data => ((AddSequencerInboxMessage E w m index data).1, m)
  | .AddDelayedInboxMessage index data => ((AddDelayedInboxMessage E w m index data).1, m)
  | .SetPreimageResolver resolver =>
    ((SetPreimageResolver E w m resolver).1, (SetPreimageResolver E w m resolver).2.1)

/-- The package state and the receiver after a series of calls on the same handle. -/
def performAll {N G C : Type} (E : Engine N G C) (w : World N) (m : fogitratorMachine) :
    List (Call G) → World N × fogitratorMachine
  | [] => (w, m)
  | call :: rest => performAll E (perform E w m call).1 (perform E w m call).2 rest

/-! ## The machine loader (`validator/server_arb/machine_loader.go`) -/

/-- The struct `fogMachines`; a `*fogitratorMachine` is `none` for `nil`. -/
structure fogMachines where
  zeroStep : Option fogitratorMachine
  hostIo : Option fogitratorMachine
  deriving DecidableEq, Repr

/-- The method `GetMachine` of the embedded `server_common.MachineLoader[fogMachines]`, whose
file is not part of the sources at hand: a parameter.  `L` is the state of the loader; the
result is the new state and the Go pair `(*fogMachines, error)`. -/
abbrev GetMachineFn (L : Type) :=
  L → Context → List Nat → L × Option fogMachines × Option GoError

/-- The method `GetHostIoMachine` (lines 38-44).  With a nil error and a nil machine set,
reading `machines.hostIo` panics. -/
def GetHostIoMachine {L : Type} (GetMachine : GetMachineFn L) (a : L) (ctx : Context)
    (moduleRoot : List Nat) :
    L × Except GoPanic (Option fogitratorMachine × Option GoError) :=
  let r := GetMachine a ctx moduleRoot
  match r.2.2 with
  | some err => (r.1, .ok (none, some err))
  | none =>
    match r.2.1 with
    | none => (r.1, .error .nilPointerDereference)
    | some machines => (r.1, .ok (machines.hostIo, none))

/-- The method `GetZeroStepMachine` (lines 46-52). -/
def GetZeroStepMachine {L : Type} (GetMachine : GetMachineFn L) (a : L) (ctx : Context)
    (moduleRoot : List Nat) :
    L × Except GoPanic (Option fogitratorMachine × Option GoError) :=
  let r := GetMachine a ctx moduleRoot
  match r.2.2 with
  | some err => (r.1, .ok (none, some err))
  | none =>
    match r.2.1 with
    | none => (r.1, .error .nilPointerDereference)
    | some machines => (r.1, .ok (machines.zeroStep, none))

/-! ## A small engine, for concrete runs

Nothing below is part of the repository: it is one possible engine, used to run the methods
on concrete handles. -/

/-- A native machine of the small engine: it runs until `steps` reaches `length`, and every
`step` call on it fails with `fault` when that is set. -/
structure ToyMachine where
  steps : Nat
  status : Nat
  length : Nat
  fault : Option String
  globalState : Nat
  deriving DecidableEq, Repr

/-- The machine at an address of the small engine's memory. -/
def toyAt (n : List ToyMachine) (p : MachinePtr) : Option ToyMachine :=
  p.bind (fun a => n.get? a)

/-- The step function of the small engine: a faulty machine reports its fault, a machine
that is not running stays as it is, a running one advances until it has done `count` steps,
reaches its end or sees the condition byte set. -/
def toyStep (n : List ToyMachine) (p : MachinePtr) (count : Nat) (cond : Option Nat) :
    List ToyMachine × Option String :=
  match p, toyAt n p with
  | some a, some c =>
    match c.fault with
    | some e => (n.set a { c with status := 2 }, some e)
    | none =>
      if c.status ≠ 0 then (n, none)
      else
        let k := min (min count (c.length - c.steps)) (cond.getD count)
        let steps := c.steps + k
        (n.set a { c with steps := steps, status := if steps < c.length then 0 else 1 }, none)
  | _, _ => (n, none)

/-- The small engine.  Status 0 is running, 1 finished, 2 errored, as in the C enum. -/
def toyEngine : Engine (List ToyMachine) Nat Nat where
  STATUS_RUNNING := 0
  STATUS_ERRORED := 2
  GlobalStateToC := id
  GlobalStateFromC := id
  free_machine := fun n _ => n
  set_preimage_resolver := fun n _ => n
  clone_machine := fun n p =>
    match toyAt n p with
    | some c => (n ++ [c], some n.length)
    | none => (n, none)
  set_global_state := fun n p g =>
    match p, toyAt n p with
    | some a, some c => n.set a { c with globalState := g }
    | _, _ => n
  global_state := fun n p => ((toyAt n p).map ToyMachine.globalState).getD 0
  get_num_steps := fun n p => ((toyAt n p).map ToyMachine.steps).getD 0
  get_status := fun n p => ((toyAt n p).map ToyMachine.status).getD 0
  step := toyStep
  step_until_host_io := fun n p cond => (toyStep n p 1 cond).1
  hash := fun n p => [((toyAt n p).map ToyMachine.steps).getD 0]
  module_root := fun _ _ => []
  gen_proof := fun n p => [((toyAt n p).map ToyMachine.steps).getD 0]
  serialize_state := fun n _ _ => (n, 0)
  deserialize_and_replace_state := fun n _ _ => (n, 0)
  add_inbox_message := fun n _ _ _ _ => (n, 0)
  set_context := fun n _ _ => n

/-- A memory of three machines: a running one at step 5 of 9, an errored one at step 0, and
a running one whose steps fail. -/
def toyMemory : List ToyMachine :=
  [ { steps := 5, status := 0, length := 9, fault := none, globalState := 0 },
    { steps := 0, status := 2, length := 9, fault := none, globalState := 0 },
    { steps := 0, status := 0, length := 9, fault := some "out of memory", globalState := 0 } ]

/-- A package state over `toyMemory`, with nothing done yet. -/
def toyWorld : World (List ToyMachine) :=
  { native := toyMemory, preimageResolvers := [], lastPreimageResolverId := 0, trace := [] }

/-- A live, unfrozen handle on the running machine. -/
def toyRunning : fogitratorMachine :=
  { ptr := some 0, contextId := none, frozen := false }

/-- A live, unfrozen handle on the errored machine. -/
def toyErrored : fogitratorMachine :=
  { ptr := some 1, contextId := none, frozen := false }

/-- A live, unfrozen handle on the machine whose steps fail. -/
def toyFaulty : fogitratorMachine :=
  { ptr := some 2, contextId := none, frozen := false }

/-- A context that is not done. -/
def ctxLive : Context :=
  { conditionByte := none, Err := none }

/-- A context whose deadline fired before the engine read the condition byte. -/
def ctxExpired : Context :=
  { conditionByte := some 0, Err := some .DeadlineExceeded }

/-- A resolver that knows no preimage. -/
def toyResolver : GoPreimageResolver :=
  fun _ => .error (.errorsNew "unknown preimage")

/-- A resolver that knows the preimage of the hash made of 32 zero bytes only. -/
def toyPreimages : GoPreimageResolver :=
  fun hash => if hash = List.replicate 32 0 then .ok [7, 7, 7]
    else .error (.errorsNew "unknown preimage")

/-- A registry with a resolver under token 1 and a value of another type under token 2. -/
def toyRegistry : World (List ToyMachine) :=
  { toyWorld with
    preimageResolvers := [(1, .resolver toyPreimages), (2, .other 0)]
    lastPreimageResolverId := 2 }

/-- The package state after the running machine of the small engine got token 1 with
`toyPreimages` and `freeContextId` removed token 1. -/
def toyFreed : World (List ToyMachine) :=
  freeContextId (SetPreimageResolver toyEngine toyWorld toyRunning toyPreimages).1 1

/-- A machine set over the running and the errored machine of the small engine. -/
def toyMachines : fogMachines :=
  { zeroStep := some toyRunning, hostIo := some toyErrored }

/-- A loader without state that knows the module root `[1]` only. -/
def toyGetMachine : GetMachineFn Unit :=
  fun a _ moduleRoot =>
    if moduleRoot = [1] then (a, some toyMachines, none)
    else (a, none, some (.errorsNew "no such machine"))

/-! ## Watchers and the mutex -/

/-- The number of watcher goroutines started in a trace. -/
def armedCount (trace : List Event) : Nat :=
  trace.count .watcherArmed

/-- The number of times a `cancel` closure of `manageConditionByte` ran in a trace. -/
def cancelledCount (trace : List Event) : Nat :=
  trace.count .watcherCancelled

/-- The fields of `fogitratorMachine` other than the mutex. -/
inductive Field where
  | ptr
  | contextId
  | frozen
  deriving DecidableEq, Repr

/-- What a method does with its receiver, in the order of the source: `Lock` and `Unlock` of
`m.mutex` (the `Unlock` is deferred, it runs when the method returns), reads and writes of
the fields, and cgo calls on the machine of the handle. -/
inductive Access where
  | Lock
  | Unlock
  | Read (field : Field)
  | Write (field : Field)
  | Cgo (fn : EngineFn)
  deriving DecidableEq, Repr

/-- The accesses of one call of a method on the handle `m`, read off the body of the method.
The engine and the package state decide the branch `ValidForStep` takes and whether `Clone`
reaches the cgo call of `machineFromPointer`. -/
def lockTrace {N G C : Type} (E : Engine N G C) (w : World N) (m : fogitratorMachine) :
    Call G → List Access
  | .Destroy =>
    [.Lock, .Read .ptr]
      ++ (if m.ptr.isSome then [.Read .ptr, .Cgo .free_machine, .Write .ptr] else [])
      ++ [.Write .contextId, .Unlock]
  | .Freeze => [.Write .frozen]
  | .Clone =>
    [.Lock, .Read .ptr, .Cgo .clone_machine]
      ++ (if (E.clone_machine w.native m.ptr).2.isSome then [.Cgo .set_preimage_resolver]
          else [])
      ++ [.Read .contextId, .Unlock]
  | .SetGlobalState _ =>
    [.Lock, .Read .frozen]
      ++ (if m.frozen then [] else [.Read .ptr, .Cgo .set_global_state]) ++ [.Unlock]
  | .GetGlobalState => [.Lock, .Read .ptr, .Cgo .global_state, .Unlock]
  | .GetStepCount => [.Lock, .Read .ptr, .Cgo .get_num_steps, .Unlock]
  | .IsRunning => [.Lock, .Read .ptr, .Cgo .get_status, .Unlock]
  | .IsErrored => [.Lock, .Read .ptr, .Cgo .get_status, .Unlock]
  | .Status => [.Lock, .Read .ptr, .Cgo .get_status, .Unlock]
  | .ValidForStep requestedStep =>
    [.Lock, .Read .ptr, .Cgo .get_num_steps, .Unlock]
      ++ (if (GetStepCount E w m).2 < requestedStep then
            [.Lock, .Read .ptr, .Cgo .get_status, .Unlock]
          else [])
  | .Step _ _ =>
    [.Lock, .Read .frozen] ++ (if m.frozen then [] else [.Read .ptr, .Cgo .step]) ++ [.Unlock]
  | .StepUntilHostIo _ =>
    [.Lock, .Read .frozen]
      ++ (if m.frozen then [] else [.Read .ptr, .Cgo .step_until_host_io]) ++ [.Unlock]
  | .Hash => [.Lock, .Read .ptr, .Cgo .hash, .Unlock]
  | .GetModuleRoot => [.Lock, .Read .ptr, .Cgo .module_root, .Unlock]
  | .ProveNextStep => [.Lock, .Read .ptr, .Cgo .gen_proof, .Unlock]
  | .SerializeState _ => [.Lock, .Read .ptr, .Cgo .serialize_state, .Unlock]
  | .DeserializeAndReplaceState _ =>
    [.Lock, .Read .frozen]
      ++ (if m.frozen then [] else [.Read .ptr, .Cgo .deserialize_and_replace_state])
      ++ [.Unlock]
  | .AddSequencerInboxMessage _ _ =>
    [.Lock, .Read .frozen]
      ++ (if m.frozen then [] else [.Read .ptr, .Cgo .add_inbox_message]) ++ [.Unlock]
  | .AddDelayedInboxMessage _ _ =>
    [.Lock, .Read .frozen]
      ++ (if m.frozen then [] else [.Read .ptr, .Cgo .add_inbox_message]) ++ [.Unlock]
  | .SetPreimageResolver _ =>
    [.Lock, .Read .frozen]
      ++ (if m.frozen then []
          else [.Write .contextId, .Read .contextId, .Read .ptr, .Cgo .set_context])
      ++ [.Unlock]

/-- Whether, from a point where the caller holds the mutex or not (`held`), every read,
write and cgo call of the accesses happens while the mutex is held, every `Lock` finds the
mutex free and every `Unlock` finds it held, and the mutex is free at the end. -/
def guardedFrom (held : Bool) : List Access → Bool
  | [] => !held
  | .Lock :: rest => !held && guardedFrom true rest
  | .Unlock :: rest => held && guardedFrom false rest
  | _ :: rest => held && guardedFrom held rest

/-- Whether a method that is entered without the mutex makes all its accesses under it. -/
def guarded (accesses : List Access) : Bool :=
  guardedFrom false accesses

/-- The number of times the mutex is taken. -/
def criticalSections (accesses : List Access) : Nat :=
  accesses.count .Lock

/-- Whether a call is a call of `Freeze`. -/
def Call.isFreeze {G : Type} : Call G → Bool
  | .Freeze => true
  | _ => false

/-- One step of two goroutines that share a handle: each has a list of accesses left to
make, `holder` says which of them holds the mutex, and `pick` is the goroutine that moves.
The result is `none` when the picked goroutine cannot move: it has nothing left to do, or
its next access is a `Lock` of a mutex that is held. -/
def interleaveStep (state : Option Bool × List Access × List Access) (pick : Bool) :
    Option (Option Bool × List Access × List Access) :=
  let holder := state.1
  let mine := if pick then state.2.2 else state.2.1
  match mine with
  | [] => none
  | access :: rest =>
    let left := if pick then (state.2.1, rest) else (rest, state.2.2)
    match access with
    | .Lock => if holder.isSome then none else some (some pick, left)
    | .Unlock => some (none, left)
    | _ => some (holder, left)

/-- A schedule of two goroutines, run step by step; `none` when a step cannot be made. -/
def interleave (state : Option Bool × List Access × List Access) :
    List Bool → Option (Option Bool × List Access × List Access)
  | [] => some state
  | pick :: rest =>
    match interleaveStep state pick with
    | none => none
    | some next => interleave next rest

end ServerFog

/-! ## Validation runs (`validator/server_common/valrun.go`) -/

namespace ServerCommon

/-- A call of one of the two resolving methods of `containers.Promise`. -/
inductive PromiseCall (G Err : Type) where
  | Produce (value : G)
  | ProduceError (err : Err)
  deriving DecidableEq, Repr

/-- The type `containers.Promise` is not part of the sources at hand: its state is an
arbitrary type `P`, and its constructor and two resolving methods are parameters.  `G` is
`validator.GoGlobalState` and `Err` the type of non-nil Go errors. -/
structure PromiseOps (P G Err : Type) where
  NewPromise : P
  Produce : P → G → P
  ProduceError : P → Err → P

/-- The struct `ValRun`: the embedded promise and the module root. -/
structure ValRun (P : Type) where
  Promise : P
  root : List Nat
  deriving DecidableEq, Repr

/-- The method `WasmModuleRoot` (lines 14-16). -/
def ValRun.WasmModuleRoot {P : Type} (r : ValRun P) : List Nat :=
  r.root

/-- The function `NewValRun` (lines 20-25). -/
def NewValRun {P G Err : Type} (ops : PromiseOps P G Err) (root : List Nat) : ValRun P :=
  { Promise := ops.NewPromise, root := root }

/-- The method `ConsumeResult` (lines 27-33); `err` is `none` for the nil error.  Besides
the run it leaves behind, the result lists the calls made on the promise. -/
def ValRun.ConsumeResult {P G Err : Type} (ops : PromiseOps P G Err) (r : ValRun P) (res : G)
    (err : Option Err) : ValRun P × List (PromiseCall G Err) :=
  match err with
  | some e => ({ r with Promise := ops.ProduceError r.Promise e }, [.ProduceError e])
  | none => ({ r with Promise := ops.Produce r.Promise res }, [.Produce res])

/-- A promise that records the calls made on it, oldest first. -/
def toyPromise : PromiseOps (List (PromiseCall Nat String)) Nat String where
  NewPromise := []
  Produce := fun p value => p ++ [.Produce value]
  ProduceError := fun p err => p ++ [.ProduceError err]

/-! ## The machine loader (`server_common.MachineLoader`) -/

/-- Modelled from the spec: the value of a cache entry of the machine loader, whose file
(`server_common.MachineLoader`) is not part of the sources at hand.  An entry is either
"building", a build in progress shared by the callers that joined it (listed oldest first),
or "ready", a built machine set; a module root without entry is absent. -/
inductive CacheEntry (M : Type) where
  | building (joined : List Nat)
  | ready (machines : M)

/-- Modelled from the spec: the machine loader, whose file is not part of the sources at
hand.  `cache` maps a module root to its entry; `builds` lists the module roots for which
the machine-building function was started, oldest first; `returned` lists what `GetMachine`
returned so far: the caller, the module root and the machine set or the error. -/
structure MachineLoader (M Err : Type) where
  cache : List Nat → Option (CacheEntry M)
  builds : List (List Nat)
  returned : List (Nat × List Nat × Except Err M)

/-- What happens to a loader that serves concurrent callers: a caller enters `GetMachine`
for a module root, or the build in progress for a module root ends with a machine set or
with an error. -/
inductive LoaderEvent (M Err : Type) where
  | GetMachine (caller : Nat) (moduleRoot : List Nat)
  | buildDone (moduleRoot : List Nat) (outcome : Except Err M)

/-- A cache with the entry of one module root replaced. -/
def setEntry {M : Type} (cache : List Nat → Option (CacheEntry M)) (moduleRoot : List Nat)
    (entry : Option (CacheEntry M)) : List Nat → Option (CacheEntry M) :=
  fun root => if root = moduleRoot then entry else cache root

/-- Modelled from the spec: the cache entry a build leaves behind, in the loader whose file
is not part of the sources at hand: a machine set is stored as the ready entry, and a
failed build leaves no entry. -/
def entryAfterBuild {M Err : Type} : Except Err M → Option (CacheEntry M)
  | .ok machines => some (.ready machines)
  | .error _ => none

/-- Modelled from the spec: one step of the algorithm of `GetMachine`, whose file is not
part of the sources at hand.  A caller looks the module root up in the cache: a ready entry
is returned; a build in progress is joined; with no entry the caller becomes the builder,
which marks the entry as building and starts the machine-building function.  When a build
ends, its result goes to all who joined it; a machine set is stored as the ready entry, and
on an error the building mark is removed and nothing is stored. -/
def MachineLoader.step {M Err : Type} (l : MachineLoader M Err) :
    LoaderEvent M Err → MachineLoader M Err
  | .GetMachine caller moduleRoot =>
    match l.cache moduleRoot with
    | some (.ready machines) =>
      { l with returned := l.returned ++ [(caller, moduleRoot, .ok machines)] }
    | some (.building joined) =>
      { l with cache := setEntry l.cache moduleRoot (some (.building (joined ++ [caller]))) }
    | none =>
      { l with
        cache := setEntry l.cache moduleRoot (some (.building [caller]))
        builds := l.builds ++ [moduleRoot] }
  | .buildDone moduleRoot outcome =>
    match l.cache moduleRoot with
    | some (.building joined) =>
      { l with
        cache := setEntry l.cache moduleRoot (entryAfterBuild outcome)
        returned := l.returned ++ joined.map (fun caller => (caller, moduleRoot, outcome)) }
    | _ => l

/-- A loader after a series of events. -/
def MachineLoader.run {M Err : Type} (l : MachineLoader M Err) :
    List (LoaderEvent M Err) → MachineLoader M Err
  | [] => l
  | event :: rest => (l.step event).run rest

/-- Whether an event is about a given module root. -/
def LoaderEvent.concerns {M Err : Type} (moduleRoot : List Nat) : LoaderEvent M Err → Bool
  | .GetMachine _ root => root = moduleRoot
  | .buildDone root _ => root = moduleRoot

/-- The number of builds started for a module root. -/
def MachineLoader.buildsOf {M Err : Type} (l : MachineLoader M Err) (moduleRoot : List Nat) :
    Nat :=
  l.builds.count moduleRoot

/-- What `GetMachine` returned for a module root, oldest first. -/
def MachineLoader.returnedFor {M Err : Type} (l : MachineLoader M Err)
    (moduleRoot : List Nat) : List (Nat × List Nat × Except Err M) :=
  l.returned.filter (fun r => r.2.1 = moduleRoot)

/-- What a loader holds about one module root: its cache entry, the number of builds
started for it and what `GetMachine` returned for it. -/
def MachineLoader.view {M Err : Type} (l : MachineLoader M Err) (moduleRoot : List Nat) :
    Option (CacheEntry M) × Nat × List (Nat × List Nat × Except Err M) :=
  (l.cache moduleRoot, l.buildsOf moduleRoot, l.returnedFor moduleRoot)

/-- A loader that has served no call yet. -/
def newLoader (M Err : Type) : MachineLoader M Err :=
  { cache := fun _ => none, builds := [], returned := [] }

end ServerCommon

/-! ## Helpers of `util/fogmath` -/

namespace Fogmath

/-- The largest `int64`, `2 ^ 63 - 1`. -/
def MaxInt64 : Int := 9223372036854775807

/-- The smallest `int64`, `-2 ^ 63`. -/
def MinInt64 : Int := -9223372036854775808

/-- The Go conversion `int64(x)` of a `uint64`, and the wrap-around of `int64` arithmetic:
the value modulo `2 ^ 64` that lies in the `int64` range, from `-2 ^ 63` to `2 ^ 63 - 1`. -/
def int64 (x : Int) : Int :=
  (x + 9223372036854775808) % 18446744073709551616 - 9223372036854775808

/-- The wrap-around of `uint64` arithmetic: the value modulo `2 ^ 64`. -/
def uint64 (x : Int) : Nat :=
  (x % 18446744073709551616).toNat

/-- Modelled from the spec: the helper `fogmath.SaturatingSub`, whose file is not part of
the sources at hand: the subtraction of two `int64` that stops at the ends of the `int64`
range. -/
def SaturatingSub (a b : Int) : Int :=
  max MinInt64 (min MaxInt64 (a - b))

/-- Modelled from the spec: the helper `fogmath.SaturatingUCast`, whose file is not part of
the sources at hand: the conversion of an `int64` to `uint64` that turns a negative value
into 0. -/
def SaturatingUCast (value : Int) : Nat :=
  if value < 0 then 0 else value.toNat

/-- Modelled from the spec: the helper `fogmath.BigMulByUint`, whose file is not part of the
sources at hand: the product of a big integer and a `uint64`. -/
def BigMulByUint (value : Int) (multiplier : Nat) : Int :=
  value * multiplier

/-- Modelled from the spec: the helper `fogmath.BigMul`, whose file is not part of the
sources at hand: the product of two big integers. -/
def BigMul (multiplicand multiplier : Int) : Int :=
  multiplicand * multiplier

/-- Modelled from the spec: the helper `fogmath.BigSub`, whose file is not part of the
sources at hand: the difference of two big integers. -/
def BigSub (minuend subtrahend : Int) : Int :=
  minuend - subtrahend

/-- Modelled from the spec: the helper `fogmath.BigLessThan`, whose file is not part of the
sources at hand: whether the first big integer is below the second. -/
def BigLessThan (first second : Int) : Bool :=
  decide (first < second)

/-- The helpers of `util/fogmath` on basis points (`type Bips int64`), whose file is not
part of the sources at hand: they are parameters. -/
structure BipsOps where
  NaturalToBips : Int → Int
  ApproxExpBasisPoints : Int → Int
  BigMulByBips : Int → Int → Int

end Fogmath

/-! ## The L2 pricing model (`fogros/l2pricing/model.go`) -/

namespace L2pricing

open Fogmath

/-- The values of `L2PricingState` that `model.go` reads and writes.  The struct and its
storage-backed getters and setters are declared in a file that is not part of the sources
at hand; here a getter returns the stored value and a setter replaces it, without error.
The four counters are `uint64`, the two fees are big integers. -/
structure L2PricingState where
  speedLimitPerSecond : Nat
  gasBacklog : Nat
  pricingInertia : Nat
  backlogTolerance : Nat
  minBaseFeeWei : Int
  baseFeeWei : Int
  deriving DecidableEq, Repr

/-- A Go run-time panic of the pricing model. -/
inductive Panic where
  | integerDivideByZero
  deriving DecidableEq, Repr

/-- The method `AddToGasPool` (lines 27-35); `gas` is an `int64`.  The storage never fails,
so the error it returns is nil. -/
def AddToGasPool (ps : L2PricingState) (gas : Int) : L2PricingState :=
  let backlog := ps.gasBacklog
  let backlog := SaturatingUCast (SaturatingSub (int64 backlog) gas)
  { ps with gasBacklog := backlog }

/-- The method `UpdatePricingModel` (lines 38-52); `timePassed` is a `uint64`, products and
differences of `uint64` wrap around, and the division is the one of `int64`, which rounds
towards zero and panics on a zero divisor. -/
def UpdatePricingModel (ops : BipsOps) (ps : L2PricingState) (_l2BaseFee : Int)
    (timePassed : Nat) (_debug : Bool) : Except Panic L2PricingState :=
  let speedLimit := ps.speedLimitPerSecond
  let ps := AddToGasPool ps (int64 (uint64 (timePassed * speedLimit)))
  let inertia := ps.pricingInertia
  let tolerance := ps.backlogTolerance
  let backlog := ps.gasBacklog
  let minBaseFee := ps.minBaseFeeWei
  if backlog > uint64 (tolerance * speedLimit) then
    let excess := int64 (uint64 (backlog - uint64 (tolerance * speedLimit)))
    let divisor := int64 (uint64 (inertia * speedLimit))
    if divisor = 0 then
      .error .integerDivideByZero
    else
      let exponentBips := int64 (Int.tdiv (ops.NaturalToBips excess) divisor)
      let baseFee := ops.BigMulByBips minBaseFee (ops.ApproxExpBasisPoints exponentBips)
      .ok { ps with baseFeeWei := baseFee }
  else
    .ok { ps with baseFeeWei := minBaseFee }

/-- Basis-point helpers for concrete runs: a natural number is worth 10000 basis points,
the exponential is approximated by `1 + x`, and a product by basis points is divided by
10000. -/
def toyBips : BipsOps where
  NaturalToBips := fun natural => natural * 10000
  ApproxExpBasisPoints := fun value => 10000 + value
  BigMulByBips := fun value bips => value * bips / 10000

/-- A pricing state with the initial parameters of `model.go` and a backlog of 20 million
gas. -/
def toyPricing : L2PricingState :=
  { speedLimitPerSecond := 1000000, gasBacklog := 20000000, pricingInertia := 102,
    backlogTolerance := 10, minBaseFeeWei := 100000000, baseFeeWei := 100000000 }

/-- A pricing state whose speed limit and pricing inertia are both `2 ^ 32`, with a backlog
of 1 and no tolerance. -/
def wrapPricing : L2PricingState :=
  { speedLimitPerSecond := 4294967296, gasBacklog := 1, pricingInertia := 4294967296,
    backlogTolerance := 0, minBaseFeeWei := 100000000, baseFeeWei := 100000000 }

/-- A pricing state whose speed limit and backlog tolerance are both `2 ^ 32`, so that their
product is `2 ^ 64`, with a backlog of `2 ^ 40` and a pricing inertia of 1. -/
def wrapTolerance : L2PricingState :=
  { speedLimitPerSecond := 4294967296, gasBacklog := 1099511627776, pricingInertia := 1,
    backlogTolerance := 4294967296, minBaseFeeWei := 100000000, baseFeeWei := 100000000 }

/-- A pricing state whose speed limit is `2 ^ 62 + 1`, so that two seconds of it exceed
`2 ^ 63`, with no backlog, a tolerance of one second and a pricing inertia of 1. -/
def wrapElapsed : L2PricingState :=
  { speedLimitPerSecond := 4611686018427387905, gasBacklog := 0, pricingInertia := 1,
    backlogTolerance := 1, minBaseFeeWei := 100000000, baseFeeWei := 100000000 }

end L2pricing

/-! ## Precompiles (`precompiles/ArbGasInfo.go`, `precompiles/ArbOwner.go`) -/

namespace Precompiles

open Fogmath

/-- The constant `AssumedSimpleTxSize`. -/
def AssumedSimpleTxSize : Nat := 140

/-- What `GetPricesInWeiWithAggregator` reads: the fogOS version, the results of
`L1PricingState().PricePerUnit()` and of `L2PricingState().MinBaseFeeWei()` (a value or an
error), the block base fee `evm.Context.BaseFee`, and two constants declared outside the
sources at hand, `params.TxDataNonZeroGasEIP2028` and `storage.StorageWriteCost`. -/
structure GasInfoInput (Err : Type) where
  fogOSVersion : Nat
  PricePerUnit : Except Err Int
  MinBaseFeeWei : Except Err Int
  BaseFee : Int
  TxDataNonZeroGasEIP2028 : Nat
  StorageWriteCost : Nat

/-- The method `_preVersion4_GetPricesInWeiWithAggregator` (lines 63-88). -/
def preVersion4_GetPricesInWeiWithAggregator {Err : Type} (c : GasInfoInput Err) :
    Except Err (Int × Int × Int × Int × Int × Int) :=
  match c.PricePerUnit with
  | .error err => .error err
  | .ok l1GasPrice =>
    let l2GasPrice := c.BaseFee
    let weiForL1Calldata := BigMulByUint l1GasPrice c.TxDataNonZeroGasEIP2028
    let perL2Tx := BigMulByUint weiForL1Calldata AssumedSimpleTxSize
    let perfogGasBase := l2GasPrice
    let perfogGasCongestion : Int := 0
    let perfogGasTotal := l2GasPrice
    let weiForL2Storage := BigMul l2GasPrice c.StorageWriteCost
    .ok (perL2Tx, weiForL1Calldata, weiForL2Storage, perfogGasBase, perfogGasCongestion,
      perfogGasTotal)

/-- The method `GetPricesInWeiWithAggregator` (lines 26-61); the aggregator is not used. -/
def GetPricesInWeiWithAggregator {Err : Type} (c : GasInfoInput Err) :
    Except Err (Int × Int × Int × Int × Int × Int) :=
  if c.fogOSVersion < 4 then
    preVersion4_GetPricesInWeiWithAggregator c
  else
    match c.PricePerUnit with
    | .error err => .error err
    | .ok l1GasPrice =>
      let l2GasPrice := c.BaseFee
      let weiForL1Calldata := BigMulByUint l1GasPrice c.TxDataNonZeroGasEIP2028
      let perL2Tx := BigMulByUint weiForL1Calldata AssumedSimpleTxSize
      match c.MinBaseFeeWei with
      | .error err => .error err
      | .ok minBaseFee =>
        let perfogGasBase := if BigLessThan l2GasPrice minBaseFee then l2GasPrice else minBaseFee
        let perfogGasCongestion := BigSub l2GasPrice perfogGasBase
        let perfogGasTotal := l2GasPrice
        let weiForL2Storage := BigMul l2GasPrice c.StorageWriteCost
        .ok (perL2Tx, weiForL1Calldata, weiForL2Storage, perfogGasBase, perfogGasCongestion,
          perfogGasTotal)

/-- Modelled from the spec: the part of `l1pricing.L1PricingState` that
`ReleaseL1PricerSurplusFunds` uses, declared outside the sources at hand: the stored amount
`L1FeesAvailable`. -/
structure L1PricingState where
  l1FeesAvailable : Int
  deriving DecidableEq, Repr

/-- Modelled from the spec: the getter `L1FeesAvailable` of `l1pricing.L1PricingState`,
declared outside the sources at hand; the storage never fails. -/
def L1PricingState.L1FeesAvailable {Err : Type} (l1p : L1PricingState) : Except Err Int :=
  .ok l1p.l1FeesAvailable

/-- Modelled from the spec: the method `AddToL1FeesAvailable` of `l1pricing.L1PricingState`,
declared outside the sources at hand: it adds an amount to the stored `L1FeesAvailable` and
returns the new amount; the storage never fails. -/
def L1PricingState.AddToL1FeesAvailable {Err : Type} (l1p : L1PricingState) (delta : Int) :
    Except Err (L1PricingState × Int) :=
  .ok ({ l1FeesAvailable := l1p.l1FeesAvailable + delta }, l1p.l1FeesAvailable + delta)

/-- The method `ReleaseL1PricerSurplusFunds` (lines 140-158).  `balance` is the balance of
`L1PricerFundsPoolAddress` in the state database; the result is the pricing state left
behind and the amount returned. -/
def ReleaseL1PricerSurplusFunds {Err : Type} (balance : Int) (l1p : L1PricingState)
    (maxWeiToRelease : Int) : Except Err (L1PricingState × Int) :=
  match (l1p.L1FeesAvailable : Except Err Int) with
  | .error err => .error err
  | .ok recognized =>
    let weiToTransfer := balance - recognized
    if weiToTransfer < 0 then
      .ok (l1p, 0)
    else
      let weiToTransfer := if weiToTransfer > maxWeiToRelease then maxWeiToRelease
        else weiToTransfer
      match (l1p.AddToL1FeesAvailable weiToTransfer : Except Err (L1PricingState × Int)) with
      | .error err => .error err
      | .ok added => .ok (added.1, weiToTransfer)

/-- An input with fogOS version 10, an L1 price of 5 and a minimum base fee of 100. -/
def toyGasInfo (baseFee : Int) : GasInfoInput String :=
  { fogOSVersion := 10, PricePerUnit := .ok 5, MinBaseFeeWei := .ok 100, BaseFee := baseFee,
    TxDataNonZeroGasEIP2028 := 16, StorageWriteCost := 20000 }

end Precompiles

/-! ## Validation nodes (`validator/valnode/valnode.go`) -/

namespace Valnode

/-- The fields of `Config` that `CreateValidationNode` reads; `RootPath` is `Wasm.RootPath`. -/
structure Config where
  UseJit : Bool
  ApiAuth : Bool
  ApiPublic : Bool
  RootPath : String
  deriving DecidableEq, Repr

/-- A spawner passed where an interface is expected: the interpreter spawner
(`*server_fog.fogitratorSpawner`, of type `A`) or the JIT spawner (`*server_jit.JitSpawner`,
of type `J`). -/
inductive Spawner (A J : Type) where
  | fog (spawner : A)
  | jit (spawner : J)
  deriving DecidableEq, Repr

/-- The result of `server_api.NewExecutionServerAPI`, declared outside the sources at hand:
its first and its second spawner argument. -/
structure ExecServerAPI (A J : Type) where
  first : Spawner A J
  second : Spawner A J
  deriving DecidableEq, Repr

/-- The fields of an `rpc.API` that differ from one node to the other. -/
structure API (A J : Type) where
  Service : ExecServerAPI A J
  Public : Bool
  Authenticated : Bool
  deriving DecidableEq, Repr

/-- The struct `ValidationNode` without its configuration; a nil `jitSpawner` is `none`. -/
structure ValidationNode (A J : Type) where
  fogSpawner : A
  jitSpawner : Option J
  deriving DecidableEq, Repr

/-- The constructors `CreateValidationNode` calls and the `Start` methods of the two
spawners, all declared outside the sources at hand: parameters.  `Loc` is the type of
machine locators. -/
structure Deps (Loc A J Err : Type) where
  NewMachineLocator : String → Except Err Loc
  NewfogitratorSpawner : Loc → Except Err A
  NewJitSpawner : Loc → Except Err J
  fogStart : A → Option Err
  jitStart : J → Option Err

/-- A constructor call made by `CreateValidationNode`. -/
inductive Made where
  | MachineLocator
  | fogitratorSpawner
  | JitSpawner
  | ExecutionServerAPI
  deriving DecidableEq, Repr

/-- The function `CreateValidationNode` (lines 74-111).  `config` is what the configuration
fetcher returns.  The result is the node and the APIs registered on the stack, or the
error, together with the constructor calls made, in order. -/
def CreateValidationNode {Loc A J Err : Type} (deps : Deps Loc A J Err) (config : Config) :
    Except Err (ValidationNode A J × List (API A J)) × List Made :=
  match deps.NewMachineLocator config.RootPath with
  | .error err => (.error err, [.MachineLocator])
  | .ok locator =>
    match deps.NewfogitratorSpawner locator with
    | .error err => (.error err, [.MachineLocator, .fogitratorSpawner])
    | .ok fogSpawner =>
      if config.UseJit then
        match deps.NewJitSpawner locator with
        | .error err => (.error err, [.MachineLocator, .fogitratorSpawner, .JitSpawner])
        | .ok jitSpawner =>
          let serverAPI : ExecServerAPI A J :=
            { first := .jit jitSpawner, second := .fog fogSpawner }
          let valAPIs : List (API A J) :=
            [{ Service := serverAPI, Public := config.ApiPublic,
               Authenticated := config.ApiAuth }]
          (.ok ({ fogSpawner := fogSpawner, jitSpawner := some jitSpawner }, valAPIs),
            [.MachineLocator, .fogitratorSpawner, .JitSpawner, .ExecutionServerAPI])
      else
        let serverAPI : ExecServerAPI A J :=
          { first := .fog fogSpawner, second := .fog fogSpawner }
        let valAPIs : List (API A J) :=
          [{ Service := serverAPI, Public := config.ApiPublic,
             Authenticated := config.ApiAuth }]
        (.ok ({ fogSpawner := fogSpawner, jitSpawner := none }, valAPIs),
          [.MachineLocator, .fogitratorSpawner, .ExecutionServerAPI])

/-- The method `Start` (lines 113-123): the error it returns and the spawners whose `Start`
it called, in order. -/
def ValidationNode.Start {Loc A J Err : Type} (deps : Deps Loc A J Err)
    (v : ValidationNode A J) : Option Err × List (Spawner A J) :=
  match deps.fogStart v.fogSpawner with
  | some err => (some err, [.fog v.fogSpawner])
  | none =>
    match v.jitSpawner with
    | some jitSpawner =>
      match deps.jitStart jitSpawner with
      | some err => (some err, [.fog v.fogSpawner, .jit jitSpawner])
      | none => (none, [.fog v.fogSpawner, .jit jitSpawner])
    | none => (none, [.fog v.fogSpawner])

/-- The method `GetExec` (lines 125-127). -/
def ValidationNode.GetExec {A J : Type} (v : ValidationNode A J) : Spawner A J :=
  .fog v.fogSpawner

/-- Constructors that always succeed: the locator is the root path, the interpreter spawner
is 1 and the JIT spawner is 2. -/
def toyDeps : Deps String Nat Nat String where
  NewMachineLocator := fun rootPath => .ok rootPath
  NewfogitratorSpawner := fun _ => .ok 1
  NewJitSpawner := fun _ => .ok 2
  fogStart := fun _ => none
  jitStart := fun _ => none

end Valnode

/-! ## The fogOS state (`fogros/arbosState/arbosstate.go`) -/

namespace FogosState

/-- Modelled from the spec: the values of `l1pricing.L1PricingState`, declared outside the
sources at hand, that `UpgradefogosVersion` sets; a setter replaces the stored value and
never fails. -/
structure L1PricingState where
  lastSurplus : Int
  perBatchGasCost : Int
  amortizedCostCapBips : Nat
  l1FeesAvailable : Int
  equilibrationUnits : Int
  deriving DecidableEq, Repr

/-- Modelled from the spec: the values of `l2pricing.L2PricingState`, declared outside the
sources at hand, that `UpgradefogosVersion` sets; a setter replaces the stored value and
never fails. -/
structure L2PricingState where
  speedLimitPerSecond : Nat
  maxPerBlockGasLimit : Nat
  deriving DecidableEq, Repr

/-- The struct `fogosState`, with the fields the upgrade reads and writes: `fogosVersion` is
the version held in memory, `storedVersion` the value of the backing storage at
`versionOffset`, `upgradeVersion` and `upgradeTimestamp` the stored scheduled upgrade. -/
structure fogosState where
  fogosVersion : Nat
  storedVersion : Nat
  upgradeVersion : Nat
  upgradeTimestamp : Nat
  l1PricingState : L1PricingState
  l2PricingState : L2PricingState
  deriving DecidableEq, Repr

/-- The error built by `fmt.Errorf` in `UpgradefogosVersion`: it names the version that is
not supported and wraps `ErrFatalNodeOutOfDate`. -/
inductive UpgradeError where
  | unsupported (version : Nat)
  deriving DecidableEq, Repr

/-- Whether `errors.Is(err, ErrFatalNodeOutOfDate)` holds. -/
def UpgradeError.isErrFatalNodeOutOfDate : UpgradeError → Bool
  | .unsupported _ => true

/-- What `UpgradefogosVersion` takes from its surroundings: `chainConfig.DebugMode()`, the
balance of `L1PricerFundsPoolAddress` in the state database, and two constants of
`l1pricing` declared outside the sources at hand. -/
structure UpgradeInput where
  DebugMode : Bool
  poolBalance : Int
  InitialPerBatchGasCostV6 : Int
  InitialEquilibrationUnitsV6 : Int
  deriving DecidableEq, Repr

/-- The constant `l2pricing.InitialSpeedLimitPerSecondV6`. -/
def InitialSpeedLimitPerSecondV6 : Nat := 7000000

/-- The constant `l2pricing.InitialPerBlockGasLimitV6`. -/
def InitialPerBlockGasLimitV6 : Nat := 32 * 1000000

/-- The constant `math.MaxUint64`. -/
def MaxUint64 : Nat := 2 ^ 64 - 1

/-- The `switch` of `UpgradefogosVersion` (lines 268-306): the state changes of the upgrade
from the version in memory to the next one, or the error for a version that is not
supported. -/
def upgradeStep (input : UpgradeInput) (state : fogosState) : Except UpgradeError fogosState :=
  match state.fogosVersion with
  | 1 => .ok { state with l1PricingState := { state.l1PricingState with lastSurplus := 0 } }
  | 2 =>
    .ok { state with
      l1PricingState := { state.l1PricingState with
        perBatchGasCost := 0, amortizedCostCapBips := MaxUint64 } }
  | 3 => .ok state
  | 4 => .ok state
  | 5 => .ok state
  | 6 => .ok state
  | 7 => .ok state
  | 8 => .ok state
  | 9 =>
    .ok { state with
      l1PricingState := { state.l1PricingState with l1FeesAvailable := input.poolBalance } }
  | 10 => if !input.DebugMode then .error (.unsupported (state.fogosVersion + 1)) else .ok state
  | _ => .error (.unsupported (state.fogosVersion + 1))

/-- The `for` loop of `UpgradefogosVersion` (lines 257-308), run for at most `fuel` rounds:
`none` when the rounds are used up before the loop ends, else the state the loop leaves and
the error it returned with, if any. -/
def upgradeLoop (input : UpgradeInput) (upgradeTo : Nat) :
    Nat → fogosState → Option (fogosState × Option UpgradeError)
  | fuel, state =>
    if state.fogosVersion < upgradeTo then
      match fuel with
      | 0 => none
      | fuel + 1 =>
        match upgradeStep input state with
        | .error err => some (state, some err)
        | .ok next =>
          upgradeLoop input upgradeTo fuel { next with fogosVersion := next.fogosVersion + 1 }
    else
      some (state, none)

/-- The method `UpgradefogosVersion` (lines 254-320); `upgradeTo` is a `uint64`.  The loop
gets `upgradeTo - fogosVersion` rounds, one for each version it can go up.  The result is
the state left behind and the error returned. -/
def UpgradefogosVersion (input : UpgradeInput) (state : fogosState) (upgradeTo : Nat)
    (firstTime : Bool) : Option (fogosState × Option UpgradeError) :=
  match upgradeLoop input upgradeTo (upgradeTo - state.fogosVersion) state with
  | none => none
  | some (state, some err) => some (state, some err)
  | some (state, none) =>
    let state :=
      if firstTime && decide (upgradeTo ≥ 6) then
        { state with
          l1PricingState := { state.l1PricingState with
            perBatchGasCost := input.InitialPerBatchGasCostV6
            equilibrationUnits := input.InitialEquilibrationUnitsV6 }
          l2PricingState :=
            { speedLimitPerSecond := InitialSpeedLimitPerSecondV6
              maxPerBlockGasLimit := InitialPerBlockGasLimitV6 } }
      else state
    some ({ state with storedVersion := state.fogosVersion }, none)

/-- The method `UpgradefogosVersionIfNecessary` (lines 240-250). -/
def UpgradefogosVersionIfNecessary (input : UpgradeInput) (state : fogosState)
    (currentTimestamp : Nat) : Option (fogosState × Option UpgradeError) :=
  let upgradeTo := state.upgradeVersion
  let flagday := state.upgradeTimestamp
  if state.fogosVersion < upgradeTo ∧ currentTimestamp ≥ flagday then
    UpgradefogosVersion input state upgradeTo false
  else
    some (state, none)

/-- A fogOS state at a given version, in memory and in storage, with nothing scheduled. -/
def toyState (version : Nat) : fogosState :=
  { fogosVersion := version, storedVersion := version, upgradeVersion := 0,
    upgradeTimestamp := 0,
    l1PricingState :=
      { lastSurplus := 5, perBatchGasCost := 7, amortizedCostCapBips := 0,
        l1FeesAvailable := 0, equilibrationUnits := 0 },
    l2PricingState := { speedLimitPerSecond := 1000000, maxPerBlockGasLimit := 20000000 } }

/-- An input outside debug mode, or in it. -/
def toyInput (debugMode : Bool) : UpgradeInput :=
  { DebugMode := debugMode, poolBalance := 9, InitialPerBatchGasCostV6 := 100000,
    InitialEquilibrationUnitsV6 := 160000000 }

end FogosState

namespace ServerFog

/-! ## `ValidForStep` -/

/-- C1: for a handle whose step count is `S`, `ValidForStep s` is `false` when `s < S` and
`true` when `s = S`, for every engine and every engine memory, hence whatever the status of
the machine is. -/
theorem ValidForStep_upto_current {N G C : Type} (E : Engine N G C) (w : World N)
    (m : fogitratorMachine) (S s : Nat) (hS : (GetStepCount E w m).2 = S) :
    (s < S → (ValidForStep E w m s).2 = false) ∧
    (s = S → (ValidForStep E w m s).2 = true) := by
  constructor
  · intro h
    have h2 : (GetStepCount E w m).2 > s := by omega
    simp [ValidForStep, h2]
  · intro h
    subst h
    simp [ValidForStep, hS]

/-- Witness of C1 on the running machine of the small engine, which is at step 5. -/
theorem ValidForStep_upto_current_witness :
    (GetStepCount toyEngine toyWorld toyRunning).2 = 5 ∧
    (ValidForStep toyEngine toyWorld toyRunning 3).2 = false ∧
    (ValidForStep toyEngine toyWorld toyRunning 5).2 = true :=
  ⟨rfl,
   (ValidForStep_upto_current toyEngine toyWorld toyRunning 5 3 rfl).1 (by decide),
   (ValidForStep_upto_current toyEngine toyWorld toyRunning 5 5 rfl).2 rfl⟩

/-- C2, as stated, fails: the errored machine of the small engine is at step 0, it is
errored and not running, and `ValidForStep 1` returns `true` on it. -/
theorem ValidForStep_errored_counterexample :
    (GetStepCount toyEngine toyWorld toyErrored).2 = 0 ∧
    (IsErrored toyEngine toyWorld toyErrored).2 = true ∧
    (IsRunning toyEngine toyWorld toyErrored).2 = false ∧
    (ValidForStep toyEngine toyWorld toyErrored 1).2 = true := by
  decide

/-- C2, amended: for a handle whose step count is `S` and a requested step `s > S`,
`ValidForStep s` returns the negation of `IsRunning`: `true` exactly when the status of the
machine is not the running one (halted or errored), `false` exactly when it is running. -/
theorem ValidForStep_beyond_current {N G C : Type} (E : Engine N G C) (w : World N)
    (m : fogitratorMachine) (S s : Nat) (hS : (GetStepCount E w m).2 = S) (h : S < s) :
    (ValidForStep E w m s).2 = !(IsRunning E w m).2 ∧
    ((ValidForStep E w m s).2 = true ↔ E.get_status w.native m.ptr ≠ E.STATUS_RUNNING) ∧
    ((ValidForStep E w m s).2 = false ↔ E.get_status w.native m.ptr = E.STATUS_RUNNING) := by
  have h1 : ¬ (GetStepCount E w m).2 > s := by omega
  have h2 : ¬ (GetStepCount E w m).2 = s := by omega
  have h3 : (ValidForStep E w m s).2 = !(IsRunning E w m).2 := by
    simp only [ValidForStep, h1, h2, if_false]
    rfl
  refine ⟨h3, ?_, ?_⟩
  · rw [h3]
    simp [IsRunning]
  · rw [h3]
    simp [IsRunning]

/-- Witness of the amended C2: beyond step 5 the running machine of the small engine is not
valid. -/
theorem ValidForStep_beyond_current_witness :
    (GetStepCount toyEngine toyWorld toyRunning).2 = 5 ∧ 5 < 7 ∧
    (ValidForStep toyEngine toyWorld toyRunning 7).2 = false :=
  ⟨rfl, by decide,
   (ValidForStep_beyond_current toyEngine toyWorld toyRunning 5 7 rfl (by decide)).2.2.2 rfl⟩

/-! ## Frozen handles -/

/-- C3: on a handle that was frozen, `Step` returns the error "machine frozen" and the
package state it returns is the one it was given: no cgo call and no watcher were added to
the trace, and the engine's memory is the same, so that the step count, the status and the
hash of the machine are the same before and after. -/
theorem Step_after_Freeze {N G C : Type} (E : Engine N G C) (w : World N)
    (m : fogitratorMachine) (ctx : Context) (n : Nat) :
    (Step E w (Freeze m) ctx n).2 = some (.errorsNew "machine frozen") ∧
    (Step E w (Freeze m) ctx n).1 = w ∧
    (Step E w (Freeze m) ctx n).1.trace = w.trace ∧
    (GetStepCount E (Step E w (Freeze m) ctx n).1 (Freeze m)).2 = (GetStepCount E w m).2 ∧
    (Status E (Step E w (Freeze m) ctx n).1 (Freeze m)).2 = (Status E w m).2 ∧
    (Hash E (Step E w (Freeze m) ctx n).1 (Freeze m)).2 = (Hash E w m).2 := by
  have h : Step E w (Freeze m) ctx n = (w, some errFrozen) := by
    simp [Step, Freeze]
  rw [h]
  exact ⟨rfl, rfl, rfl, rfl, rfl, rfl⟩

/-- C4: on a frozen handle, `SetGlobalState`, `StepUntilHostIo`,
`DeserializeAndReplaceState`, `AddSequencerInboxMessage`, `AddDelayedInboxMessage` and
`SetPreimageResolver` return the error "machine frozen" together with the package state
they were given (engine memory, resolver registry, token counter and trace), and
`SetPreimageResolver`, the only one of them that assigns a field, returns the handle as it
was. -/
theorem frozen_rejects_mutations {N G C : Type} (E : Engine N G C) (w : World N)
    (m : fogitratorMachine) (hfrozen : m.frozen = true) (globalState : G) (ctx : Context)
    (path : String) (index : Nat) (data : List Nat) (resolver : GoPreimageResolver) :
    SetGlobalState E w m globalState = (w, some (.errorsNew "machine frozen")) ∧
    StepUntilHostIo E w m ctx = (w, some (.errorsNew "machine frozen")) ∧
    DeserializeAndReplaceState E w m path = (w, some (.errorsNew "machine frozen")) ∧
    AddSequencerInboxMessage E w m index data = (w, some (.errorsNew "machine frozen")) ∧
    AddDelayedInboxMessage E w m index data = (w, some (.errorsNew "machine frozen")) ∧
    SetPreimageResolver E w m resolver = (w, m, some (.errorsNew "machine frozen")) := by
  simp [SetGlobalState, StepUntilHostIo, DeserializeAndReplaceState, AddSequencerInboxMessage,
    AddDelayedInboxMessage, SetPreimageResolver, hfrozen, errFrozen]

/-- Witness of C4 on the frozen running machine of the small engine: the registry, the
token counter and the trace stay empty. -/
theorem frozen_rejects_mutations_witness :
    (Freeze toyRunning).frozen = true ∧
    (SetPreimageResolver toyEngine toyWorld (Freeze toyRunning) toyResolver).2.2
      = some (.errorsNew "machine frozen") ∧
    (SetPreimageResolver toyEngine toyWorld (Freeze toyRunning) toyResolver).1.trace = [] ∧
    (SetPreimageResolver toyEngine toyWorld (Freeze toyRunning) toyResolver).1.lastPreimageResolverId
      = 0 :=
  have h := frozen_rejects_mutations toyEngine toyWorld (Freeze toyRunning) rfl 7 ctxLive
    "state.bin" 0 [1, 2] toyResolver
  ⟨rfl, by rw [h.2.2.2.2.2], by rw [h.2.2.2.2.2]; rfl, by rw [h.2.2.2.2.2]; rfl⟩

/-! ## `Clone` -/

/-- C5: whatever the frozen flag of `m` is, every handle `Clone` returns has its frozen flag
unset; `Clone` does return a handle, on the machine `q` the engine hands back, whenever the
engine's `clone_machine` returns a non-nil pointer (which an engine does for a live
machine), and `Step` on that handle takes the path into the engine instead of the
"machine frozen" one.  `Clone` assigns no field of its receiver: a frozen `m` is still
rejected by `Step` after the call. -/
theorem Clone_not_frozen {N G C : Type} (E : Engine N G C) (w : World N)
    (m : fogitratorMachine) :
    (∀ c, (Clone E w m).2 = .ok c → c.frozen = false) ∧
    (∀ q, (E.clone_machine w.native m.ptr).2 = some q →
      ∃ c, (Clone E w m).2 = .ok c ∧ c.frozen = false ∧ c.ptr = some q ∧
        ∀ (ctx : Context) (n : Nat),
          (Step E (Clone E w m).1 c ctx n).1.trace =
            (Clone E w m).1.trace ++ [.watcherArmed, .cgo .step (some q), .watcherCancelled] ∧
          (Step E (Clone E w m).1 c ctx n).2 =
            match (E.step (Clone E w m).1.native (some q) n ctx.conditionByte).2 with
            | some errString => some (.errorsNew errString)
            | none => ctx.Err.map GoError.ctx) ∧
    (m.frozen = true → ∀ (ctx : Context) (n : Nat),
      Step E (Clone E w m).1 m ctx n = ((Clone E w m).1, some (.errorsNew "machine frozen"))) := by
  refine ⟨?_, ?_, ?_⟩
  · intro c hc
    cases hp : (E.clone_machine w.native m.ptr).2 with
    | none => simp [Clone, machineFromPointer, hp] at hc
    | some q =>
      simp [Clone, machineFromPointer, hp] at hc
      rw [← hc]
  · intro q hq
    refine ⟨{ ptr := some q, contextId := m.contextId, frozen := false }, ?_, rfl, rfl, ?_⟩
    · simp [Clone, machineFromPointer, hq]
    · intro ctx n
      constructor
      · simp only [Step, manageConditionByte, cancelWatcher, World.cgo, World.log,
          World.setNative]
        cases (E.step (Clone E w m).1.native (some q) n ctx.conditionByte).2 <;> simp
      · simp only [Step, manageConditionByte, cancelWatcher, World.cgo, World.log,
          World.setNative]
        cases (E.step (Clone E w m).1.native (some q) n ctx.conditionByte).2 <;> simp
  · intro hf ctx n
    simp [Step, hf, errFrozen]

/-- Witness of C5: the clone of the frozen running machine of the small engine is the
unfrozen handle on the new machine 3, and stepping it twice succeeds. -/
theorem Clone_not_frozen_witness :
    (toyEngine.clone_machine toyWorld.native (Freeze toyRunning).ptr).2 = some 3 ∧
    (Clone toyEngine toyWorld (Freeze toyRunning)).2
      = .ok { ptr := some 3, contextId := none, frozen := false } ∧
    (Step toyEngine (Clone toyEngine toyWorld (Freeze toyRunning)).1
      { ptr := some 3, contextId := none, frozen := false } ctxLive 2).2 = none ∧
    (∃ c, (Clone toyEngine toyWorld (Freeze toyRunning)).2 = .ok c ∧ c.frozen = false) :=
  ⟨rfl, rfl, rfl,
   ((Clone_not_frozen toyEngine toyWorld (Freeze toyRunning)).2.1 3 rfl).imp
     (fun _ hc => ⟨hc.1, hc.2.1⟩)⟩

/-! ## `Destroy` -/

/-- C6, as stated, fails: once the running machine of the small engine is destroyed,
`GetStepCount` on the handle hands the nil pointer to the engine and returns a number, and
`Step` hands the nil pointer to the engine's step function and returns no error; when the
handle had been frozen first, `Step` returns "machine frozen". -/
theorem Destroy_then_use_counterexample :
    (Destroy toyEngine toyWorld toyRunning).2.ptr = none ∧
    nilCalls (Destroy toyEngine toyWorld toyRunning).1.trace = [] ∧
    nilCalls (GetStepCount toyEngine (Destroy toyEngine toyWorld toyRunning).1
      (Destroy toyEngine toyWorld toyRunning).2).1.trace = [.get_num_steps] ∧
    (GetStepCount toyEngine (Destroy toyEngine toyWorld toyRunning).1
      (Destroy toyEngine toyWorld toyRunning).2).2 = 0 ∧
    nilCalls (Step toyEngine (Destroy toyEngine toyWorld toyRunning).1
      (Destroy toyEngine toyWorld toyRunning).2 ctxLive 1).1.trace = [.step] ∧
    (Step toyEngine (Destroy toyEngine toyWorld toyRunning).1
      (Destroy toyEngine toyWorld toyRunning).2 ctxLive 1).2 = none ∧
    (Step toyEngine (Destroy toyEngine toyWorld (Freeze toyRunning)).1
      (Destroy toyEngine toyWorld (Freeze toyRunning)).2 ctxLive 1).2
      = some (.errorsNew "machine frozen") := by
  decide

/-- C6, amended: after `Destroy` the native pointer and the resolver token of the handle
are nil and its frozen flag is as before, and no method checks for that.  A second `Destroy`
changes nothing.  `GetStepCount`, `Status`, `GetGlobalState`, `Hash`, `ProveNextStep`,
`SerializeState` and `Clone` hand the nil pointer to the engine.  `Step`,
`StepUntilHostIo`, `SetGlobalState`, `DeserializeAndReplaceState`, the two inbox methods and
`SetPreimageResolver` hand the nil pointer to the engine when the handle is not frozen, and
return "machine frozen" without a cgo call when it is. -/
theorem use_after_Destroy {N G C : Type} (E : Engine N G C) (w w1 : World N)
    (m d : fogitratorMachine) (hd : Destroy E w m = (w1, d)) (globalState : G) (ctx : Context)
    (n : Nat) (path : String) (index : Nat) (data : List Nat) (resolver : GoPreimageResolver) :
    (d.ptr = none ∧ d.contextId = none ∧ d.frozen = m.frozen) ∧
    Destroy E w1 d = (w1, d) ∧
    ((GetStepCount E w1 d).1.trace = w1.trace ++ [.cgo .get_num_steps none] ∧
     (Status E w1 d).1.trace = w1.trace ++ [.cgo .get_status none] ∧
     (GetGlobalState E w1 d).1.trace = w1.trace ++ [.cgo .global_state none] ∧
     (Hash E w1 d).1.trace = w1.trace ++ [.cgo .hash none] ∧
     (ProveNextStep E w1 d).1.trace = w1.trace ++ [.cgo .gen_proof none, .freeProof] ∧
     (SerializeState E w1 d path).1.trace = w1.trace ++ [.cgo .serialize_state none] ∧
     (∃ rest, (Clone E w1 d).1.trace = w1.trace ++ .cgo .clone_machine none :: rest)) ∧
    (m.frozen = false →
     (Step E w1 d ctx n).1.trace
       = w1.trace ++ [.watcherArmed, .cgo .step none, .watcherCancelled] ∧
     (StepUntilHostIo E w1 d ctx).1.trace
       = w1.trace ++ [.watcherArmed, .cgo .step_until_host_io none, .watcherCancelled] ∧
     (SetGlobalState E w1 d globalState).1.trace
       = w1.trace ++ [.cgo .set_global_state none] ∧
     (DeserializeAndReplaceState E w1 d path).1.trace
       = w1.trace ++ [.cgo .deserialize_and_replace_state none] ∧
     (AddSequencerInboxMessage E w1 d index data).1.trace
       = w1.trace ++ [.cgo .add_inbox_message none] ∧
     (AddDelayedInboxMessage E w1 d index data).1.trace
       = w1.trace ++ [.cgo .add_inbox_message none] ∧
     (SetPreimageResolver E w1 d resolver).1.trace
       = w1.trace ++ [.setFinalizerContextId (wrapInt64 (w1.lastPreimageResolverId + 1)),
           .cgo .set_context none]) ∧
    (m.frozen = true →
     Step E w1 d ctx n = (w1, some (.errorsNew "machine frozen")) ∧
     StepUntilHostIo E w1 d ctx = (w1, some (.errorsNew "machine frozen")) ∧
     SetGlobalState E w1 d globalState = (w1, some (.errorsNew "machine frozen")) ∧
     DeserializeAndReplaceState E w1 d path = (w1, some (.errorsNew "machine frozen")) ∧
     AddSequencerInboxMessage E w1 d index data = (w1, some (.errorsNew "machine frozen")) ∧
     AddDelayedInboxMessage E w1 d index data = (w1, some (.errorsNew "machine frozen")) ∧
     SetPreimageResolver E w1 d resolver = (w1, d, some (.errorsNew "machine frozen"))) := by
  have hd2 : d = { ptr := none, contextId := none, frozen := m.frozen } := by
    unfold Destroy at hd
    split at hd
    · simp only [Prod.mk.injEq] at hd
      rw [← hd.2]
    · rename_i hp
      simp only [Prod.mk.injEq] at hd
      rw [← hd.2]
      cases m with
      | mk ptr contextId frozen =>
        cases ptr with
        | none => rfl
        | some a => simp at hp
  subst hd2
  refine ⟨⟨rfl, rfl, rfl⟩, ?_, ?_, ?_, ?_⟩
  · simp [Destroy]
  · refine ⟨?_, ?_, ?_, ?_, ?_, ?_, ?_⟩
    · simp [GetStepCount, World.log]
    · simp [Status, World.log]
    · simp [GetGlobalState, World.log]
    · simp [Hash, World.log]
    · simp [ProveNextStep, World.log]
    · simp only [SerializeState, World.cgo, World.log, World.setNative]
      split <;> rfl
    · simp only [Clone, machineFromPointer, World.cgo, World.log, World.setNative]
      cases (E.clone_machine w1.native none).2 with
      | none => exact ⟨[], by simp⟩
      | some q => exact ⟨[.cgo .set_preimage_resolver (some q), .setFinalizerMachine], by simp⟩
  · intro hf
    refine ⟨?_, ?_, ?_, ?_, ?_, ?_, ?_⟩
    · simp only [Step, hf, manageConditionByte, cancelWatcher, World.cgo, World.log,
        World.setNative]
      cases (E.step w1.native none n ctx.conditionByte).2 <;> simp
    · simp [StepUntilHostIo, hf, manageConditionByte, cancelWatcher, World.cgo, World.log,
        World.setNative]
    · simp [SetGlobalState, hf, World.cgo, World.log, World.setNative]
    · simp only [DeserializeAndReplaceState, hf, World.cgo, World.log, World.setNative]
      simp only [Bool.false_eq_true, if_false]
      split <;> rfl
    · simp only [AddSequencerInboxMessage, hf, World.cgo, World.log, World.setNative]
      simp only [Bool.false_eq_true, if_false]
      split <;> rfl
    · simp only [AddDelayedInboxMessage, hf, World.cgo, World.log, World.setNative]
      simp only [Bool.false_eq_true, if_false]
      split <;> rfl
    · simp [SetPreimageResolver, hf, World.cgo, World.log, World.setNative]
  · intro hf
    simp [Step, StepUntilHostIo, SetGlobalState, DeserializeAndReplaceState,
      AddSequencerInboxMessage, AddDelayedInboxMessage, SetPreimageResolver, hf, errFrozen]

/-- Witness of the amended C6 on the destroyed running machine of the small engine, which
is not frozen: `Hash` and `Step` hand the nil pointer to the engine. -/
theorem use_after_Destroy_witness :
    Destroy toyEngine toyWorld toyRunning
      = (⟨toyMemory, [], 0, [.cgo .free_machine (some 0), .clearFinalizerMachine]⟩,
         ⟨none, none, false⟩) ∧
    toyRunning.frozen = false ∧
    (Hash toyEngine (Destroy toyEngine toyWorld toyRunning).1 ⟨none, none, false⟩).1.trace
      = [.cgo .free_machine (some 0), .clearFinalizerMachine, .cgo .hash none] ∧
    (Step toyEngine (Destroy toyEngine toyWorld toyRunning).1 ⟨none, none, false⟩ ctxLive 1).1.trace
      = [.cgo .free_machine (some 0), .clearFinalizerMachine, .watcherArmed, .cgo .step none,
         .watcherCancelled] :=
  have h := use_after_Destroy toyEngine toyWorld (Destroy toyEngine toyWorld toyRunning).1
    toyRunning ⟨none, none, false⟩ rfl 0 ctxLive 1 "state.bin" 0 [] toyResolver
  ⟨rfl, rfl, h.2.2.1.2.2.2.1, (h.2.2.2.1 rfl).1⟩

/-- The handle `Destroy` leaves behind. -/
theorem Destroy_handle {N G C : Type} (E : Engine N G C) (w : World N) (m : fogitratorMachine) :
    (Destroy E w m).2 = { ptr := none, contextId := none, frozen := m.frozen } := by
  cases m with
  | mk ptr contextId frozen =>
    cases ptr <;> simp [Destroy]

/-- Destroying what `Destroy` returned changes nothing. -/
theorem Destroy_twice {N G C : Type} (E : Engine N G C) (w : World N) (m : fogitratorMachine) :
    Destroy E (Destroy E w m).1 (Destroy E w m).2 = Destroy E w m := by
  have h : Destroy E (Destroy E w m).1 { ptr := none, contextId := none, frozen := m.frozen }
      = ((Destroy E w m).1, { ptr := none, contextId := none, frozen := m.frozen }) := by
    simp [Destroy]
  rw [Destroy_handle] at *
  rw [h, ← Destroy_handle E w m]

/-- One or more `Destroy` calls in a row amount to one. -/
theorem DestroyTimes_succ {N G C : Type} (E : Engine N G C) (k : Nat) :
    ∀ (w : World N) (m : fogitratorMachine), DestroyTimes E (k + 1) w m = Destroy E w m := by
  induction k with
  | zero => intro w m; rfl
  | succ k ih =>
    intro w m
    have hstep : DestroyTimes E (k + 1 + 1) w m
        = DestroyTimes E (k + 1) (Destroy E w m).1 (Destroy E w m).2 := rfl
    rw [hstep, ih, Destroy_twice]

/-- C7: a second `Destroy` returns the package state and the handle the first one returned;
after any number `k + 1` of `Destroy` calls the handle has a nil pointer, no resolver token
and its frozen flag, exactly as after one call; on a live handle these calls contain exactly
one call of the engine's free function, made by the first of them, and on a handle whose
pointer is already nil they contain none. -/
theorem Destroy_idempotent {N G C : Type} (E : Engine N G C) (w : World N)
    (m : fogitratorMachine) :
    Destroy E (Destroy E w m).1 (Destroy E w m).2 = Destroy E w m ∧
    (Destroy E w m).2 = { ptr := none, contextId := none, frozen := m.frozen } ∧
    (∀ k, DestroyTimes E (k + 1) w m = Destroy E w m) ∧
    (m.ptr ≠ none →
      (Destroy E w m).1.trace = w.trace ++ [.cgo .free_machine m.ptr, .clearFinalizerMachine] ∧
      ∀ k, freeCalls (DestroyTimes E (k + 1) w m).1.trace = freeCalls w.trace + 1) ∧
    (m.ptr = none →
      ∀ k, freeCalls (DestroyTimes E (k + 1) w m).1.trace = freeCalls w.trace) := by
  have h2 := Destroy_handle E w m
  have h1 := Destroy_twice E w m
  have h3 := DestroyTimes_succ E
  refine ⟨h1, h2, fun k => h3 k w m, ?_, ?_⟩
  · intro hp
    have ht : (Destroy E w m).1.trace
        = w.trace ++ [.cgo .free_machine m.ptr, .clearFinalizerMachine] := by
      cases m with
      | mk ptr contextId frozen =>
        cases ptr with
        | none => simp at hp
        | some a => simp [Destroy, World.cgo, World.log, World.setNative]
    refine ⟨ht, ?_⟩
    intro k
    rw [h3 k w m, ht]
    simp [freeCalls, List.filter_append]
  · intro hp k
    rw [h3 k w m]
    simp [Destroy, hp]

/-- Witness of C7: three `Destroy` calls on the running machine of the small engine free it
once. -/
theorem Destroy_idempotent_witness :
    toyRunning.ptr ≠ none ∧
    freeCalls toyWorld.trace = 0 ∧
    freeCalls (DestroyTimes toyEngine 3 toyWorld toyRunning).1.trace = 1 ∧
    (DestroyTimes toyEngine 3 toyWorld toyRunning).2 = ⟨none, none, false⟩ :=
  ⟨by decide, rfl,
   ((Destroy_idempotent toyEngine toyWorld toyRunning).2.2.2.1 (by decide)).2 2,
   by decide⟩

/-! ## Stepping, cancellation and engine faults -/

/-- C8, as stated, fails: the deadline of `ctxExpired` has fired, and `Step` on the machine
of the small engine whose steps fail returns the engine's error, not the context's. -/
theorem Step_fault_over_cancellation_counterexample :
    toyFaulty.frozen = false ∧
    ctxExpired.Err = some .DeadlineExceeded ∧
    (Step toyEngine toyWorld toyFaulty ctxExpired 1).2 = some (.errorsNew "out of memory") ∧
    (Step toyEngine toyWorld toyFaulty ctxExpired 1).2 ≠ some (.ctx .DeadlineExceeded) := by
  decide

/-- C8, amended: on a handle that is not frozen, when the engine's step function reports no
fault `Step` returns `ctx.Err()` as it is after the engine call: the error of the context
when the context is done, whatever the engine did to the machine, and nil when it is not;
when the engine reports a fault `Step` returns the engine's error, done context or not. -/
theorem Step_cancellation {N G C : Type} (E : Engine N G C) (w : World N)
    (m : fogitratorMachine) (ctx : Context) (n : Nat) (hm : m.frozen = false) :
    ((E.step w.native m.ptr n ctx.conditionByte).2 = none →
      (∀ e, ctx.Err = some e → (Step E w m ctx n).2 = some (.ctx e)) ∧
      (ctx.Err = none → (Step E w m ctx n).2 = none)) ∧
    (∀ errString, (E.step w.native m.ptr n ctx.conditionByte).2 = some errString →
      (Step E w m ctx n).2 = some (.errorsNew errString)) := by
  constructor
  · intro h
    constructor
    · intro e he
      simp [Step, hm, manageConditionByte, World.log, h, he]
    · intro he
      simp [Step, hm, manageConditionByte, World.log, h, he]
  · intro errString h
    simp [Step, hm, manageConditionByte, World.log, h]

/-- Witness of the amended C8: with an expired deadline, `Step` on the running machine of
the small engine returns the deadline error. -/
theorem Step_cancellation_witness :
    toyRunning.frozen = false ∧
    (toyEngine.step toyWorld.native toyRunning.ptr 4 ctxExpired.conditionByte).2 = none ∧
    (Step toyEngine toyWorld toyRunning ctxExpired 4).2 = some (.ctx .DeadlineExceeded) :=
  ⟨rfl, rfl, ((Step_cancellation toyEngine toyWorld toyRunning ctxExpired 4 rfl).1 rfl).1 _ rfl⟩

/-- C9: on a handle that is not frozen, when the engine's step function reports a fault
`Step` returns a non-nil error whose text is the engine's error string, and when the engine
reports no fault `Step` returns nil or the error of the context, never an error made from
an engine string. -/
theorem Step_engine_fault {N G C : Type} (E : Engine N G C) (w : World N)
    (m : fogitratorMachine) (ctx : Context) (n : Nat) (hm : m.frozen = false) :
    (∀ errString, (E.step w.native m.ptr n ctx.conditionByte).2 = some errString →
      ∃ err, (Step E w m ctx n).2 = some err ∧ err = .errorsNew errString ∧
        err.Error = errString) ∧
    ((E.step w.native m.ptr n ctx.conditionByte).2 = none →
      (Step E w m ctx n).2 = ctx.Err.map GoError.ctx ∧
      ∀ msg, (Step E w m ctx n).2 ≠ some (.errorsNew msg)) := by
  constructor
  · intro errString h
    refine ⟨.errorsNew errString, ?_, rfl, rfl⟩
    simp [Step, hm, manageConditionByte, World.log, h]
  · intro h
    have hr : (Step E w m ctx n).2 = ctx.Err.map GoError.ctx := by
      simp [Step, hm, manageConditionByte, World.log, h]
    refine ⟨hr, ?_⟩
    intro msg
    rw [hr]
    cases ctx.Err <;> simp

/-- Witness of C9: the fault "out of memory" of the small engine comes back as the text of
the error of `Step`. -/
theorem Step_engine_fault_witness :
    toyFaulty.frozen = false ∧
    (toyEngine.step toyWorld.native toyFaulty.ptr 1 ctxLive.conditionByte).2
      = some "out of memory" ∧
    (∃ err, (Step toyEngine toyWorld toyFaulty ctxLive 1).2 = some err ∧
      err = .errorsNew "out of memory" ∧ err.Error = "out of memory") :=
  ⟨rfl, rfl, (Step_engine_fault toyEngine toyWorld toyFaulty ctxLive 1 rfl).1 _ rfl⟩

/-- C10: on a handle that is not frozen, `StepUntilHostIo` calls the engine and returns
`ctx.Err()` as it is after the engine call: it returns the error of the context exactly when
the context is done, and nil exactly when it is not. -/
theorem StepUntilHostIo_cancellation {N G C : Type} (E : Engine N G C) (w : World N)
    (m : fogitratorMachine) (ctx : Context) (hm : m.frozen = false) :
    (StepUntilHostIo E w m ctx).2 = ctx.Err.map GoError.ctx ∧
    (∀ e, (StepUntilHostIo E w m ctx).2 = some (.ctx e) ↔ ctx.Err = some e) ∧
    ((StepUntilHostIo E w m ctx).2 = none ↔ ctx.Err = none) ∧
    (StepUntilHostIo E w m ctx).1.trace
      = w.trace ++ [.watcherArmed, .cgo .step_until_host_io m.ptr, .watcherCancelled] := by
  have hr : (StepUntilHostIo E w m ctx).2 = ctx.Err.map GoError.ctx := by
    simp [StepUntilHostIo, hm]
  refine ⟨hr, ?_, ?_, ?_⟩
  · intro e
    rw [hr]
    cases ctx.Err <;> simp
  · rw [hr]
    cases ctx.Err <;> simp
  · simp [StepUntilHostIo, hm, manageConditionByte, cancelWatcher, World.cgo, World.log,
      World.setNative]

/-- Witness of C10: with an expired deadline `StepUntilHostIo` on the running machine of
the small engine returns the deadline error, and with a live context it returns nil. -/
theorem StepUntilHostIo_cancellation_witness :
    toyRunning.frozen = false ∧
    (StepUntilHostIo toyEngine toyWorld toyRunning ctxExpired).2
      = some (.ctx .DeadlineExceeded) ∧
    (StepUntilHostIo toyEngine toyWorld toyRunning ctxLive).2 = none :=
  ⟨rfl,
   ((StepUntilHostIo_cancellation toyEngine toyWorld toyRunning ctxExpired rfl).2.1 _).2 rfl,
   (StepUntilHostIo_cancellation toyEngine toyWorld toyRunning ctxLive rfl).2.2.1.2 rfl⟩

/-! ## The resolver registry -/

/-- A stored entry is what `Load` finds under its key. -/
theorem syncMapLoad_store_same (m : List (Int × MapValue)) (key : Int) (value : MapValue) :
    syncMapLoad (syncMapStore m key value) key = some value := by
  simp [syncMapLoad, syncMapStore]

/-- Filtering out one key does not change what is found under another key. -/
theorem find?_filter_other_key (m : List (Int × MapValue)) (key k : Int) (hk : k ≠ key) :
    List.find? (fun kv => kv.1 == k) (List.filter (fun kv => kv.1 != key) m)
      = List.find? (fun kv => kv.1 == k) m := by
  rw [List.find?_filter]
  congr 1
  funext kv
  by_cases h : kv.1 = k
  · simp [h, hk]
  · simp [h]

/-- Storing under one key leaves what `Load` finds under another key as it was. -/
theorem syncMapLoad_store_other (m : List (Int × MapValue)) (key : Int) (value : MapValue)
    (k : Int) (hk : k ≠ key) :
    syncMapLoad (syncMapStore m key value) k = syncMapLoad m k := by
  have hne : (key == k) = false := by
    simp only [beq_eq_false_iff_ne]
    exact fun h => hk h.symm
  simp only [syncMapLoad, syncMapStore, List.find?_cons, hne]
  rw [find?_filter_other_key m key k hk]

/-- After `Delete`, `Load` finds nothing under the deleted key. -/
theorem syncMapLoad_delete_same (m : List (Int × MapValue)) (key : Int) :
    syncMapLoad (syncMapDelete m key) key = none := by
  simp [syncMapLoad, syncMapDelete]

/-- Deleting one key leaves what `Load` finds under another key as it was. -/
theorem syncMapLoad_delete_other (m : List (Int × MapValue)) (key k : Int) (hk : k ≠ key) :
    syncMapLoad (syncMapDelete m key) k = syncMapLoad m k := by
  simp only [syncMapLoad, syncMapDelete]
  rw [find?_filter_other_key m key k hk]

/-- A key above all keys of the map has no entry. -/
theorem syncMapLoad_above (m : List (Int × MapValue)) (bound k : Int)
    (hm : ∀ kv ∈ m, kv.1 ≤ bound) (hk : bound < k) : syncMapLoad m k = none := by
  simp only [syncMapLoad, Option.map_eq_none', List.find?_eq_none]
  intro kv hkv heq
  have h1 := hm kv hkv
  have h2 : kv.1 = k := by simpa using heq
  omega

/-- An `int64` converted to `uint64` and back is the same `int64`. -/
theorem wrapInt64_toUint64 (x : Int) (hlo : -2 ^ 63 ≤ x) (hhi : x < 2 ^ 63) :
    wrapInt64 (toUint64 x) = x := by
  unfold wrapInt64 toUint64
  have h : ((x % 2 ^ 64).toNat : Int) = x % 2 ^ 64 :=
    Int.toNat_of_nonneg (Int.emod_nonneg _ (by norm_num))
  rw [h]
  omega

/-- The value of `wrapInt64` is an `int64`. -/
theorem wrapInt64_range (x : Int) : -2 ^ 63 ≤ wrapInt64 x ∧ wrapInt64 x < 2 ^ 63 := by
  unfold wrapInt64
  omega

/-- Within the `int64` range nothing wraps. -/
theorem wrapInt64_id (x : Int) (hlo : -2 ^ 63 ≤ x) (hhi : x < 2 ^ 63) : wrapInt64 x = x := by
  unfold wrapInt64
  omega

/-- C11: for every registry, token and hash pointer, `preimageResolver` returns a result
(it is a total function of the registry), and this result is the failure result, of length
-1 and with a null pointer, exactly when the token has no registry entry, the entry is not a
resolver, or the resolver returns an error for the hash; otherwise it is the bytes the
resolver returns for the hash, with their number as length. -/
theorem preimageResolver_failure_iff {N : Type} (w : World N) (context : Nat)
    (ptr : List Nat) :
    ((preimageResolver w context ptr).len = -1 ↔
      (syncMapLoad w.preimageResolvers (wrapInt64 context) = none ∨
       (∃ tag, syncMapLoad w.preimageResolvers (wrapInt64 context) = some (.other tag)) ∨
       (∃ f e, syncMapLoad w.preimageResolvers (wrapInt64 context) = some (.resolver f) ∧
         f (ptr.take 32) = .error e))) ∧
    ((preimageResolver w context ptr).len = -1 →
      preimageResolver w context ptr = { ptr := none, len := -1 }) ∧
    (∀ f preimage, syncMapLoad w.preimageResolvers (wrapInt64 context) = some (.resolver f) →
      f (ptr.take 32) = .ok preimage →
      preimageResolver w context ptr = { ptr := some preimage, len := preimage.length }) := by
  unfold preimageResolver
  cases hl : syncMapLoad w.preimageResolvers (wrapInt64 context) with
  | none => simp
  | some v =>
    cases v with
    | other tag => simp
    | resolver f =>
      cases hf : f (List.take 32 ptr) with
      | error e =>
        simp only [hf]
        refine ⟨⟨fun _ => Or.inr (Or.inr ⟨f, e, rfl, hf⟩), fun _ => ?_⟩, ?_, ?_⟩
        · first | rfl | trivial
        · trivial
        intro g preimage h1 h2
        simp only [Option.some.injEq, MapValue.resolver.injEq] at h1
        subst h1
        rw [hf] at h2
        cases h2
      | ok preimage =>
        simp only [hf]
        refine ⟨⟨?_, ?_⟩, ?_, ?_⟩
        · intro h
          have h0 : (preimage.length : Int) = -1 := h
          omega
        · intro h
          rcases h with h | ⟨tag, h⟩ | ⟨g, e, h1, h2⟩
          · cases h
          · cases h
          · simp only [Option.some.injEq, MapValue.resolver.injEq] at h1
            subst h1
            rw [hf] at h2
            cases h2
        · intro h
          have h0 : (preimage.length : Int) = -1 := h
          omega
        · intro g preimage2 h1 h2
          simp only [Option.some.injEq, MapValue.resolver.injEq] at h1
          subst h1
          rw [hf] at h2
          cases h2
          rfl

/-- Witness of C11 on the registry of the small engine: token 1 resolves the hash of 32
zero bytes to three bytes, and fails on another hash; token 2 holds no resolver and token 3
nothing. -/
theorem preimageResolver_failure_iff_witness :
    preimageResolver toyRegistry 1 (List.replicate 32 0) = { ptr := some [7, 7, 7], len := 3 } ∧
    preimageResolver toyRegistry 1 (List.replicate 32 9) = { ptr := none, len := -1 } ∧
    preimageResolver toyRegistry 2 (List.replicate 32 0) = { ptr := none, len := -1 } ∧
    preimageResolver toyRegistry 3 (List.replicate 32 0) = { ptr := none, len := -1 } :=
  ⟨(preimageResolver_failure_iff toyRegistry 1 (List.replicate 32 0)).2.2 toyPreimages
      [7, 7, 7] rfl rfl,
   (preimageResolver_failure_iff toyRegistry 1 (List.replicate 32 9)).2.1 (by decide),
   by decide, by decide⟩

/-- C12: on a handle that is not frozen, `SetPreimageResolver fn` returns no error and
leaves in the handle a token `t` under which the registry holds `fn`: the callback
`preimageResolver`, called with the context the engine was given for the machine
(`C.uint64_t(t)`), returns the bytes of `fn` for every hash, or the failure result when `fn`
returns an error; what the registry holds under every other token is as before. -/
theorem SetPreimageResolver_binds {N G C : Type} (E : Engine N G C) (w : World N)
    (m : fogitratorMachine) (fn : GoPreimageResolver) (hm : m.frozen = false) :
    (SetPreimageResolver E w m fn).2.2 = none ∧
    ∃ t, (SetPreimageResolver E w m fn).2.1.contextId = some t ∧
      syncMapLoad (SetPreimageResolver E w m fn).1.preimageResolvers t = some (.resolver fn) ∧
      (∀ ptr, preimageResolver (SetPreimageResolver E w m fn).1 (toUint64 t) ptr =
        match fn (ptr.take 32) with
        | .ok preimage => { ptr := some preimage, len := preimage.length }
        | .error _ => { ptr := none, len := -1 }) ∧
      (∀ k, k ≠ t →
        syncMapLoad (SetPreimageResolver E w m fn).1.preimageResolvers k
          = syncMapLoad w.preimageResolvers k) := by
  have hw : (SetPreimageResolver E w m fn).1.preimageResolvers
      = syncMapStore w.preimageResolvers (wrapInt64 (w.lastPreimageResolverId + 1))
          (.resolver fn) := by
    simp [SetPreimageResolver, hm, World.cgo, World.log, World.setNative]
  refine ⟨by simp [SetPreimageResolver, hm], wrapInt64 (w.lastPreimageResolverId + 1),
    by simp [SetPreimageResolver, hm], ?_, ?_, ?_⟩
  · rw [hw, syncMapLoad_store_same]
  · intro ptr
    have hr := wrapInt64_range (w.lastPreimageResolverId + 1)
    unfold preimageResolver
    rw [wrapInt64_toUint64 _ hr.1 hr.2, hw, syncMapLoad_store_same]
    cases h : fn (List.take 32 ptr) <;> simp [h]
  · intro k hk
    rw [hw, syncMapLoad_store_other _ _ _ _ hk]

/-- Witness of C12: the running machine of the small engine gets token 3 on the registry of
the small engine, token 3 then resolves as `toyPreimages` does and token 1 as before. -/
theorem SetPreimageResolver_binds_witness :
    toyRunning.frozen = false ∧
    (SetPreimageResolver toyEngine toyRegistry toyRunning toyPreimages).2.1.contextId = some 3 ∧
    preimageResolver (SetPreimageResolver toyEngine toyRegistry toyRunning toyPreimages).1 3
      (List.replicate 32 0) = { ptr := some [7, 7, 7], len := 3 } ∧
    (SetPreimageResolver toyEngine toyRegistry toyRunning toyPreimages).2.2 = none :=
  ⟨rfl, rfl, by decide,
   (SetPreimageResolver_binds toyEngine toyRegistry toyRunning toyPreimages rfl).1⟩

/-- A rejected `SetPreimageResolver` returns the package state as it was. -/
theorem SetPreimageResolver_frozen_world {N G C : Type} (E : Engine N G C) (w : World N)
    (m : fogitratorMachine) (fn : GoPreimageResolver) (hm : m.frozen = true) :
    (SetPreimageResolver E w m fn).1 = w := by
  simp [SetPreimageResolver, hm]

/-- The registry after an accepted `SetPreimageResolver`. -/
theorem SetPreimageResolver_registry {N G C : Type} (E : Engine N G C) (w : World N)
    (m : fogitratorMachine) (fn : GoPreimageResolver) (hm : m.frozen = false) :
    (SetPreimageResolver E w m fn).1.preimageResolvers
      = syncMapStore w.preimageResolvers (wrapInt64 (w.lastPreimageResolverId + 1))
          (.resolver fn) := by
  simp [SetPreimageResolver, hm, World.cgo, World.log, World.setNative]

/-- The token counter after an accepted `SetPreimageResolver`. -/
theorem SetPreimageResolver_counter {N G C : Type} (E : Engine N G C) (w : World N)
    (m : fogitratorMachine) (fn : GoPreimageResolver) (hm : m.frozen = false) :
    (SetPreimageResolver E w m fn).1.lastPreimageResolverId
      = wrapInt64 (w.lastPreimageResolverId + 1) := by
  simp [SetPreimageResolver, hm, World.cgo, World.log, World.setNative]

/-- The package state after a series of calls is the one after the rest of the series, run
from the state the first call leaves. -/
theorem SetPreimageResolverCalls_cons_world {N G C : Type} (E : Engine N G C) (w : World N)
    (call : fogitratorMachine × GoPreimageResolver)
    (rest : List (fogitratorMachine × GoPreimageResolver)) :
    (SetPreimageResolverCalls E w (call :: rest)).1
      = (SetPreimageResolverCalls E (SetPreimageResolver E w call.1 call.2).1 rest).1 := by
  simp only [SetPreimageResolverCalls]
  split <;> rfl

/-- A token at or below the counter that has no entry has none after a series of
`SetPreimageResolver` calls that keep the counter within the `int64` range. -/
theorem syncMapLoad_none_after_calls {N G C : Type} (E : Engine N G C) (t : Int)
    (calls : List (fogitratorMachine × GoPreimageResolver)) :
    ∀ (w : World N), syncMapLoad w.preimageResolvers t = none →
      t ≤ w.lastPreimageResolverId → -2 ^ 63 ≤ w.lastPreimageResolverId →
      w.lastPreimageResolverId + calls.length < 2 ^ 63 →
      syncMapLoad (SetPreimageResolverCalls E w calls).1.preimageResolvers t = none := by
  induction calls with
  | nil => intro w h _ _ _; exact h
  | cons call rest ih =>
    intro w h ht hlo hhi
    rw [SetPreimageResolverCalls_cons_world]
    have hlen : ((call :: rest).length : Int) = (rest.length : Int) + 1 := by
      simp
    rw [hlen] at hhi
    cases hf : call.1.frozen with
    | true =>
      rw [SetPreimageResolver_frozen_world E w call.1 call.2 hf]
      exact ih w h ht hlo (by omega)
    | false =>
      have hc := SetPreimageResolver_counter E w call.1 call.2 hf
      have hr := SetPreimageResolver_registry E w call.1 call.2 hf
      have hid : wrapInt64 (w.lastPreimageResolverId + 1) = w.lastPreimageResolverId + 1 :=
        wrapInt64_id _ (by omega) (by omega)
      rw [hid] at hc hr
      apply ih
      · rw [hr, syncMapLoad_store_other _ _ _ _ (by omega)]
        exact h
      · omega
      · omega
      · omega

/-- The counter after `n + 1` accepted calls, and the entry the last of them stored. -/
theorem SetPreimageResolverCalls_replicate {N G C : Type} (E : Engine N G C)
    (m : fogitratorMachine) (fn : GoPreimageResolver) (hm : m.frozen = false) (n : Nat) :
    ∀ (w : World N),
      (SetPreimageResolverCalls E w (List.replicate (n + 1) (m, fn))).1.lastPreimageResolverId
        = wrapInt64 (w.lastPreimageResolverId + ((n + 1 : Nat) : Int)) ∧
      syncMapLoad (SetPreimageResolverCalls E w (List.replicate (n + 1) (m, fn))).1.preimageResolvers
        (wrapInt64 (w.lastPreimageResolverId + ((n + 1 : Nat) : Int))) = some (.resolver fn) := by
  induction n with
  | zero =>
    intro w
    have e : List.replicate (0 + 1) (m, fn) = [(m, fn)] := rfl
    rw [e, SetPreimageResolverCalls_cons_world]
    simp only [SetPreimageResolverCalls]
    rw [SetPreimageResolver_counter E w m fn hm, SetPreimageResolver_registry E w m fn hm]
    exact ⟨rfl, syncMapLoad_store_same _ _ _⟩
  | succ n ih =>
    intro w
    have e : List.replicate (n + 1 + 1) (m, fn) = (m, fn) :: List.replicate (n + 1) (m, fn) :=
      rfl
    rw [e, SetPreimageResolverCalls_cons_world]
    have h := ih (SetPreimageResolver E w m fn).1
    rw [SetPreimageResolver_counter E w m fn hm] at h
    have harith : wrapInt64 (wrapInt64 (w.lastPreimageResolverId + 1) + ((n + 1 : Nat) : Int))
        = wrapInt64 (w.lastPreimageResolverId + ((n + 1 + 1 : Nat) : Int)) := by
      unfold wrapInt64
      push_cast
      omega
    rw [harith] at h
    exact h

/-- What `preimageResolver` returns when the token holds a resolver that knows the hash. -/
theorem preimageResolver_of_entry {N : Type} (w : World N) (context : Nat) (ptr : List Nat)
    (f : GoPreimageResolver) (preimage : List Nat)
    (hl : syncMapLoad w.preimageResolvers (wrapInt64 context) = some (.resolver f))
    (hf : f (ptr.take 32) = .ok preimage) :
    preimageResolver w context ptr = { ptr := some preimage, len := preimage.length } := by
  simp [preimageResolver, hl, hf]

/-- What `preimageResolver` returns when the token has no entry. -/
theorem preimageResolver_of_no_entry {N : Type} (w : World N) (context : Nat) (ptr : List Nat)
    (hl : syncMapLoad w.preimageResolvers (wrapInt64 context) = none) :
    preimageResolver w context ptr = { ptr := none, len := -1 } := by
  simp [preimageResolver, hl]

/-- C13, as stated, fails: token 1 is registered for the running machine of the small
engine and resolves, it is removed by `freeContextId` and stops resolving, and after
`2 ^ 64` further accepted `SetPreimageResolver` calls the `int64` counter has wrapped
around to 1, token 1 is allocated again and resolves again. -/
theorem freed_token_reallocated_counterexample :
    (SetPreimageResolver toyEngine toyWorld toyRunning toyPreimages).2.1.contextId = some 1 ∧
    preimageResolver (SetPreimageResolver toyEngine toyWorld toyRunning toyPreimages).1 1
      (List.replicate 32 0) = { ptr := some [7, 7, 7], len := 3 } ∧
    preimageResolver toyFreed 1 (List.replicate 32 0) = { ptr := none, len := -1 } ∧
    preimageResolver
      (SetPreimageResolverCalls toyEngine toyFreed
        (List.replicate (2 ^ 64) (toyRunning, toyPreimages))).1 1 (List.replicate 32 0)
      = { ptr := some [7, 7, 7], len := 3 } := by
  refine ⟨rfl, by decide, by decide, ?_⟩
  have h := (SetPreimageResolverCalls_replicate toyEngine toyRunning toyPreimages rfl
    (2 ^ 64 - 1) toyFreed).2
  have e : 2 ^ 64 - 1 + 1 = 2 ^ 64 := by norm_num
  rw [e] at h
  have hl : toyFreed.lastPreimageResolverId = 1 := rfl
  have hc : wrapInt64 (toyFreed.lastPreimageResolverId + ((2 ^ 64 : Nat) : Int)) = 1 := by
    rw [hl]
    unfold wrapInt64
    norm_num
  rw [hc] at h
  have h1 : wrapInt64 ((1 : Nat) : Int) = 1 := by
    unfold wrapInt64
    norm_num
  exact preimageResolver_of_entry _ 1 _ toyPreimages [7, 7, 7] (by rw [h1]; exact h) rfl

/-- C13, amended: once `freeContextId` has removed a token `t` that is at most the token
counter (as every token allocated so far is), the callback returns the failure result for
`t` and every hash, and it still does after any series of later `SetPreimageResolver` calls
that keeps the counter within the `int64` range. -/
theorem freed_token_unresolved {N G C : Type} (E : Engine N G C) (w : World N) (t : Int)
    (calls : List (fogitratorMachine × GoPreimageResolver))
    (ht : t ≤ w.lastPreimageResolverId) (hlo : -2 ^ 63 ≤ w.lastPreimageResolverId)
    (hhi : w.lastPreimageResolverId + calls.length < 2 ^ 63) :
    (∀ (context : Nat) (ptr : List Nat), wrapInt64 context = t →
      preimageResolver (freeContextId w t) context ptr = { ptr := none, len := -1 }) ∧
    (∀ (context : Nat) (ptr : List Nat), wrapInt64 context = t →
      preimageResolver (SetPreimageResolverCalls E (freeContextId w t) calls).1 context ptr
        = { ptr := none, len := -1 }) := by
  have h0 : syncMapLoad (freeContextId w t).preimageResolvers t = none := by
    simp only [freeContextId]
    exact syncMapLoad_delete_same _ _
  constructor
  · intro context ptr hc
    exact preimageResolver_of_no_entry _ _ _ (by rw [hc]; exact h0)
  · intro context ptr hc
    apply preimageResolver_of_no_entry
    rw [hc]
    exact syncMapLoad_none_after_calls E t calls (freeContextId w t) h0 ht hlo hhi

/-- Witness of the amended C13: on the registry of the small engine, whose counter is 2,
token 1 is removed and stays unresolved after two more calls. -/
theorem freed_token_unresolved_witness :
    (1 : Int) ≤ toyRegistry.lastPreimageResolverId ∧
    preimageResolver toyRegistry 1 (List.replicate 32 0) = { ptr := some [7, 7, 7], len := 3 } ∧
    preimageResolver
      (SetPreimageResolverCalls toyEngine (freeContextId toyRegistry 1)
        [(toyRunning, toyPreimages), (toyFaulty, toyResolver)]).1 1 (List.replicate 32 0)
      = { ptr := none, len := -1 } :=
  ⟨by decide, by decide,
   (freed_token_unresolved toyEngine toyRegistry 1
     [(toyRunning, toyPreimages), (toyFaulty, toyResolver)] (by decide) (by decide)
     (by decide)).2 1 (List.replicate 32 0) (by decide)⟩

/-- C14, as stated, fails: the running machine of the small engine gets token 1, no clone
of it is made, and after `Destroy` on this only handle of its family the entry of token 1
is still in the registry and still resolves. -/
theorem Destroy_keeps_entry_counterexample :
    (SetPreimageResolver toyEngine toyWorld toyRunning toyPreimages).2.1
      = { ptr := some 0, contextId := some 1, frozen := false } ∧
    (Destroy toyEngine (SetPreimageResolver toyEngine toyWorld toyRunning toyPreimages).1
      { ptr := some 0, contextId := some 1, frozen := false }).2
      = { ptr := none, contextId := none, frozen := false } ∧
    preimageResolver
      (Destroy toyEngine (SetPreimageResolver toyEngine toyWorld toyRunning toyPreimages).1
        { ptr := some 0, contextId := some 1, frozen := false }).1 1 (List.replicate 32 0)
      = { ptr := some [7, 7, 7], len := 3 } := by
  refine ⟨rfl, rfl, ?_⟩
  decide

/-- C14, amended: `Destroy` removes no registry entry.  On every handle, whether other
handles of its clone family are live or not, it leaves the registry and the token counter
as they are, so that every token resolves as before, and it clears the token of the handle
itself.  An entry is removed by `freeContextId`, the finalizer set on the token: it removes
the entry of its token and no other. -/
theorem Destroy_keeps_registry {N G C : Type} (E : Engine N G C) (w : World N)
    (m : fogitratorMachine) :
    (Destroy E w m).1.preimageResolvers = w.preimageResolvers ∧
    (Destroy E w m).1.lastPreimageResolverId = w.lastPreimageResolverId ∧
    (∀ (context : Nat) (ptr : List Nat),
      preimageResolver (Destroy E w m).1 context ptr = preimageResolver w context ptr) ∧
    (Destroy E w m).2.contextId = none ∧
    (∀ t, syncMapLoad (freeContextId w t).preimageResolvers t = none ∧
      ∀ k, k ≠ t →
        syncMapLoad (freeContextId w t).preimageResolvers k = syncMapLoad w.preimageResolvers k) := by
  have h1 : (Destroy E w m).1.preimageResolvers = w.preimageResolvers := by
    unfold Destroy
    split <;> rfl
  refine ⟨h1, ?_, ?_, ?_, ?_⟩
  · unfold Destroy
    split <;> rfl
  · intro context ptr
    unfold preimageResolver
    rw [h1]
  · unfold Destroy
    split <;> rfl
  · intro t
    exact ⟨syncMapLoad_delete_same _ _, fun k hk => syncMapLoad_delete_other _ _ _ hk⟩

/-- Witness of the amended C14 on the registry of the small engine: `freeContextId` removes
token 1 and leaves token 2. -/
theorem Destroy_keeps_registry_witness :
    (2 : Int) ≠ 1 ∧
    syncMapLoad (freeContextId toyRegistry 1).preimageResolvers 1 = none ∧
    syncMapLoad (freeContextId toyRegistry 1).preimageResolvers 2
      = syncMapLoad toyRegistry.preimageResolvers 2 :=
  ⟨by decide,
   ((Destroy_keeps_registry toyEngine toyRegistry toyRunning).2.2.2.2 1).1,
   ((Destroy_keeps_registry toyEngine toyRegistry toyRunning).2.2.2.2 1).2 2 (by decide)⟩

/-- The tokens of a series whose first call is rejected are those of the rest. -/
theorem SetPreimageResolverCalls_cons_frozen {N G C : Type} (E : Engine N G C) (w : World N)
    (call : fogitratorMachine × GoPreimageResolver)
    (rest : List (fogitratorMachine × GoPreimageResolver)) (hf : call.1.frozen = true) :
    SetPreimageResolverCalls E w (call :: rest) = SetPreimageResolverCalls E w rest := by
  simp [SetPreimageResolverCalls, SetPreimageResolver, hf]

/-- The tokens of a series whose first call is accepted are the token of that call and
those of the rest. -/
theorem SetPreimageResolverCalls_cons_accepted {N G C : Type} (E : Engine N G C)
    (w : World N) (call : fogitratorMachine × GoPreimageResolver)
    (rest : List (fogitratorMachine × GoPreimageResolver)) (hf : call.1.frozen = false) :
    (SetPreimageResolverCalls E w (call :: rest)).2
      = wrapInt64 (w.lastPreimageResolverId + 1)
        :: (SetPreimageResolverCalls E (SetPreimageResolver E w call.1 call.2).1 rest).2 := by
  simp [SetPreimageResolverCalls, SetPreimageResolver, hf]

/-- The keys of the registry stay at or below the token counter, and the counter moves up
by at most one per call, over a series of calls that keeps it within the `int64` range. -/
theorem SetPreimageResolverCalls_invariant {N G C : Type} (E : Engine N G C)
    (calls : List (fogitratorMachine × GoPreimageResolver)) :
    ∀ (w : World N), -2 ^ 63 ≤ w.lastPreimageResolverId →
      w.lastPreimageResolverId + calls.length < 2 ^ 63 →
      (∀ kv ∈ w.preimageResolvers, kv.1 ≤ w.lastPreimageResolverId) →
      (∀ kv ∈ (SetPreimageResolverCalls E w calls).1.preimageResolvers,
        kv.1 ≤ (SetPreimageResolverCalls E w calls).1.lastPreimageResolverId) ∧
      w.lastPreimageResolverId ≤ (SetPreimageResolverCalls E w calls).1.lastPreimageResolverId ∧
      (SetPreimageResolverCalls E w calls).1.lastPreimageResolverId
        ≤ w.lastPreimageResolverId + calls.length ∧
      (∀ t ∈ (SetPreimageResolverCalls E w calls).2, w.lastPreimageResolverId < t) ∧
      (SetPreimageResolverCalls E w calls).2.Pairwise (fun a b => a < b) ∧
      (∀ t ∈ (SetPreimageResolverCalls E w calls).2,
        t ≤ (SetPreimageResolverCalls E w calls).1.lastPreimageResolverId) := by
  induction calls with
  | nil =>
    intro w _ _ hinv
    simp only [SetPreimageResolverCalls]
    exact ⟨hinv, le_refl _, by simp, by simp, List.Pairwise.nil, by simp⟩
  | cons call rest ih =>
    intro w hlo hhi hinv
    have hlen : ((call :: rest).length : Int) = (rest.length : Int) + 1 := by
      simp
    rw [hlen] at hhi ⊢
    cases hf : call.1.frozen with
    | true =>
      rw [SetPreimageResolverCalls_cons_frozen E w call rest hf]
      have h := ih w hlo (by omega) hinv
      exact ⟨h.1, h.2.1, by omega, h.2.2.2.1, h.2.2.2.2.1, h.2.2.2.2.2⟩
    | false =>
      have hc := SetPreimageResolver_counter E w call.1 call.2 hf
      have hr := SetPreimageResolver_registry E w call.1 call.2 hf
      have hid : wrapInt64 (w.lastPreimageResolverId + 1) = w.lastPreimageResolverId + 1 :=
        wrapInt64_id _ (by omega) (by omega)
      rw [hid] at hc hr
      have hinv2 : ∀ kv ∈ (SetPreimageResolver E w call.1 call.2).1.preimageResolvers,
          kv.1 ≤ (SetPreimageResolver E w call.1 call.2).1.lastPreimageResolverId := by
        intro kv hkv
        rw [hr] at hkv
        rw [hc]
        simp only [syncMapStore, List.mem_cons, List.mem_filter] at hkv
        rcases hkv with hkv | hkv
        · rw [hkv]
        · have := hinv kv hkv.1
          omega
      have h := ih (SetPreimageResolver E w call.1 call.2).1 (by omega) (by omega) hinv2
      rw [hc] at h
      rw [SetPreimageResolverCalls_cons_world,
        SetPreimageResolverCalls_cons_accepted E w call rest hf, hid]
      refine ⟨h.1, by omega, by omega, ?_, ?_, ?_⟩
      · intro t ht
        simp only [List.mem_cons] at ht
        rcases ht with ht | ht
        · omega
        · have := h.2.2.2.1 t ht
          omega
      · exact List.Pairwise.cons (fun t ht => h.2.2.2.1 t ht) h.2.2.2.2.1
      · intro t ht
        simp only [List.mem_cons] at ht
        rcases ht with ht | ht
        · omega
        · exact h.2.2.2.2.2 t ht

/-- C15: from a package state whose registry keys are at most the token counter (as in the
initial state and after every method), over any series of `SetPreimageResolver` calls that
keeps the counter within the `int64` range: every accepted call allocates the counter plus
one, a token above the counter and all registry keys before it and above all tokens
allocated earlier in the series; the tokens of the series are strictly increasing, hence
pairwise different; and the token of every accepted call has no registry entry when the
call is made, so that no entry is overwritten. -/
theorem tokens_strictly_increasing {N G C : Type} (E : Engine N G C) (w : World N)
    (calls : List (fogitratorMachine × GoPreimageResolver))
    (hlo : -2 ^ 63 ≤ w.lastPreimageResolverId)
    (hhi : w.lastPreimageResolverId + calls.length < 2 ^ 63)
    (hinv : ∀ kv ∈ w.preimageResolvers, kv.1 ≤ w.lastPreimageResolverId) :
    (∀ t ∈ (SetPreimageResolverCalls E w calls).2, w.lastPreimageResolverId < t) ∧
    (SetPreimageResolverCalls E w calls).2.Pairwise (fun a b => a < b) ∧
    (SetPreimageResolverCalls E w calls).2.Nodup ∧
    (∀ pre m fn post, calls = pre ++ (m, fn) :: post → m.frozen = false →
      (SetPreimageResolver E (SetPreimageResolverCalls E w pre).1 m fn).2.1.contextId
        = some ((SetPreimageResolverCalls E w pre).1.lastPreimageResolverId + 1) ∧
      (∀ t ∈ (SetPreimageResolverCalls E w pre).2,
        t < (SetPreimageResolverCalls E w pre).1.lastPreimageResolverId + 1) ∧
      (∀ kv ∈ (SetPreimageResolverCalls E w pre).1.preimageResolvers,
        kv.1 < (SetPreimageResolverCalls E w pre).1.lastPreimageResolverId + 1) ∧
      syncMapLoad (SetPreimageResolverCalls E w pre).1.preimageResolvers
        ((SetPreimageResolverCalls E w pre).1.lastPreimageResolverId + 1) = none) := by
  have h := SetPreimageResolverCalls_invariant E calls w hlo hhi hinv
  refine ⟨h.2.2.2.1, h.2.2.2.2.1, ?_, ?_⟩
  · exact h.2.2.2.2.1.imp (fun hab => ne_of_lt hab)
  · intro pre m fn post hcalls hm
    have hlen : (calls.length : Int) = (pre.length : Int) + (post.length : Int) + 1 := by
      rw [hcalls]
      simp
      omega
    have hp := SetPreimageResolverCalls_invariant E pre w hlo (by omega) hinv
    have hid : wrapInt64 ((SetPreimageResolverCalls E w pre).1.lastPreimageResolverId + 1)
        = (SetPreimageResolverCalls E w pre).1.lastPreimageResolverId + 1 :=
      wrapInt64_id _ (by omega) (by omega)
    refine ⟨?_, ?_, ?_, ?_⟩
    · simp [SetPreimageResolver, hm, hid]
    · intro t ht
      have := hp.2.2.2.2.2 t ht
      omega
    · intro kv hkv
      have := hp.1 kv hkv
      omega
    · exact syncMapLoad_above _ _ _ hp.1 (by omega)

/-- Witness of C15 on the registry of the small engine, whose counter is 2: of three calls
the second is rejected, and the other two get the tokens 3 and 4. -/
theorem tokens_strictly_increasing_witness :
    (SetPreimageResolverCalls toyEngine toyRegistry
      [(toyRunning, toyPreimages), (Freeze toyErrored, toyResolver),
       (toyFaulty, toyResolver)]).2 = [3, 4] ∧
    (SetPreimageResolverCalls toyEngine toyRegistry
      [(toyRunning, toyPreimages), (Freeze toyErrored, toyResolver),
       (toyFaulty, toyResolver)]).2.Pairwise (fun a b => a < b) ∧
    syncMapLoad (SetPreimageResolverCalls toyEngine toyRegistry
      [(toyRunning, toyPreimages), (Freeze toyErrored, toyResolver)]).1.preimageResolvers
      ((SetPreimageResolverCalls toyEngine toyRegistry
        [(toyRunning, toyPreimages), (Freeze toyErrored, toyResolver)]).1.lastPreimageResolverId
        + 1) = none :=
  have h := tokens_strictly_increasing toyEngine toyRegistry
    [(toyRunning, toyPreimages), (Freeze toyErrored, toyResolver), (toyFaulty, toyResolver)]
    (by decide) (by decide) (by decide)
  ⟨rfl, h.2.1,
   (h.2.2.2 [(toyRunning, toyPreimages), (Freeze toyErrored, toyResolver)] toyFaulty
     toyResolver [] rfl rfl).2.2.2⟩

/-- C16: `Clone` leaves the registry and the token counter as they are, every handle it
returns carries the resolver token of `m` (none when `m` has none), and it does return a
handle, on the machine the engine hands back, whenever the engine's `clone_machine` returns
a non-nil pointer, as an engine does for a live machine. -/
theorem Clone_shares_token {N G C : Type} (E : Engine N G C) (w : World N)
    (m : fogitratorMachine) :
    (Clone E w m).1.preimageResolvers = w.preimageResolvers ∧
    (Clone E w m).1.lastPreimageResolverId = w.lastPreimageResolverId ∧
    (∀ c, (Clone E w m).2 = .ok c → c.contextId = m.contextId) ∧
    (∀ q, (E.clone_machine w.native m.ptr).2 = some q →
      ∃ c, (Clone E w m).2 = .ok c ∧ c.ptr = some q ∧ c.contextId = m.contextId) ∧
    (∀ e, e ∈ (Clone E w m).1.trace → (∀ id, e ≠ .setFinalizerContextId id) ∨ e ∈ w.trace) := by
  cases hp : (E.clone_machine w.native m.ptr).2 with
  | none =>
    refine ⟨?_, ?_, ?_, ?_, ?_⟩
    · simp [Clone, machineFromPointer, hp, World.cgo, World.log, World.setNative]
    · simp [Clone, machineFromPointer, hp, World.cgo, World.log, World.setNative]
    · intro c hc
      simp [Clone, machineFromPointer, hp] at hc
    · intro q hq
      cases hq
    · intro e he
      simp only [Clone, machineFromPointer, hp, World.cgo, World.log, World.setNative,
        Option.isNone_none, if_true, List.mem_append, List.mem_singleton] at he
      rcases he with he | rfl
      · exact Or.inr he
      · exact Or.inl (fun id => by simp)
  | some q =>
    refine ⟨?_, ?_, ?_, ?_, ?_⟩
    · simp [Clone, machineFromPointer, hp, World.cgo, World.log, World.setNative]
    · simp [Clone, machineFromPointer, hp, World.cgo, World.log, World.setNative]
    · intro c hc
      simp [Clone, machineFromPointer, hp] at hc
      rw [← hc]
    · intro q2 hq
      cases hq
      exact ⟨{ ptr := some q, contextId := m.contextId, frozen := false },
        by simp [Clone, machineFromPointer, hp], rfl, rfl⟩
    · intro e he
      simp only [Clone, machineFromPointer, hp, World.cgo, World.log, World.setNative,
        Option.isNone_some, Bool.false_eq_true, if_false, List.mem_append,
        List.mem_singleton] at he
      rcases he with ((he | rfl) | rfl) | rfl
      · exact Or.inr he
      · exact Or.inl (fun id => by simp)
      · exact Or.inl (fun id => by simp)
      · exact Or.inl (fun id => by simp)

/-- Witness of C16: the clone of the running machine of the small engine, to which token 1
was given, carries token 1. -/
theorem Clone_shares_token_witness :
    (toyEngine.clone_machine toyRegistry.native (some 0)).2 = some 3 ∧
    (Clone toyEngine toyRegistry { ptr := some 0, contextId := some 1, frozen := false }).2
      = .ok { ptr := some 3, contextId := some 1, frozen := false } ∧
    (∃ c, (Clone toyEngine toyRegistry
        { ptr := some 0, contextId := some 1, frozen := false }).2 = .ok c ∧
      c.ptr = some 3 ∧ c.contextId = some 1) :=
  ⟨rfl, rfl,
   (Clone_shares_token toyEngine toyRegistry
     { ptr := some 0, contextId := some 1, frozen := false }).2.2.2.1 3 rfl⟩

/-! ## Freezing and reads -/

/-- C17: on the frozen handle `Freeze m`, `Hash`, `GetGlobalState`, `GetStepCount`, `Status`,
`ValidForStep`, `ProveNextStep` and `Clone` return the result and the package state they
return on `m` itself, from the same package state.  The six reads have no error result;
`Clone` returns a handle whenever the engine's `clone_machine` returns a non-nil pointer.
None of the seven assigns a field of its receiver: after each call the handle is
`Freeze m`. -/
theorem reads_ignore_frozen {N G C : Type} (E : Engine N G C) (w : World N)
    (m : fogitratorMachine) (requestedStep : Nat) :
    Hash E w (Freeze m) = Hash E w m ∧
    GetGlobalState E w (Freeze m) = GetGlobalState E w m ∧
    GetStepCount E w (Freeze m) = GetStepCount E w m ∧
    Status E w (Freeze m) = Status E w m ∧
    ValidForStep E w (Freeze m) requestedStep = ValidForStep E w m requestedStep ∧
    ProveNextStep E w (Freeze m) = ProveNextStep E w m ∧
    Clone E w (Freeze m) = Clone E w m ∧
    (∀ q, (E.clone_machine w.native m.ptr).2 = some q →
      (Clone E w (Freeze m)).2
        = .ok { ptr := some q, contextId := m.contextId, frozen := false }) ∧
    (∀ call : Call G,
      call = .Hash ∨ call = .GetGlobalState ∨ call = .GetStepCount ∨ call = .Status ∨
        call = .ValidForStep requestedStep ∨ call = .ProveNextStep ∨ call = .Clone →
      (perform E w (Freeze m) call).2 = Freeze m) := by
  refine ⟨rfl, rfl, rfl, rfl, rfl, rfl, rfl, ?_, ?_⟩
  · intro q hq
    have hc : Clone E w (Freeze m) = Clone E w m := rfl
    rw [hc]
    simp [Clone, machineFromPointer, hq]
  · intro call hcall
    rcases hcall with h | h | h | h | h | h | h <;> subst h <;> rfl

/-- Witness of C17 on the running machine of the small engine, frozen: it is cloned, and
its step count is read, as if it were not frozen. -/
theorem reads_ignore_frozen_witness :
    (toyEngine.clone_machine toyWorld.native toyRunning.ptr).2 = some 3 ∧
    (Clone toyEngine toyWorld (Freeze toyRunning)).2
      = .ok { ptr := some 3, contextId := none, frozen := false } ∧
    (GetStepCount toyEngine toyWorld (Freeze toyRunning)).2 = 5 ∧
    (perform toyEngine toyWorld (Freeze toyRunning) (Call.Hash : Call Nat)).2
      = Freeze toyRunning :=
  ⟨rfl,
   (reads_ignore_frozen toyEngine toyWorld toyRunning 0).2.2.2.2.2.2.2.1 3 rfl,
   rfl,
   (reads_ignore_frozen toyEngine toyWorld toyRunning 0).2.2.2.2.2.2.2.2 .Hash (Or.inl rfl)⟩

/-- A call on a frozen handle leaves it frozen. -/
theorem perform_keeps_frozen {N G C : Type} (E : Engine N G C) (w : World N)
    (m : fogitratorMachine) (call : Call G) (hm : m.frozen = true) :
    (perform E w m call).2.frozen = true := by
  cases call with
  | Destroy =>
    simp only [perform]
    rw [Destroy_handle]
    exact hm
  | Freeze => rfl
  | SetPreimageResolver resolver => simp [perform, SetPreimageResolver, hm]
  | _ => exact hm

/-- A series of calls on a frozen handle leaves it frozen. -/
theorem performAll_keeps_frozen {N G C : Type} (E : Engine N G C) (calls : List (Call G)) :
    ∀ (w : World N) (m : fogitratorMachine), m.frozen = true →
      (performAll E w m calls).2.frozen = true := by
  induction calls with
  | nil => intro w m hm; exact hm
  | cons call rest ih =>
    intro w m hm
    exact ih _ _ (perform_keeps_frozen E w m call hm)

/-- C18: `Freeze` sets the frozen flag, a second `Freeze` changes nothing, and after any
series of calls of any methods on the handle (`Freeze`, `Clone`, reads, the mutating methods,
which are rejected, and `Destroy`), from any package state, the flag is still set. -/
theorem Freeze_irreversible {N G C : Type} (E : Engine N G C) (m : fogitratorMachine) :
    (Freeze m).frozen = true ∧
    Freeze (Freeze m) = Freeze m ∧
    (∀ (w : World N), (Destroy E w (Freeze m)).2.frozen = true) ∧
    (∀ (w : World N) (calls : List (Call G)),
      (performAll E w (Freeze m) calls).2.frozen = true) :=
  ⟨rfl, rfl, fun w => perform_keeps_frozen E w (Freeze m) .Destroy rfl,
   fun w calls => performAll_keeps_frozen E calls w (Freeze m) rfl⟩

/-! ## The machine loader -/

/-- C19: when `GetMachine` returns a machine set and a nil error, `GetZeroStepMachine`
returns the `zeroStep` handle of that set and `GetHostIoMachine` its `hostIo` handle, both
with a nil error; when `GetMachine` returns a non-nil error, both return the nil handle and
that error.  In both cases the loader is left in the state `GetMachine` left it in. -/
theorem loader_members {L : Type} (GetMachine : GetMachineFn L) (a : L) (ctx : Context)
    (moduleRoot : List Nat) :
    (∀ machines, (GetMachine a ctx moduleRoot).2 = (some machines, none) →
      GetZeroStepMachine GetMachine a ctx moduleRoot
        = ((GetMachine a ctx moduleRoot).1, .ok (machines.zeroStep, none)) ∧
      GetHostIoMachine GetMachine a ctx moduleRoot
        = ((GetMachine a ctx moduleRoot).1, .ok (machines.hostIo, none))) ∧
    (∀ machines err, (GetMachine a ctx moduleRoot).2 = (machines, some err) →
      GetZeroStepMachine GetMachine a ctx moduleRoot
        = ((GetMachine a ctx moduleRoot).1, .ok (none, some err)) ∧
      GetHostIoMachine GetMachine a ctx moduleRoot
        = ((GetMachine a ctx moduleRoot).1, .ok (none, some err))) := by
  constructor
  · intro machines h
    simp [GetZeroStepMachine, GetHostIoMachine, h]
  · intro machines err h
    simp [GetZeroStepMachine, GetHostIoMachine, h]

/-- Witness of C19 on the loader of the small engine: the module root `[1]` has the machine
set `toyMachines`, the module root `[2]` has none. -/
theorem loader_members_witness :
    (toyGetMachine () ctxLive [1]).2 = (some toyMachines, none) ∧
    (GetZeroStepMachine toyGetMachine () ctxLive [1]).2 = .ok (some toyRunning, none) ∧
    (GetHostIoMachine toyGetMachine () ctxLive [1]).2 = .ok (some toyErrored, none) ∧
    (GetHostIoMachine toyGetMachine () ctxLive [2]).2
      = .ok (none, some (.errorsNew "no such machine")) :=
  ⟨rfl,
   congrArg Prod.snd ((loader_members toyGetMachine () ctxLive [1]).1 toyMachines rfl).1,
   congrArg Prod.snd ((loader_members toyGetMachine () ctxLive [1]).1 toyMachines rfl).2,
   congrArg Prod.snd ((loader_members toyGetMachine () ctxLive [2]).2 none
     (.errorsNew "no such machine") rfl).2⟩

end ServerFog

/-! ## Validation runs -/

namespace ServerCommon

/-- C20: `ConsumeResult res err` makes exactly one call on the promise of the run: with a
non-nil `err` it is `ProduceError err`, whatever `res` is, and with a nil `err` it is
`Produce res`; the promise of the run is what that call returns, and the module root of the
run is as before. -/
theorem ConsumeResult_resolves_once {P G Err : Type} (ops : PromiseOps P G Err) (r : ValRun P)
    (res : G) (err : Option Err) :
    (∀ e, err = some e →
      r.ConsumeResult ops res err
        = ({ Promise := ops.ProduceError r.Promise e, root := r.root }, [.ProduceError e])) ∧
    (err = none →
      r.ConsumeResult ops res err
        = ({ Promise := ops.Produce r.Promise res, root := r.root }, [.Produce res])) ∧
    (∀ e res2, r.ConsumeResult ops res (some e) = r.ConsumeResult ops res2 (some e)) ∧
    (r.ConsumeResult ops res err).2.length = 1 ∧
    (r.ConsumeResult ops res err).1.WasmModuleRoot = r.WasmModuleRoot := by
  refine ⟨?_, ?_, fun _ _ => rfl, ?_, ?_⟩
  · intro e he
    subst he
    rfl
  · intro he
    subst he
    rfl
  · cases err <;> rfl
  · cases err <;> rfl

/-- Witness of C20 on a new run over the recording promise: an error resolves it with
`ProduceError`, no error with `Produce`. -/
theorem ConsumeResult_resolves_once_witness :
    (NewValRun toyPromise [1]).ConsumeResult toyPromise 7 (some "cancelled")
      = ({ Promise := [.ProduceError "cancelled"], root := [1] }, [.ProduceError "cancelled"]) ∧
    (NewValRun toyPromise [1]).ConsumeResult toyPromise 7 none
      = ({ Promise := [.Produce 7], root := [1] }, [.Produce 7]) :=
  ⟨(ConsumeResult_resolves_once toyPromise (NewValRun toyPromise [1]) 7
      (some "cancelled")).1 "cancelled" rfl,
   (ConsumeResult_resolves_once toyPromise (NewValRun toyPromise [1]) 7 none).2.1 rfl⟩

end ServerCommon

/-! ## Watchers and the mutex -/

namespace ServerFog

/-- C23: a `Step` or `StepUntilHostIo` call on a handle that is not frozen adds to the trace
the start of one watcher, the cgo call and then one run of the watcher's `cancel`, in this
order and whatever the engine and the context return (success, engine fault, fired
deadline): one teardown after one start, as the last action before the call returns.  On a
frozen handle no watcher is started and none is torn down. -/
theorem watcher_torn_down_once {N G C : Type} (E : Engine N G C) (w : World N)
    (m : fogitratorMachine) (ctx : Context) (n : Nat) :
    (Step E w m ctx n).1.trace
      = w.trace ++ (if m.frozen then []
          else [.watcherArmed, .cgo .step m.ptr, .watcherCancelled]) ∧
    (StepUntilHostIo E w m ctx).1.trace
      = w.trace ++ (if m.frozen then []
          else [.watcherArmed, .cgo .step_until_host_io m.ptr, .watcherCancelled]) ∧
    armedCount (Step E w m ctx n).1.trace
      = armedCount w.trace + (if m.frozen then 0 else 1) ∧
    cancelledCount (Step E w m ctx n).1.trace
      = cancelledCount w.trace + (if m.frozen then 0 else 1) ∧
    armedCount (StepUntilHostIo E w m ctx).1.trace
      = armedCount w.trace + (if m.frozen then 0 else 1) ∧
    cancelledCount (StepUntilHostIo E w m ctx).1.trace
      = cancelledCount w.trace + (if m.frozen then 0 else 1) := by
  have h1 : (Step E w m ctx n).1.trace
      = w.trace ++ (if m.frozen then []
          else [.watcherArmed, .cgo .step m.ptr, .watcherCancelled]) := by
    cases hf : m.frozen with
    | true => simp [Step, hf]
    | false =>
      simp only [Step, hf, manageConditionByte, cancelWatcher, World.cgo, World.log,
        World.setNative]
      cases (E.step w.native m.ptr n ctx.conditionByte).2 <;> simp
  have h2 : (StepUntilHostIo E w m ctx).1.trace
      = w.trace ++ (if m.frozen then []
          else [.watcherArmed, .cgo .step_until_host_io m.ptr, .watcherCancelled]) := by
    cases hf : m.frozen with
    | true => simp [StepUntilHostIo, hf]
    | false =>
      simp [StepUntilHostIo, hf, manageConditionByte, cancelWatcher, World.cgo, World.log,
        World.setNative]
  refine ⟨h1, h2, ?_, ?_, ?_, ?_⟩
  · rw [h1]
    cases m.frozen <;> simp [armedCount, List.count_cons]
  · rw [h1]
    cases m.frozen <;> simp [cancelledCount, List.count_cons]
  · rw [h2]
    cases m.frozen <;> simp [armedCount, List.count_cons]
  · rw [h2]
    cases m.frozen <;> simp [cancelledCount, List.count_cons]

/-- C22 fails on `Freeze`: its only access is the write of `m.frozen`, made without taking
the mutex, while every other method makes all its accesses between `Lock` and the deferred
`Unlock`.  `ValidForStep` takes the mutex once for the step count and, when the step count
is below the request, lets it go and takes it a second time for the status.  With two
goroutines on one handle, once the first has taken the mutex in `Step` and read `m.frozen`,
the second can run `Freeze` to its end while the first still holds the mutex. -/
theorem Freeze_outside_mutex {N G C : Type} (E : Engine N G C) (w : World N)
    (m : fogitratorMachine) (ctx : Context) (n requestedStep : Nat) :
    lockTrace E w m (.Freeze : Call G) = [.Write .frozen] ∧
    guarded (lockTrace E w m (.Freeze : Call G)) = false ∧
    (∀ call : Call G, guarded (lockTrace E w m call) = !call.isFreeze) ∧
    criticalSections (lockTrace E w m (.ValidForStep requestedStep : Call G))
      = (if (GetStepCount E w m).2 < requestedStep then 2 else 1) ∧
    interleave
      (none, lockTrace E w { m with frozen := false } (.Step ctx n : Call G),
        lockTrace E w { m with frozen := false } (.Freeze : Call G))
      [false, false, true]
      = some (some false, [.Read .ptr, .Cgo .step, .Unlock], []) ∧
    interleave
      (none, lockTrace E w { m with frozen := false } (.Step ctx n : Call G),
        lockTrace E w { m with frozen := false } (.Hash : Call G))
      [false, false, true]
      = none := by
  refine ⟨rfl, rfl, ?_, ?_, rfl, rfl⟩
  · intro call
    cases call <;> simp only [lockTrace, Call.isFreeze, guarded] <;>
      first
      | rfl
      | (split <;> rfl)
  · simp only [lockTrace, criticalSections]
    split <;> rfl

end ServerFog

/-! ## The machine loader -/

namespace ServerCommon

/-- An event about another module root leaves what the loader holds about a module root as
it is. -/
theorem step_other_root {M Err : Type} (l : MachineLoader M Err) (R : List Nat)
    (event : LoaderEvent M Err) (h : event.concerns R = false) :
    (l.step event).view R = l.view R := by
  cases event with
  | GetMachine caller root =>
    have hne : ¬ root = R := by simpa [LoaderEvent.concerns] using h
    have hne2 : ¬ R = root := fun e => hne e.symm
    simp only [MachineLoader.step]
    cases hc : l.cache root with
    | none =>
      simp [MachineLoader.view, MachineLoader.buildsOf, MachineLoader.returnedFor, setEntry,
        hne, hne2, List.count_append, List.count_cons]
    | some entry =>
      cases entry with
      | building joined =>
        simp [MachineLoader.view, MachineLoader.buildsOf, MachineLoader.returnedFor, setEntry,
          hne2]
      | ready machines =>
        simp [MachineLoader.view, MachineLoader.buildsOf, MachineLoader.returnedFor,
          List.filter_append, hne]
  | buildDone root outcome =>
    have hne : ¬ root = R := by simpa [LoaderEvent.concerns] using h
    have hne2 : ¬ R = root := fun e => hne e.symm
    simp only [MachineLoader.step]
    cases hc : l.cache root with
    | none => rfl
    | some entry =>
      cases entry with
      | building joined =>
        simp [MachineLoader.view, MachineLoader.buildsOf, MachineLoader.returnedFor, setEntry,
          hne2, List.filter_append, List.filter_map, hne]
      | ready machines => rfl

/-- After an event about a module root, what the loader holds about that root depends only
on what it held about it before. -/
theorem step_same_root {M Err : Type} (l1 l2 : MachineLoader M Err) (R : List Nat)
    (event : LoaderEvent M Err) (h : event.concerns R = true) (hv : l1.view R = l2.view R) :
    (l1.step event).view R = (l2.step event).view R := by
  simp only [MachineLoader.view, Prod.mk.injEq] at hv
  obtain ⟨hc, hb, hr⟩ := hv
  cases event with
  | GetMachine caller root =>
    have he : root = R := by simpa [LoaderEvent.concerns] using h
    subst he
    simp only [MachineLoader.step]
    rw [hc]
    cases hc2 : l2.cache root with
    | none =>
      simp only [MachineLoader.buildsOf] at hb
      simp [MachineLoader.view, MachineLoader.buildsOf, MachineLoader.returnedFor, setEntry,
        List.count_append, hb] at hr ⊢
      exact hr
    | some entry =>
      cases entry with
      | building joined =>
        simp [MachineLoader.view, MachineLoader.buildsOf, MachineLoader.returnedFor,
          setEntry] at hb hr ⊢
        exact ⟨hb, hr⟩
      | ready machines =>
        have hc1 := hc.trans hc2
        simp [MachineLoader.view, MachineLoader.buildsOf, MachineLoader.returnedFor,
          List.filter_append, hc1, hc2] at hb hr ⊢
        exact ⟨hb, hr⟩
  | buildDone root outcome =>
    have he : root = R := by simpa [LoaderEvent.concerns] using h
    subst he
    simp only [MachineLoader.step]
    rw [hc]
    cases hc2 : l2.cache root with
    | none =>
      simp [MachineLoader.view, hc, hc2, hb, hr]
    | some entry =>
      cases entry with
      | building joined =>
        simp [MachineLoader.view, MachineLoader.buildsOf, MachineLoader.returnedFor, setEntry,
          List.filter_append] at hb hr ⊢
        exact ⟨hb, hr⟩
      | ready machines =>
        simp [MachineLoader.view, hc, hc2, hb, hr]

/-- A series of events can be run in two parts. -/
theorem run_append {M Err : Type} (first second : List (LoaderEvent M Err)) :
    ∀ (l : MachineLoader M Err), l.run (first ++ second) = (l.run first).run second := by
  induction first with
  | nil => intro l; rfl
  | cons event rest ih =>
    intro l
    exact ih (l.step event)

/-- What a loader holds about a module root after a series of events is what it holds
after the events of the series that are about this root. -/
theorem run_view_filter {M Err : Type} (R : List Nat) (events : List (LoaderEvent M Err)) :
    ∀ (l1 l2 : MachineLoader M Err), l1.view R = l2.view R →
      (l1.run events).view R
        = (l2.run (events.filter (fun event => event.concerns R))).view R := by
  induction events with
  | nil => intro l1 l2 h; exact h
  | cons event rest ih =>
    intro l1 l2 h
    cases hc : event.concerns R with
    | true =>
      simp only [List.filter_cons, hc, if_true, MachineLoader.run]
      exact ih _ _ (step_same_root l1 l2 R event hc h)
    | false =>
      simp only [List.filter_cons, hc, MachineLoader.run]
      exact ih _ _ ((step_other_root l1 R event hc).trans h)

/-- Callers that arrive while a build is in progress join it. -/
theorem calls_join {M Err : Type} (R : List Nat) (callers : List Nat) :
    ∀ (l : MachineLoader M Err) (joined : List Nat), l.cache R = some (.building joined) →
      (l.run (callers.map (fun caller => LoaderEvent.GetMachine caller R))).view R
        = (some (.building (joined ++ callers)), l.buildsOf R, l.returnedFor R) := by
  induction callers with
  | nil =>
    intro l joined h
    simp [MachineLoader.run, MachineLoader.view, h]
  | cons caller rest ih =>
    intro l joined h
    simp only [List.map_cons, MachineLoader.run]
    have hs : (l.step (.GetMachine caller R)).cache R
        = some (.building ((joined ++ [caller]))) := by
      simp [MachineLoader.step, h, setEntry]
    have hb : (l.step (.GetMachine caller R)).buildsOf R = l.buildsOf R := by
      simp [MachineLoader.step, h, MachineLoader.buildsOf]
    have hr : (l.step (.GetMachine caller R)).returnedFor R = l.returnedFor R := by
      simp [MachineLoader.step, h, MachineLoader.returnedFor]
    rw [ih _ _ hs, hb, hr]
    simp

/-- The end of a build gives its outcome to all who joined, and stores a machine set
only. -/
theorem buildDone_view {M Err : Type} (R : List Nat) (l : MachineLoader M Err)
    (joined : List Nat) (outcome : Except Err M) (h : l.cache R = some (.building joined)) :
    (l.step (.buildDone R outcome)).view R
      = (entryAfterBuild outcome, l.buildsOf R,
         l.returnedFor R ++ joined.map (fun caller => (caller, R, outcome))) := by
  have hf : List.filter ((fun r : Nat × List Nat × Except Err M => decide (r.2.1 = R))
      ∘ fun caller => (caller, R, outcome)) joined = joined := by
    apply List.filter_eq_self.mpr
    intro caller _
    simp
  simp [MachineLoader.step, h, MachineLoader.view, MachineLoader.buildsOf,
    MachineLoader.returnedFor, setEntry, List.filter_append, List.filter_map, hf]

/-- C21, on the loader modelled from the spec: take a loader in which the module root `R`
has no entry, `N >= 2` callers, and any series of events, about any module roots, in which
the events about `R` are the `N` calls of `GetMachine(R)` followed by the end of the build
of `R` (the calls are concurrent: each is made before the build ends and any of them
returns).  Then the machine-building function is started once for `R`, each of the `N`
callers is returned the outcome of that build, the same machine set or the same error, and
nothing else is returned for `R`; a machine set is then the ready entry of `R`, and after
an error `R` has no entry. -/
theorem single_build {M Err : Type} (l : MachineLoader M Err) (R : List Nat)
    (callers : List Nat) (outcome : Except Err M) (events : List (LoaderEvent M Err))
    (habsent : l.cache R = none) (hN : 2 ≤ callers.length)
    (hevents : events.filter (fun event => event.concerns R)
      = callers.map (fun caller => LoaderEvent.GetMachine caller R)
        ++ [.buildDone R outcome]) :
    (l.run events).buildsOf R = l.buildsOf R + 1 ∧
    (l.run events).returnedFor R
      = l.returnedFor R ++ callers.map (fun caller => (caller, R, outcome)) ∧
    (l.run events).cache R = entryAfterBuild outcome := by
  have hv := run_view_filter R events l l rfl
  rw [hevents, run_append] at hv
  cases callers with
  | nil => simp at hN
  | cons caller rest =>
    simp only [List.map_cons, MachineLoader.run] at hv
    have hs : (l.step (.GetMachine caller R)).cache R = some (.building [caller]) := by
      simp [MachineLoader.step, habsent, setEntry]
    have hb : (l.step (.GetMachine caller R)).buildsOf R = l.buildsOf R + 1 := by
      simp [MachineLoader.step, habsent, MachineLoader.buildsOf, List.count_append]
    have hr : (l.step (.GetMachine caller R)).returnedFor R = l.returnedFor R := by
      simp [MachineLoader.step, habsent, MachineLoader.returnedFor]
    have hj := calls_join R rest (l.step (.GetMachine caller R)) [caller] hs
    rw [hb, hr] at hj
    simp only [MachineLoader.view, Prod.mk.injEq] at hj
    have hd := buildDone_view R
      ((l.step (.GetMachine caller R)).run
        (rest.map (fun caller => LoaderEvent.GetMachine caller R)))
      ([caller] ++ rest) outcome hj.1
    rw [hj.2.1, hj.2.2] at hd
    rw [hd] at hv
    simp only [MachineLoader.view, Prod.mk.injEq] at hv
    refine ⟨hv.2.1, ?_, hv.1⟩
    rw [hv.2.2]
    simp

/-- Witness of C21: on a new loader three callers ask for the module root `[7]` while a
fourth asks for `[9]`; one build of `[7]` is started and its machine set 42 goes to the
three. -/
theorem single_build_witness :
    ((newLoader Nat String).run
      [.GetMachine 1 [7], .GetMachine 4 [9], .GetMachine 2 [7], .GetMachine 3 [7],
       .buildDone [7] (.ok 42)]).buildsOf [7] = 1 ∧
    ((newLoader Nat String).run
      [.GetMachine 1 [7], .GetMachine 4 [9], .GetMachine 2 [7], .GetMachine 3 [7],
       .buildDone [7] (.ok 42)]).returnedFor [7]
      = [(1, [7], .ok 42), (2, [7], .ok 42), (3, [7], .ok 42)] :=
  have h := single_build (newLoader Nat String) [7] [1, 2, 3] (.ok 42)
    [.GetMachine 1 [7], .GetMachine 4 [9], .GetMachine 2 [7], .GetMachine 3 [7],
     .buildDone [7] (.ok 42)] rfl (by decide) rfl
  ⟨h.1, h.2.1⟩

end ServerCommon

/-! ## The L2 pricing model -/

namespace L2pricing

open Fogmath

/-- A `uint64` as an integer. -/
theorem uint64_cast (x : Int) : ((uint64 x : Nat) : Int) = x % 18446744073709551616 := by
  unfold uint64
  exact Int.toNat_of_nonneg (Int.emod_nonneg _ (by norm_num))

/-- A `uint64` is below `2 ^ 64`. -/
theorem uint64_lt (x : Int) : uint64 x < 18446744073709551616 := by
  have h := uint64_cast x
  have h2 : x % 18446744073709551616 < 18446744073709551616 :=
    Int.emod_lt_of_pos _ (by norm_num)
  omega

/-- A `uint64` below `2 ^ 64` is the number itself. -/
theorem uint64_small (n : Nat) (hn : n < 18446744073709551616) : uint64 n = n := by
  have h := uint64_cast n
  omega

/-- A `uint64` converted to `int64` is 0 exactly when it is 0. -/
theorem int64_uint64_eq_zero (x : Int) : int64 (uint64 x) = 0 ↔ uint64 x = 0 := by
  have h := uint64_lt x
  unfold int64
  omega

/-- Below `2 ^ 63` the conversion to `int64` changes nothing. -/
theorem int64_small (b : Nat) (hb : b < 9223372036854775808) : int64 b = b := by
  unfold int64
  omega

/-- The state `AddToGasPool` returns: only the backlog is replaced. -/
theorem AddToGasPool_eq (ps : L2PricingState) (gas : Int) :
    AddToGasPool ps gas
      = { ps with gasBacklog := SaturatingUCast (SaturatingSub (int64 ps.gasBacklog) gas) } := by
  unfold AddToGasPool
  rfl

/-- `AddToGasPool` keeps the backlog tolerance. -/
theorem AddToGasPool_backlogTolerance (ps : L2PricingState) (gas : Int) :
    (AddToGasPool ps gas).backlogTolerance = ps.backlogTolerance := by
  rw [AddToGasPool_eq]

/-- `AddToGasPool` keeps the pricing inertia. -/
theorem AddToGasPool_pricingInertia (ps : L2PricingState) (gas : Int) :
    (AddToGasPool ps gas).pricingInertia = ps.pricingInertia := by
  rw [AddToGasPool_eq]

/-- `AddToGasPool` keeps the minimum base fee. -/
theorem AddToGasPool_minBaseFeeWei (ps : L2PricingState) (gas : Int) :
    (AddToGasPool ps gas).minBaseFeeWei = ps.minBaseFeeWei := by
  rw [AddToGasPool_eq]

/-- The backlog `AddToGasPool` stores. -/
theorem AddToGasPool_gasBacklog (ps : L2PricingState) (gas : Int) :
    (AddToGasPool ps gas).gasBacklog
      = SaturatingUCast (SaturatingSub (int64 ps.gasBacklog) gas) := by
  rw [AddToGasPool_eq]

/-- The saturating subtraction of two numbers whose difference is an `int64`. -/
theorem SaturatingSub_exact (a b : Int) (hlo : -9223372036854775808 ≤ a - b)
    (hhi : a - b ≤ 9223372036854775807) : SaturatingSub a b = a - b := by
  unfold SaturatingSub MaxInt64 MinInt64
  rw [min_eq_right hhi, max_eq_right hlo]

/-- The saturating cast as an integer. -/
theorem SaturatingUCast_cast (v : Int) : ((SaturatingUCast v : Nat) : Int) = max 0 v := by
  unfold SaturatingUCast
  by_cases hneg : v < 0
  · rw [if_pos hneg, max_eq_left (by omega)]
    rfl
  · rw [if_neg hneg, max_eq_right (by omega)]
    exact Int.toNat_of_nonneg (by omega)

/-- The backlog `AddToGasPool` stores, for a backlog below `2 ^ 63` and a gas amount that
is a non-negative `int64`. -/
theorem AddToGasPool_paid (ps : L2PricingState) (gas : Int)
    (hb : ps.gasBacklog < 9223372036854775808)
    (hg : 0 ≤ gas) (hg2 : gas < 9223372036854775808) :
    ((AddToGasPool ps gas).gasBacklog : Int) = max 0 (ps.gasBacklog - gas) := by
  rw [AddToGasPool_gasBacklog, int64_small ps.gasBacklog hb,
    SaturatingSub_exact _ _ (by omega) (by omega), SaturatingUCast_cast]

/-- C27, as stated, fails: with a stored backlog of `2 ^ 63`, a `uint64`, `AddToGasPool(0)`
stores 0, not `max(0, 2 ^ 63 - 0)`, and so changes the backlog. -/
theorem AddToGasPool_large_backlog_counterexample :
    (2 : Nat) ^ 63 < 2 ^ 64 ∧
    (AddToGasPool { toyPricing with gasBacklog := 2 ^ 63 } 0).gasBacklog = 0 ∧
    max (0 : Int) (2 ^ 63 - 0) = 2 ^ 63 := by
  refine ⟨by norm_num, ?_, by norm_num⟩
  rw [AddToGasPool_gasBacklog]
  have h1 : int64 (((2 : Nat) ^ 63 : Nat) : Int) = -9223372036854775808 := by
    unfold int64
    norm_num
  have h2 : SaturatingSub (-9223372036854775808) 0 = -9223372036854775808 := by
    rw [SaturatingSub_exact _ _ (by norm_num) (by norm_num)]
    norm_num
  show SaturatingUCast (SaturatingSub (int64 (((2 : Nat) ^ 63 : Nat) : Int)) 0) = 0
  rw [h1, h2]
  unfold SaturatingUCast
  rw [if_pos (by norm_num)]

/-- C27, amended: for every stored backlog `b` below `2 ^ 63` and every gas amount `g >= 0`
(an `int64`), `AddToGasPool(g)` stores `max(0, b - g)` and changes nothing else: the backlog does not go
up, and `AddToGasPool(0)` leaves the state as it is. -/
theorem AddToGasPool_pays_backlog (ps : L2PricingState) (gas : Int)
    (hb : ps.gasBacklog < 2 ^ 63) (hg : 0 ≤ gas) (hg2 : gas < 2 ^ 63) :
    ((AddToGasPool ps gas).gasBacklog : Int) = max 0 (ps.gasBacklog - gas) ∧
    (AddToGasPool ps gas).gasBacklog ≤ ps.gasBacklog ∧
    AddToGasPool ps gas = { ps with gasBacklog := (AddToGasPool ps gas).gasBacklog } ∧
    AddToGasPool ps 0 = ps := by
  have hn63 : (2 : Nat) ^ 63 = 9223372036854775808 := by norm_num
  have hp63 : (2 : Int) ^ 63 = 9223372036854775808 := by norm_num
  rw [hn63] at hb
  rw [hp63] at hg2
  have hv := AddToGasPool_paid ps gas hb hg hg2
  have hle : (AddToGasPool ps gas).gasBacklog ≤ ps.gasBacklog := by
    have h1 : ((AddToGasPool ps gas).gasBacklog : Int) ≤ ps.gasBacklog := by
      rw [hv]
      exact max_le (by omega) (by omega)
    exact Int.ofNat_le.mp h1
  have h0 : (AddToGasPool ps 0).gasBacklog = ps.gasBacklog := by
    have h := AddToGasPool_paid ps 0 hb (le_refl 0) (by norm_num)
    rw [sub_zero, max_eq_right (by omega)] at h
    exact Int.ofNat_inj.mp h
  refine ⟨hv, hle, ?_, ?_⟩
  · rw [AddToGasPool_gasBacklog]
    exact AddToGasPool_eq ps gas
  · have h := AddToGasPool_eq ps 0
    rw [← AddToGasPool_gasBacklog, h0] at h
    exact h

/-- Witness of the amended C27: 3 million gas pay a backlog of 20 million down to 17
million, and 30 million pay it off. -/
theorem AddToGasPool_pays_backlog_witness :
    toyPricing.gasBacklog < 2 ^ 63 ∧
    ((AddToGasPool toyPricing 3000000).gasBacklog : Int) = max 0 (20000000 - 3000000) ∧
    ((AddToGasPool toyPricing 30000000).gasBacklog : Int) = max 0 (20000000 - 30000000) :=
  ⟨by decide,
   (AddToGasPool_pays_backlog toyPricing 3000000 (by decide) (by decide) (by decide)).1,
   (AddToGasPool_pays_backlog toyPricing 30000000 (by decide) (by decide) (by decide)).1⟩

/-- Replacing the base fee leaves the backlog as it is. -/
theorem withBaseFee_gasBacklog (ps : L2PricingState) (fee : Int) :
    ({ ps with baseFeeWei := fee } : L2PricingState).gasBacklog = ps.gasBacklog := rfl

/-- What `UpdatePricingModel` returns when the backlog left after the payment is at most the
tolerated one. -/
theorem UpdatePricingModel_within (ops : BipsOps) (ps : L2PricingState) (l2BaseFee : Int)
    (timePassed : Nat) (debug : Bool)
    (h : (AddToGasPool ps (int64 (uint64 (timePassed * ps.speedLimitPerSecond)))).gasBacklog
        ≤ uint64 (ps.backlogTolerance * ps.speedLimitPerSecond)) :
    UpdatePricingModel ops ps l2BaseFee timePassed debug
      = .ok { AddToGasPool ps (int64 (uint64 (timePassed * ps.speedLimitPerSecond))) with
          baseFeeWei := ps.minBaseFeeWei } := by
  have hn : ¬ ((AddToGasPool ps
      (int64 (uint64 (timePassed * ps.speedLimitPerSecond)))).gasBacklog
        > uint64 (ps.backlogTolerance * ps.speedLimitPerSecond)) := by omega
  unfold UpdatePricingModel
  simp only []
  rw [AddToGasPool_backlogTolerance, if_neg hn, AddToGasPool_minBaseFeeWei]

/-- What `UpdatePricingModel` returns when the backlog left after the payment exceeds the
tolerated one and the divisor is not 0. -/
theorem UpdatePricingModel_beyond (ops : BipsOps) (ps : L2PricingState) (l2BaseFee : Int)
    (timePassed : Nat) (debug : Bool)
    (h : (AddToGasPool ps (int64 (uint64 (timePassed * ps.speedLimitPerSecond)))).gasBacklog
        > uint64 (ps.backlogTolerance * ps.speedLimitPerSecond))
    (hd : ¬ int64 (uint64 (ps.pricingInertia * ps.speedLimitPerSecond)) = 0) :
    ∃ ps2, UpdatePricingModel ops ps l2BaseFee timePassed debug = .ok ps2 := by
  unfold UpdatePricingModel
  simp only []
  rw [AddToGasPool_backlogTolerance, AddToGasPool_pricingInertia, if_pos h, if_neg hd]
  exact ⟨_, rfl⟩

/-- The panic of `UpdatePricingModel`: the backlog left after the payment exceeds the
tolerated one and the divisor is 0. -/
theorem UpdatePricingModel_panics (ops : BipsOps) (ps : L2PricingState) (l2BaseFee : Int)
    (timePassed : Nat) (debug : Bool)
    (h : (AddToGasPool ps (int64 (uint64 (timePassed * ps.speedLimitPerSecond)))).gasBacklog
        > uint64 (ps.backlogTolerance * ps.speedLimitPerSecond))
    (hd : int64 (uint64 (ps.pricingInertia * ps.speedLimitPerSecond)) = 0) :
    UpdatePricingModel ops ps l2BaseFee timePassed debug = .error .integerDivideByZero := by
  unfold UpdatePricingModel
  simp only []
  rw [AddToGasPool_backlogTolerance, AddToGasPool_pricingInertia, if_pos h, if_pos hd]

/-- A saturating subtraction with a negative difference is negative. -/
theorem SaturatingSub_neg (a b : Int) (h : a - b < 0) : SaturatingSub a b < 0 := by
  unfold SaturatingSub MaxInt64 MinInt64
  exact max_lt (by norm_num) (lt_of_le_of_lt (min_le_right _ _) h)

/-- The saturating cast of a negative number is 0. -/
theorem SaturatingUCast_neg (v : Int) (h : v < 0) : SaturatingUCast v = 0 := by
  unfold SaturatingUCast
  rw [if_pos h]

/-- A stored backlog from `2 ^ 63` on, a `uint64`, is read as a negative `int64`, and
`AddToGasPool` with a non-negative gas amount stores 0. -/
theorem AddToGasPool_cleared (ps : L2PricingState) (gas : Int)
    (hlo : 9223372036854775808 ≤ ps.gasBacklog) (hhi : ps.gasBacklog < 18446744073709551616)
    (hg : 0 ≤ gas) : (AddToGasPool ps gas).gasBacklog = 0 := by
  have hi : int64 ps.gasBacklog = ps.gasBacklog - 18446744073709551616 := by
    unfold int64
    omega
  rw [AddToGasPool_gasBacklog, hi]
  exact SaturatingUCast_neg _ (SaturatingSub_neg _ _ (by omega))

/-- C24, as stated, fails when one of the two products wraps around.  With a tolerance and
a speed limit of `2 ^ 32` each and a backlog of `2 ^ 40`, the backlog is far below
`backlogTolerance * speedLimit = 2 ^ 64`, but the code computes the product as 0 in `uint64`
and, whatever the basis-point helpers are, stores the minimum base fee times the
exponential of 256: 25700000000 with the helpers of the concrete runs, not the minimum of
100000000.  With a speed limit of `2 ^ 62 + 1` and two seconds passed, no backlog is left,
but the code converts `timePassed * speedLimit = 2 ^ 63 + 2` to a negative `int64`, stores
a backlog of `2 ^ 63 - 2` and raises the base fee to 199990000. -/
theorem UpdatePricingModel_wrapped_products_counterexample :
    (wrapTolerance.speedLimitPerSecond < 2 ^ 64 ∧ wrapTolerance.backlogTolerance < 2 ^ 64 ∧
      wrapTolerance.gasBacklog < 2 ^ 63 ∧
      max (0 : Int) (wrapTolerance.gasBacklog - (0 : Nat) * wrapTolerance.speedLimitPerSecond)
        ≤ wrapTolerance.backlogTolerance * wrapTolerance.speedLimitPerSecond ∧
      (∀ ops : BipsOps, UpdatePricingModel ops wrapTolerance 0 0 false
        = .ok { wrapTolerance with
            baseFeeWei := ops.BigMulByBips 100000000
              (ops.ApproxExpBasisPoints
                (int64 (Int.tdiv (ops.NaturalToBips 1099511627776) 4294967296))) }) ∧
      UpdatePricingModel toyBips wrapTolerance 0 0 false
        = .ok { wrapTolerance with baseFeeWei := 25700000000 } ∧
      wrapTolerance.minBaseFeeWei = 100000000) ∧
    (wrapElapsed.speedLimitPerSecond < 2 ^ 64 ∧
      max (0 : Int) (wrapElapsed.gasBacklog - (2 : Nat) * wrapElapsed.speedLimitPerSecond) = 0 ∧
      (0 : Int) ≤ wrapElapsed.backlogTolerance * wrapElapsed.speedLimitPerSecond ∧
      UpdatePricingModel toyBips wrapElapsed 0 2 false
        = .ok { wrapElapsed with
            gasBacklog := 9223372036854775806, baseFeeWei := 199990000 } ∧
      wrapElapsed.minBaseFeeWei = 100000000) := by
  refine ⟨⟨by decide, by decide, by decide, by decide, fun ops => rfl, rfl, rfl⟩,
    by decide, by decide, by decide, rfl, rfl⟩

/-- C24, amended: for every L2 pricing state whose backlog is a `uint64` and every elapsed
time for which `timePassed * speedLimit` is below `2 ^ 63` and `backlogTolerance * speedLimit`
below `2 ^ 64`, so that neither product wraps around, `UpdatePricingModel` returns and the
stored base fee is exactly the minimum base fee whenever
`max(0, b - timePassed * speedLimit) <= backlogTolerance * speedLimit`; the stored backlog is
then `max(0, b - timePassed * speedLimit)` for a backlog `b` below `2 ^ 63`.  Without these
bounds: the stored base fee is the minimum base fee whenever the backlog left by
`AddToGasPool(int64(timePassed * speedLimit))` is at most `backlogTolerance * speedLimit`,
the product as the code computes it in `uint64`. -/
theorem UpdatePricingModel_settles (ops : BipsOps) (ps : L2PricingState) (l2BaseFee : Int)
    (timePassed : Nat) (debug : Bool) :
    ((AddToGasPool ps (int64 (uint64 (timePassed * ps.speedLimitPerSecond)))).gasBacklog
        ≤ uint64 (ps.backlogTolerance * ps.speedLimitPerSecond) →
      UpdatePricingModel ops ps l2BaseFee timePassed debug
        = .ok { AddToGasPool ps (int64 (uint64 (timePassed * ps.speedLimitPerSecond))) with
            baseFeeWei := ps.minBaseFeeWei }) ∧
    (ps.gasBacklog < 2 ^ 64 → timePassed * ps.speedLimitPerSecond < 2 ^ 63 →
      ps.backlogTolerance * ps.speedLimitPerSecond < 2 ^ 64 →
      max (0 : Int) (ps.gasBacklog - timePassed * ps.speedLimitPerSecond)
        ≤ ps.backlogTolerance * ps.speedLimitPerSecond →
      ∃ ps2, UpdatePricingModel ops ps l2BaseFee timePassed debug = .ok ps2 ∧
        ps2.baseFeeWei = ps.minBaseFeeWei ∧
        (ps.gasBacklog < 2 ^ 63 →
          (ps2.gasBacklog : Int)
            = max (0 : Int) (ps.gasBacklog - timePassed * ps.speedLimitPerSecond))) := by
  refine ⟨UpdatePricingModel_within ops ps l2BaseFee timePassed debug, ?_⟩
  intro hb64 ht htol hle
  have hn63 : (2 : Nat) ^ 63 = 9223372036854775808 := by norm_num
  have hn64 : (2 : Nat) ^ 64 = 18446744073709551616 := by norm_num
  rw [hn63] at ht
  rw [hn64] at htol hb64
  rw [hn63]
  have hgas : int64 (uint64 (((timePassed * ps.speedLimitPerSecond : Nat) : Int)))
      = ((timePassed * ps.speedLimitPerSecond : Nat) : Int) := by
    rw [uint64_small _ (by omega), int64_small _ ht]
  have htolc : uint64 (((ps.backlogTolerance * ps.speedLimitPerSecond : Nat) : Int))
      = ps.backlogTolerance * ps.speedLimitPerSecond := uint64_small _ htol
  have hmain := UpdatePricingModel_within ops ps l2BaseFee timePassed debug
  push_cast at hgas htolc hmain
  rw [hgas, htolc] at hmain
  by_cases hb : ps.gasBacklog < 9223372036854775808
  · have hpay := AddToGasPool_paid ps ((timePassed * ps.speedLimitPerSecond : Nat) : Int) hb
      (by omega) (by omega)
    push_cast at hpay
    have hcond : (AddToGasPool ps ((timePassed : Int) * ps.speedLimitPerSecond)).gasBacklog
        ≤ ps.backlogTolerance * ps.speedLimitPerSecond := by
      have h1 : ((AddToGasPool ps ((timePassed : Int) * ps.speedLimitPerSecond)).gasBacklog : Int)
          ≤ ((ps.backlogTolerance * ps.speedLimitPerSecond : Nat) : Int) := by
        rw [hpay]
        push_cast
        exact hle
      exact Int.ofNat_le.mp h1
    refine ⟨_, hmain hcond, rfl, ?_⟩
    intro _
    rw [withBaseFee_gasBacklog]
    exact hpay
  · have hzero := AddToGasPool_cleared ps ((timePassed * ps.speedLimitPerSecond : Nat) : Int)
      (by omega) hb64 (by omega)
    push_cast at hzero
    have hcond : (AddToGasPool ps ((timePassed : Int) * ps.speedLimitPerSecond)).gasBacklog
        ≤ ps.backlogTolerance * ps.speedLimitPerSecond := by
      rw [hzero]
      exact Nat.zero_le _
    exact ⟨_, hmain hcond, rfl, fun h => absurd h hb⟩

/-- Witness of the amended C24: with a backlog of 20 million gas, a speed limit of one
million gas per second and a tolerance of 10 seconds, 11 seconds leave a backlog of 9
million and the base fee is the minimum base fee. -/
theorem UpdatePricingModel_settles_witness :
    max (0 : Int) ((toyPricing.gasBacklog : Int) - (11 : Nat) * toyPricing.speedLimitPerSecond)
      ≤ toyPricing.backlogTolerance * toyPricing.speedLimitPerSecond ∧
    UpdatePricingModel toyBips toyPricing 0 11 false
      = .ok { toyPricing with gasBacklog := 9000000 } ∧
    ∃ ps2, UpdatePricingModel toyBips toyPricing 0 11 false = .ok ps2 ∧
      ps2.baseFeeWei = toyPricing.minBaseFeeWei ∧
      (toyPricing.gasBacklog < 2 ^ 63 →
        (ps2.gasBacklog : Int)
          = max 0 ((toyPricing.gasBacklog : Int)
              - (11 : Nat) * toyPricing.speedLimitPerSecond)) :=
  ⟨by decide, rfl,
   (UpdatePricingModel_settles toyBips toyPricing 0 11 false).2 (by decide) (by decide)
     (by decide) (by decide)⟩

/-- C28, as stated, fails: with a speed limit of `2 ^ 32` and a pricing inertia of `2 ^ 32`,
both non-zero, their product wraps around to 0 in `uint64`; with a backlog of 1 above a
tolerance of 0 the division is reached and panics. -/
theorem UpdatePricingModel_divides_by_zero_counterexample :
    wrapPricing.speedLimitPerSecond = 2 ^ 32 ∧ wrapPricing.pricingInertia = 2 ^ 32 ∧
    wrapPricing.speedLimitPerSecond ≠ 0 ∧ wrapPricing.pricingInertia ≠ 0 ∧
    UpdatePricingModel toyBips wrapPricing 0 0 false = .error .integerDivideByZero := by
  refine ⟨by decide, by decide, by decide, by decide, ?_⟩
  rfl

/-- C28, amended: for every stored pricing state in which `inertia * speedLimit`, computed
in `uint64`, is not 0, and every `timePassed`, `UpdatePricingModel` returns without a
division by zero; this is so whenever the speed limit and the pricing inertia are non-zero
and their product is below `2 ^ 64`.  When the product is 0 in `uint64` and the backlog
exceeds `tolerance * speedLimit`, the division panics. -/
theorem UpdatePricingModel_total (ops : BipsOps) (ps : L2PricingState) (l2BaseFee : Int)
    (timePassed : Nat) (debug : Bool) :
    (uint64 (ps.pricingInertia * ps.speedLimitPerSecond) ≠ 0 →
      ∃ ps2, UpdatePricingModel ops ps l2BaseFee timePassed debug = .ok ps2) ∧
    (ps.speedLimitPerSecond ≠ 0 → ps.pricingInertia ≠ 0 →
      ps.pricingInertia * ps.speedLimitPerSecond < 2 ^ 64 →
      ∃ ps2, UpdatePricingModel ops ps l2BaseFee timePassed debug = .ok ps2) ∧
    (uint64 (ps.pricingInertia * ps.speedLimitPerSecond) = 0 →
      (AddToGasPool ps (int64 (uint64 (timePassed * ps.speedLimitPerSecond)))).gasBacklog
        > uint64 (ps.backlogTolerance * ps.speedLimitPerSecond) →
      UpdatePricingModel ops ps l2BaseFee timePassed debug = .error .integerDivideByZero) := by
  have hfirst : uint64 (ps.pricingInertia * ps.speedLimitPerSecond) ≠ 0 →
      ∃ ps2, UpdatePricingModel ops ps l2BaseFee timePassed debug = .ok ps2 := by
    intro hne
    have hd : ¬ int64 (uint64 (ps.pricingInertia * ps.speedLimitPerSecond)) = 0 :=
      fun h => hne ((int64_uint64_eq_zero _).mp h)
    by_cases hb : (AddToGasPool ps
        (int64 (uint64 (timePassed * ps.speedLimitPerSecond)))).gasBacklog
          > uint64 (ps.backlogTolerance * ps.speedLimitPerSecond)
    · exact UpdatePricingModel_beyond ops ps l2BaseFee timePassed debug hb hd
    · exact ⟨_, UpdatePricingModel_within ops ps l2BaseFee timePassed debug (by omega)⟩
  refine ⟨hfirst, ?_, ?_⟩
  · intro hs hi hlt
    apply hfirst
    intro hz
    have hn64 : (2 : Nat) ^ 64 = 18446744073709551616 := by norm_num
    rw [hn64] at hlt
    have hsm := uint64_small _ hlt
    push_cast at hsm
    rw [hsm] at hz
    have hpos : 0 < ps.pricingInertia * ps.speedLimitPerSecond :=
      Nat.mul_pos (Nat.pos_of_ne_zero hi) (Nat.pos_of_ne_zero hs)
    omega
  · intro hz hb
    exact UpdatePricingModel_panics ops ps l2BaseFee timePassed debug hb
      ((int64_uint64_eq_zero _).mpr hz)

/-- Witness of the amended C28: with the initial parameters of `model.go` the product of
inertia and speed limit is 102 million, and one second after a backlog of 20 million the
model returns. -/
theorem UpdatePricingModel_total_witness :
    uint64 (toyPricing.pricingInertia * toyPricing.speedLimitPerSecond) ≠ 0 ∧
    ∃ ps2, UpdatePricingModel toyBips toyPricing 0 1 false = .ok ps2 :=
  ⟨by decide, (UpdatePricingModel_total toyBips toyPricing 0 1 false).1 (by decide)⟩

end L2pricing

/-! ## Precompiles -/

namespace Precompiles

open Fogmath

/-- C25: from fogOS version 4 on, when the L1 price and the minimum base fee are read
without error, `GetPricesInWeiWithAggregator` returns six values of which the sixth is the
block base fee, the fourth the smaller of the block base fee and the minimum base fee, the
fifth is not negative, the fourth and the fifth add up to the sixth, and the first is 140
times the second.  This holds for every block base fee, the non-negative ones included. -/
theorem GetPricesInWei_split {Err : Type} (c : GasInfoInput Err) (l1GasPrice minBaseFee : Int)
    (hversion : 4 ≤ c.fogOSVersion) (hl1 : c.PricePerUnit = .ok l1GasPrice)
    (hmin : c.MinBaseFeeWei = .ok minBaseFee) :
    ∃ prices, GetPricesInWeiWithAggregator c = .ok prices ∧
      prices.2.2.2.2.2 = c.BaseFee ∧
      prices.2.2.2.1 = min c.BaseFee minBaseFee ∧
      0 ≤ prices.2.2.2.2.1 ∧
      prices.2.2.2.1 + prices.2.2.2.2.1 = prices.2.2.2.2.2 ∧
      prices.1 = 140 * prices.2.1 := by
  have hv : ¬ c.fogOSVersion < 4 := by omega
  simp only [GetPricesInWeiWithAggregator, if_neg hv, hl1, hmin]
  refine ⟨_, rfl, rfl, ?_, ?_, ?_, ?_⟩
  · simp only [BigLessThan]
    by_cases h : c.BaseFee < minBaseFee
    · simp [h, min_eq_left (le_of_lt h)]
    · simp [h, min_eq_right (not_lt.mp h)]
  · simp only [BigLessThan, BigSub]
    by_cases h : c.BaseFee < minBaseFee
    · simp [h]
    · simp only [h, decide_False, Bool.false_eq_true, if_false]
      omega
  · simp only [BigSub]
    omega
  · simp only [BigMulByUint, AssumedSimpleTxSize]
    push_cast
    ring

/-- Witness of C25: with an L1 price of 5, a minimum base fee of 100 and a block base fee
of 250, the six values are 11200, 80, 5000000, 100, 150 and 250. -/
theorem GetPricesInWei_split_witness :
    4 ≤ (toyGasInfo 250).fogOSVersion ∧
    GetPricesInWeiWithAggregator (toyGasInfo 250)
      = .ok (11200, 80, 5000000, 100, 150, 250) ∧
    ∃ prices, GetPricesInWeiWithAggregator (toyGasInfo 250) = .ok prices ∧
      prices.2.2.2.2.2 = 250 ∧ prices.2.2.2.1 = min 250 100 :=
  ⟨by decide, rfl,
   (GetPricesInWei_split (toyGasInfo 250) 5 100 (by decide) rfl rfl).imp
     (fun _ h => ⟨h.1, h.2.1, h.2.2.1⟩)⟩

/-- C29: with a cap `M >= 0`, a pool balance `B` and a recognized amount `R`:
`ReleaseL1PricerSurplusFunds` returns 0 and leaves the pricing state as it is when `B < R`;
otherwise it returns `min(B - R, M)` and `L1FeesAvailable` goes up by that amount, after
which `L1FeesAvailable` is at most `B`; the returned amount is at most `M` and not
negative. -/
theorem ReleaseL1PricerSurplusFunds_amount {Err : Type} (balance : Int) (l1p : L1PricingState)
    (maxWeiToRelease : Int) (hmax : 0 ≤ maxWeiToRelease) :
    (balance < l1p.l1FeesAvailable →
      (ReleaseL1PricerSurplusFunds balance l1p maxWeiToRelease
        : Except Err (L1PricingState × Int)) = .ok (l1p, 0)) ∧
    (l1p.l1FeesAvailable ≤ balance →
      (ReleaseL1PricerSurplusFunds balance l1p maxWeiToRelease
        : Except Err (L1PricingState × Int))
        = .ok ({ l1FeesAvailable := l1p.l1FeesAvailable
                  + min (balance - l1p.l1FeesAvailable) maxWeiToRelease },
               min (balance - l1p.l1FeesAvailable) maxWeiToRelease) ∧
      l1p.l1FeesAvailable + min (balance - l1p.l1FeesAvailable) maxWeiToRelease ≤ balance ∧
      min (balance - l1p.l1FeesAvailable) maxWeiToRelease ≤ maxWeiToRelease ∧
      0 ≤ min (balance - l1p.l1FeesAvailable) maxWeiToRelease) := by
  constructor
  · intro h
    have hneg : balance - l1p.l1FeesAvailable < 0 := by omega
    simp [ReleaseL1PricerSurplusFunds, L1PricingState.L1FeesAvailable, hneg]
  · intro h
    have hnn : ¬ balance - l1p.l1FeesAvailable < 0 := by omega
    refine ⟨?_, ?_, min_le_right _ _, le_min (by omega) hmax⟩
    · by_cases hc : balance - l1p.l1FeesAvailable > maxWeiToRelease
      · simp [ReleaseL1PricerSurplusFunds, L1PricingState.L1FeesAvailable,
          L1PricingState.AddToL1FeesAvailable, hnn, hc, min_eq_right (le_of_lt hc)]
      · simp [ReleaseL1PricerSurplusFunds, L1PricingState.L1FeesAvailable,
          L1PricingState.AddToL1FeesAvailable, hnn, hc, min_eq_left (not_lt.mp hc)]
    · have := min_le_left (balance - l1p.l1FeesAvailable) maxWeiToRelease
      omega

/-- Witness of C29: with a balance of 100, 30 recognized and a cap of 50, 50 are released
and 80 are recognized afterwards; with a balance of 20 nothing is released. -/
theorem ReleaseL1PricerSurplusFunds_amount_witness :
    (ReleaseL1PricerSurplusFunds 100 { l1FeesAvailable := 30 } 50
      : Except String (L1PricingState × Int))
      = .ok ({ l1FeesAvailable := 30 + min (100 - 30) 50 }, min (100 - 30) 50) ∧
    (ReleaseL1PricerSurplusFunds 20 { l1FeesAvailable := 30 } 50
      : Except String (L1PricingState × Int)) = .ok ({ l1FeesAvailable := 30 }, 0) :=
  ⟨((ReleaseL1PricerSurplusFunds_amount 100 { l1FeesAvailable := 30 } 50
      (by decide)).2 (by decide)).1,
   (ReleaseL1PricerSurplusFunds_amount 20 { l1FeesAvailable := 30 } 50 (by decide)).1
     (by decide)⟩

end Precompiles

/-! ## Validation nodes -/

namespace Valnode

/-- C26: when the machine locator and the interpreter spawner are created without error:
with `UseJit` set and a JIT spawner created without error, the execution API gets the JIT
spawner as first and the interpreter spawner as second argument, and the node keeps both;
with `UseJit` unset, the execution API gets the interpreter spawner as both arguments, no
JIT spawner is created, the node keeps none, and `Start` starts the interpreter spawner
only.  In both cases `GetExec` returns the interpreter spawner. -/
theorem CreateValidationNode_spawners {Loc A J Err : Type} (deps : Deps Loc A J Err)
    (config : Config) (locator : Loc) (fogSpawner : A)
    (hlocator : deps.NewMachineLocator config.RootPath = .ok locator)
    (hfog : deps.NewfogitratorSpawner locator = .ok fogSpawner) :
    (config.UseJit = true → ∀ jitSpawner, deps.NewJitSpawner locator = .ok jitSpawner →
      CreateValidationNode deps config
        = (.ok ({ fogSpawner := fogSpawner, jitSpawner := some jitSpawner },
            [{ Service := { first := .jit jitSpawner, second := .fog fogSpawner },
               Public := config.ApiPublic, Authenticated := config.ApiAuth }]),
           [.MachineLocator, .fogitratorSpawner, .JitSpawner, .ExecutionServerAPI]) ∧
      (deps.fogStart fogSpawner = none →
        (ValidationNode.Start deps
          { fogSpawner := fogSpawner, jitSpawner := some jitSpawner }).2
          = [.fog fogSpawner, .jit jitSpawner])) ∧
    (config.UseJit = false →
      CreateValidationNode deps config
        = (.ok ({ fogSpawner := fogSpawner, jitSpawner := none },
            [{ Service := { first := .fog fogSpawner, second := .fog fogSpawner },
               Public := config.ApiPublic, Authenticated := config.ApiAuth }]),
           [.MachineLocator, .fogitratorSpawner, .ExecutionServerAPI]) ∧
      (ValidationNode.Start deps { fogSpawner := fogSpawner, jitSpawner := none }).2
        = [.fog fogSpawner] ∧
      (ValidationNode.Start deps { fogSpawner := fogSpawner, jitSpawner := none }).1
        = deps.fogStart fogSpawner) ∧
    (∀ node apis, (CreateValidationNode deps config).1 = .ok (node, apis) →
      node.GetExec = .fog fogSpawner) := by
  refine ⟨?_, ?_, ?_⟩
  · intro hjit jitSpawner hj
    refine ⟨by simp [CreateValidationNode, hlocator, hfog, hjit, hj], ?_⟩
    intro hstart
    simp only [ValidationNode.Start, hstart]
    cases deps.jitStart jitSpawner <;> rfl
  · intro hjit
    refine ⟨by simp [CreateValidationNode, hlocator, hfog, hjit], ?_, ?_⟩
    · simp only [ValidationNode.Start]
      cases deps.fogStart fogSpawner <;> rfl
    · simp only [ValidationNode.Start]
      cases deps.fogStart fogSpawner <;> rfl
  · intro node apis h
    cases hjit : config.UseJit with
    | false =>
      simp [CreateValidationNode, hlocator, hfog, hjit] at h
      rw [← h.1]
      rfl
    | true =>
      cases hj : deps.NewJitSpawner locator with
      | error err => simp [CreateValidationNode, hlocator, hfog, hjit, hj] at h
      | ok jitSpawner =>
        simp [CreateValidationNode, hlocator, hfog, hjit, hj] at h
        rw [← h.1]
        rfl

/-- Witness of C26 with constructors that always succeed: without `UseJit` the API holds
the interpreter spawner 1 twice and only it is started; with `UseJit` the API holds the JIT
spawner 2 first. -/
theorem CreateValidationNode_spawners_witness :
    (CreateValidationNode toyDeps
      { UseJit := false, ApiAuth := true, ApiPublic := false, RootPath := "machines" }).1
      = .ok ({ fogSpawner := 1, jitSpawner := none },
          [{ Service := { first := .fog 1, second := .fog 1 }, Public := false,
             Authenticated := true }]) ∧
    (CreateValidationNode toyDeps
      { UseJit := true, ApiAuth := true, ApiPublic := false, RootPath := "machines" }).1
      = .ok ({ fogSpawner := 1, jitSpawner := some 2 },
          [{ Service := { first := .jit 2, second := .fog 1 }, Public := false,
             Authenticated := true }]) :=
  ⟨congrArg Prod.fst
    ((CreateValidationNode_spawners toyDeps
      { UseJit := false, ApiAuth := true, ApiPublic := false, RootPath := "machines" }
      "machines" 1 rfl rfl).2.1 rfl).1,
   congrArg Prod.fst
    (((CreateValidationNode_spawners toyDeps
      { UseJit := true, ApiAuth := true, ApiPublic := false, RootPath := "machines" }
      "machines" 1 rfl rfl).1 rfl) 2 rfl).1⟩

end Valnode

/-! ## The fogOS state -/

namespace FogosState

/-- The upgrade from a version between 1 and 9, and from 10 in debug mode, succeeds and
touches neither the version in memory nor the stored one. -/
theorem upgradeStep_supported (input : UpgradeInput) (state : fogosState)
    (hlo : 1 ≤ state.fogosVersion)
    (hhi : state.fogosVersion ≤ 9 ∨ (state.fogosVersion = 10 ∧ input.DebugMode = true)) :
    ∃ next, upgradeStep input state = .ok next ∧ next.fogosVersion = state.fogosVersion ∧
      next.storedVersion = state.storedVersion := by
  obtain ⟨v, sv, uv, ut, l1, l2⟩ := state
  simp only at hlo hhi
  rcases hhi with h | ⟨h, hd⟩
  · interval_cases v <;> exact ⟨_, rfl, rfl, rfl⟩
  · subst h
    refine ⟨_, ?_, rfl, rfl⟩
    simp only [upgradeStep, hd]
    rfl

/-- The upgrade from version 0, from a version above 10, and from 10 outside debug mode
fails with the error that names the next version. -/
theorem upgradeStep_unsupported (input : UpgradeInput) (state : fogosState)
    (h : state.fogosVersion = 0 ∨ 11 ≤ state.fogosVersion ∨
      (state.fogosVersion = 10 ∧ input.DebugMode = false)) :
    upgradeStep input state = .error (.unsupported (state.fogosVersion + 1)) := by
  obtain ⟨v, sv, uv, ut, l1, l2⟩ := state
  simp only at h
  rcases h with h | h | ⟨h, hd⟩
  · subst h
    rfl
  · obtain ⟨k, rfl⟩ : ∃ k, v = k + 11 := ⟨v - 11, by omega⟩
    rfl
  · subst h
    simp only [upgradeStep, hd]
    rfl

/-- The loop of `UpgradefogosVersion` ends within `upgradeTo - fogosVersion` rounds.  It
leaves the stored version alone and does not lower the version in memory; without error it
ends at the larger of the version and `upgradeTo`; an error names the version after the one
it stopped at, which is below `upgradeTo`; up to the highest supported version there is no
error, and beyond it there is one. -/
theorem upgradeLoop_result (input : UpgradeInput) (upgradeTo : Nat) (fuel : Nat) :
    ∀ (state : fogosState), upgradeTo - state.fogosVersion ≤ fuel → 1 ≤ state.fogosVersion →
      ∃ final err, upgradeLoop input upgradeTo fuel state = some (final, err) ∧
        final.storedVersion = state.storedVersion ∧
        state.fogosVersion ≤ final.fogosVersion ∧
        (err = none → final.fogosVersion = max state.fogosVersion upgradeTo) ∧
        (∀ e, err = some e →
          e = .unsupported (final.fogosVersion + 1) ∧ final.fogosVersion < upgradeTo) ∧
        (upgradeTo ≤ (if input.DebugMode then 11 else 10) → err = none) ∧
        (state.fogosVersion < upgradeTo → (if input.DebugMode then 11 else 10) < upgradeTo →
          err ≠ none) := by
  induction fuel with
  | zero =>
    intro state hfuel hlo
    have hge : ¬ state.fogosVersion < upgradeTo := by omega
    refine ⟨state, none, ?_, rfl, le_refl _, ?_, ?_, ?_, ?_⟩
    · unfold upgradeLoop
      rw [if_neg hge]
    · intro _
      rw [max_eq_left (by omega)]
    · intro e he
      cases he
    · intro _
      rfl
    · intro h
      omega
  | succ fuel ih =>
    intro state hfuel hlo
    by_cases hlt : state.fogosVersion < upgradeTo
    · by_cases hsup : state.fogosVersion ≤ 9 ∨
          (state.fogosVersion = 10 ∧ input.DebugMode = true)
      · obtain ⟨next, hnext, hnv, hns⟩ := upgradeStep_supported input state hlo hsup
        have hrec := ih { next with fogosVersion := next.fogosVersion + 1 }
          (by simp only [hnv]; omega) (by simp only [hnv]; omega)
        obtain ⟨final, err, hrun, hstored, hmono, hok, herr, hsupp, hbeyond⟩ := hrec
        simp only [hnv, hns] at hstored hmono hok hbeyond
        refine ⟨final, err, ?_, hstored, by omega, ?_, herr, hsupp, ?_⟩
        · unfold upgradeLoop
          rw [if_pos hlt]
          simp only [hnext]
          exact hrun
        · intro he
          rw [hok he, max_eq_right (by omega), max_eq_right (by omega)]
        · intro _ hb
          by_cases hnext2 : state.fogosVersion + 1 < upgradeTo
          · exact hbeyond hnext2 hb
          · exfalso
            have hu : upgradeTo = state.fogosVersion + 1 := by omega
            rcases hsup with h9 | ⟨h10, hd⟩
            · split at hb <;> omega
            · rw [hd] at hb
              simp only [if_true] at hb
              omega
      · have hun : state.fogosVersion = 0 ∨ 11 ≤ state.fogosVersion ∨
            (state.fogosVersion = 10 ∧ input.DebugMode = false) := by
          by_cases h10 : state.fogosVersion = 10
          · right
            right
            refine ⟨h10, ?_⟩
            cases hd : input.DebugMode with
            | false => rfl
            | true => exact absurd (Or.inr ⟨h10, hd⟩) hsup
          · right
            left
            have : ¬ state.fogosVersion ≤ 9 := fun h => hsup (Or.inl h)
            omega
        have hstep := upgradeStep_unsupported input state hun
        refine ⟨state, some (.unsupported (state.fogosVersion + 1)), ?_, rfl, le_refl _, ?_,
          ?_, ?_, ?_⟩
        · unfold upgradeLoop
          rw [if_pos hlt]
          simp only [hstep]
        · intro he
          cases he
        · intro e he
          cases he
          exact ⟨rfl, hlt⟩
        · intro hmax
          exfalso
          rcases hun with h0 | h11 | ⟨h10, hd⟩
          · omega
          · split at hmax <;> omega
          · rw [hd] at hmax
            simp only [Bool.false_eq_true, if_false] at hmax
            omega
        · intro _ _ he
          cases he
    · refine ⟨state, none, ?_, rfl, le_refl _, ?_, ?_, ?_, ?_⟩
      · unfold upgradeLoop
        rw [if_neg hlt]
      · intro _
        rw [max_eq_left (by omega)]
      · intro e he
        cases he
      · intro _
        rfl
      · intro h
        omega

/-- What `UpgradefogosVersion` returns, from what its loop returns. -/
theorem UpgradefogosVersion_of_loop (input : UpgradeInput) (state : fogosState)
    (upgradeTo : Nat) (firstTime : Bool) (final : fogosState) (err : Option UpgradeError)
    (hrun : upgradeLoop input upgradeTo (upgradeTo - state.fogosVersion) state
      = some (final, err)) :
    (∀ e, err = some e →
      UpgradefogosVersion input state upgradeTo firstTime = some (final, some e)) ∧
    (err = none →
      ∃ result, UpgradefogosVersion input state upgradeTo firstTime = some (result, none) ∧
        result.fogosVersion = final.fogosVersion ∧
        result.storedVersion = final.fogosVersion) := by
  constructor
  · intro e he
    subst he
    unfold UpgradefogosVersion
    rw [hrun]
  · intro he
    subst he
    unfold UpgradefogosVersion
    rw [hrun]
    refine ⟨_, rfl, ?_, ?_⟩
    · by_cases hc : (firstTime && decide (upgradeTo ≥ 6)) = true
      · rw [if_pos hc]
      · rw [if_neg hc]
    · by_cases hc : (firstTime && decide (upgradeTo ≥ 6)) = true
      · rw [if_pos hc]
      · rw [if_neg hc]

/-- C30: for a fogOS state whose version `v`, in memory and stored, is at least 1, and every
target `u`, `UpgradefogosVersion` returns, and neither version is lower afterwards.  If
`u <= v` it succeeds and both versions are still `v`.  If `v < u` and `u` is at most 10, or
at most 11 in debug mode, it succeeds and both versions are `u`.  If `v < u` and `u` is
above that highest supported version, it fails with an error that wraps
`ErrFatalNodeOutOfDate`, and the stored version is still `v`. -/
theorem UpgradefogosVersion_versions (input : UpgradeInput) (state : fogosState)
    (upgradeTo : Nat) (firstTime : Bool) (hversion : 1 ≤ state.fogosVersion)
    (hstored : state.storedVersion = state.fogosVersion) :
    (∃ final err, UpgradefogosVersion input state upgradeTo firstTime = some (final, err) ∧
      state.fogosVersion ≤ final.fogosVersion ∧ state.storedVersion ≤ final.storedVersion) ∧
    (upgradeTo ≤ state.fogosVersion →
      ∃ final, UpgradefogosVersion input state upgradeTo firstTime = some (final, none) ∧
        final.fogosVersion = state.fogosVersion ∧
        final.storedVersion = state.storedVersion) ∧
    (state.fogosVersion < upgradeTo → upgradeTo ≤ (if input.DebugMode then 11 else 10) →
      ∃ final, UpgradefogosVersion input state upgradeTo firstTime = some (final, none) ∧
        final.fogosVersion = upgradeTo ∧ final.storedVersion = upgradeTo) ∧
    (state.fogosVersion < upgradeTo → (if input.DebugMode then 11 else 10) < upgradeTo →
      ∃ final e, UpgradefogosVersion input state upgradeTo firstTime = some (final, some e) ∧
        e.isErrFatalNodeOutOfDate = true ∧
        final.storedVersion = state.storedVersion) := by
  obtain ⟨final, err, hrun, hst, hmono, hok, herr, hsupp, hbeyond⟩ :=
    upgradeLoop_result input upgradeTo (upgradeTo - state.fogosVersion) state (le_refl _)
      hversion
  have hof := UpgradefogosVersion_of_loop input state upgradeTo firstTime final err hrun
  refine ⟨?_, ?_, ?_, ?_⟩
  · cases herr2 : err with
    | none =>
      obtain ⟨result, hres, hrv, hrs⟩ := hof.2 herr2
      exact ⟨result, none, hres, by omega, by omega⟩
    | some e => exact ⟨final, some e, hof.1 e herr2, hmono, by omega⟩
  · intro hle
    have hnone : err = none := by
      cases herr2 : err with
      | none => rfl
      | some e =>
        have := (herr e herr2).2
        omega
    obtain ⟨result, hres, hrv, hrs⟩ := hof.2 hnone
    have hfv := hok hnone
    rw [max_eq_left hle] at hfv
    exact ⟨result, hres, by omega, by omega⟩
  · intro hlt hmax
    have hnone := hsupp hmax
    obtain ⟨result, hres, hrv, hrs⟩ := hof.2 hnone
    have hfv := hok hnone
    rw [max_eq_right (le_of_lt hlt)] at hfv
    exact ⟨result, hres, by omega, by omega⟩
  · intro hlt hmax
    cases herr2 : err with
    | none => exact absurd herr2 (hbeyond hlt hmax)
    | some e => exact ⟨final, e, hof.1 e herr2, by cases e; rfl, hst⟩

/-- Witness of C30 outside debug mode: from version 8 the upgrade to 10 succeeds with both
versions at 10, and the upgrade to 12 fails, with the stored version still 8. -/
theorem UpgradefogosVersion_versions_witness :
    (UpgradefogosVersion (toyInput false) (toyState 8) 10 false).map
      (fun r => (r.1.fogosVersion, r.1.storedVersion, r.2)) = some (10, 10, none) ∧
    (UpgradefogosVersion (toyInput false) (toyState 8) 12 false).map
      (fun r => (r.1.storedVersion, r.2)) = some (8, some (.unsupported 11)) ∧
    (∃ final, UpgradefogosVersion (toyInput false) (toyState 8) 10 false = some (final, none) ∧
      final.fogosVersion = 10 ∧ final.storedVersion = 10) :=
  ⟨rfl, rfl,
   (UpgradefogosVersion_versions (toyInput false) (toyState 8) 10 false (by decide)
     rfl).2.2.1 (by decide) (by decide)⟩

end FogosState
